import Mathlib

/-
  Verification of the cheers chess engine core (cheers_lib).

  Bitboards are modelled as natural numbers kept below 2^64; every u64
  operation of the source is translated with an explicit wrap where the
  source can overflow.  Squares are naturals 0..63 (file = sq % 8,
  rank = sq / 8, square 0 = a1).  The code of cheers_lib/src is translated
  definition by definition; the crates cheers_bitboards, cheers_pregen and
  the modules moves.rs / zobrist.rs / eval_params.rs are not part of the
  sources and are modelled from the specification where needed (their
  definitions carry a "Modelled from the spec:" comment).
-/

namespace Cheers

/-- The 64-bit all-ones mask, used to model u64 complement. -/
def mask64 : Nat := 2 ^ 64 - 1

/-- u64 left shift: bits shifted above bit 63 are dropped. -/
def shl (b n : Nat) : Nat := (b <<< n) % 2 ^ 64

/-- u64 right shift (never leaves the 64-bit range for b < 2^64). -/
def shr (b n : Nat) : Nat := b >>> n

/-- u64 bitwise complement. -/
def inverse (b : Nat) : Nat := b ^^^ mask64

/-- Square-set membership: bit `sq` of the bitboard. -/
def bbMem (b sq : Nat) : Bool := b.testBit sq

/-- BitBoard::count_ones for a 64-bit value. -/
def count_ones (b : Nat) : Nat := (List.range 64).countP (fun i => b.testBit i)

/-- BitBoard::first_square: index of the least significant set bit,
64 (Square::NULL) for the empty board. -/
def first_square (b : Nat) : Nat := (List.range 64).findIdx (fun i => b.testBit i)

/-- Iteration over a bitboard: the list of set squares in increasing order,
as produced by the BitBoard iterator. -/
def squaresOf (b : Nat) : List Nat := (List.range 64).filter (fun i => b.testBit i)

/-- BitBoard::is_empty. -/
def is_empty (b : Nat) : Bool := b == 0

/-- BitBoard::is_not_empty. -/
def is_not_empty (b : Nat) : Bool := b != 0

/-- Square::offset(file, rank): move a square index by a file and a rank
delta (square arithmetic of cheers_bitboards, file = sq % 8). -/
def offset (sq : Nat) (df dr : Int) : Nat := ((sq : Int) + df + 8 * dr).toNat

/-- Square file (sq % 8). -/
def fileOf (sq : Nat) : Nat := sq % 8

/-- Square rank (sq / 8). -/
def rankOf (sq : Nat) : Nat := sq / 8

inductive ColorIndex where
  | White
  | Black
  deriving DecidableEq, Repr, Fintype

namespace ColorIndex

/-- Negation of a color (std::ops::Not for ColorIndex). -/
def not : ColorIndex → ColorIndex
  | White => Black
  | Black => White

/-- ColorIndex as usize (White = 0, Black = 1). -/
def toNat : ColorIndex → Nat
  | White => 0
  | Black => 1

end ColorIndex

inductive PieceIndex where
  | Pawn
  | Knight
  | Bishop
  | Rook
  | Queen
  | King
  | NoPiece
  deriving DecidableEq, Repr, Fintype

namespace PieceIndex

/-- PieceIndex::is_slider. -/
def is_slider (p : PieceIndex) : Bool :=
  p == Bishop || p == Rook || p == Queen

/-- PieceIndex::from_u8. -/
def from_u8 (n : Nat) : PieceIndex :=
  match n with
  | 0 => Pawn
  | 1 => Knight
  | 2 => Bishop
  | 3 => Rook
  | 4 => Queen
  | 5 => King
  | _ => NoPiece

/-- PieceIndex as u8/usize. -/
def toNat : PieceIndex → Nat
  | Pawn => 0
  | Knight => 1
  | Bishop => 2
  | Rook => 3
  | Queen => 4
  | King => 5
  | NoPiece => 6

end PieceIndex

inductive CastlingIndex where
  | Queenside
  | Kingside
  deriving DecidableEq, Repr, Fintype

/-- ColorMasks: one occupancy bitboard per color. -/
def ColorMasks := ColorIndex → Nat

/-- PieceMasks: one bitboard per (color, piece kind). -/
def PieceMasks := ColorIndex → PieceIndex → Nat

/-- CastlingRights: four flags indexed by (color, side). -/
def CastlingRights := ColorIndex → CastlingIndex → Bool

instance : DecidableEq ColorMasks := fun a b =>
  decidable_of_iff (a ColorIndex.White = b ColorIndex.White ∧
      a ColorIndex.Black = b ColorIndex.Black) (by
    constructor
    · intro h
      have : ∀ c, a c = b c := by
        intro c
        cases c
        · exact h.1
        · exact h.2
      exact funext this
    · intro h
      cases h
      exact ⟨rfl, rfl⟩)

instance : DecidableEq PieceMasks := fun a b =>
  decidable_of_iff (∀ c ∈ [ColorIndex.White, ColorIndex.Black],
      ∀ p ∈ [PieceIndex.Pawn, PieceIndex.Knight, PieceIndex.Bishop, PieceIndex.Rook,
        PieceIndex.Queen, PieceIndex.King, PieceIndex.NoPiece], a c p = b c p)
    (by
    constructor
    · intro h
      have : ∀ c p, a c p = b c p := by
        intro c p
        cases c <;> cases p <;> simp_all
      exact funext fun c => funext fun p => this c p
    · intro h
      cases h
      intro c _ p _
      rfl)

instance : DecidableEq CastlingRights := fun a b =>
  decidable_of_iff (∀ c ∈ [ColorIndex.White, ColorIndex.Black],
      ∀ s ∈ [CastlingIndex.Queenside, CastlingIndex.Kingside], a c s = b c s)
    (by
    constructor
    · intro h
      have : ∀ c s, a c s = b c s := by
        intro c s
        cases c <;> cases s <;> simp_all
      exact funext fun c => funext fun s => this c s
    · intro h
      cases h
      intro c _ s _
      rfl)

/-- Point update of a ColorMasks array. -/
def updCM (cm : ColorMasks) (c : ColorIndex) (v : Nat) : ColorMasks :=
  fun c' => if c' = c then v else cm c'

/-- Point update of a PieceMasks array. -/
def updPM (pm : PieceMasks) (c : ColorIndex) (p : PieceIndex) (v : Nat) : PieceMasks :=
  fun c' p' => if c' = c ∧ p' = p then v else pm c' p'

/-- Point update of the castling-rights array for one color
(`castling_rights[color] = [qs, ks]`). -/
def updCRColor (cr : CastlingRights) (c : ColorIndex) (qs ks : Bool) : CastlingRights :=
  fun c' s' =>
    if c' = c then (match s' with | CastlingIndex.Queenside => qs | CastlingIndex.Kingside => ks)
    else cr c' s'

/-- Point update of a single castling-rights flag. -/
def updCR (cr : CastlingRights) (c : ColorIndex) (s : CastlingIndex) (v : Bool) : CastlingRights :=
  fun c' s' => if c' = c ∧ s' = s then v else cr c' s'

open ColorIndex PieceIndex CastlingIndex

/-- Modelled from the spec: the Move record (spec section 3), a 32-bit
encoded record with start, target, piece, promotion, capture,
double_pawn_push, en_passant and castling fields (module moves.rs is not
among the sources). -/
structure Move where
  start : Nat
  target : Nat
  piece : PieceIndex
  promotion : PieceIndex
  capture : Bool
  double_pawn_push : Bool
  en_passent : Bool
  castling : Bool
  deriving DecidableEq, Repr

namespace Move

/-- Modelled from the spec: the general Move constructor (moves.rs). -/
def new (s t : Nat) (p promo : PieceIndex) (cap dpp ep cas : Bool) : Move :=
  ⟨s, t, p, promo, cap, dpp, ep, cas⟩

/-- Modelled from the spec: a plain king move. -/
def king_move (s t : Nat) (cap : Bool) : Move := new s t King NoPiece cap false false false

/-- Modelled from the spec: a castling king move. -/
def king_castle (s t : Nat) : Move := new s t King NoPiece false false false true

/-- Modelled from the spec: a single pawn push. -/
def pawn_push (s t : Nat) : Move := new s t Pawn NoPiece false false false false

/-- Modelled from the spec: a double pawn push. -/
def pawn_double_push (s t : Nat) : Move := new s t Pawn NoPiece false true false false

/-- Modelled from the spec: a pawn capture. -/
def pawn_capture (s t : Nat) : Move := new s t Pawn NoPiece true false false false

/-- Modelled from the spec: a pawn push promotion. -/
def pawn_push_promotion (s t : Nat) (promo : PieceIndex) : Move :=
  new s t Pawn promo false false false false

/-- Modelled from the spec: a pawn capture promotion. -/
def pawn_capture_promotion (s t : Nat) (promo : PieceIndex) : Move :=
  new s t Pawn promo true false false false

/-- Modelled from the spec: an en-passant pawn capture. -/
def pawn_enpassent_capture (s t : Nat) : Move := new s t Pawn NoPiece true false true false

/-- Modelled from the spec: a knight move. -/
def knight_move (s t : Nat) (cap : Bool) : Move := new s t Knight NoPiece cap false false false

/-- Modelled from the spec: a bishop move. -/
def bishop_move (s t : Nat) (cap : Bool) : Move := new s t Bishop NoPiece cap false false false

/-- Modelled from the spec: a rook move. -/
def rook_move (s t : Nat) (cap : Bool) : Move := new s t Rook NoPiece cap false false false

/-- Modelled from the spec: a queen move. -/
def queen_move (s t : Nat) (cap : Bool) : Move := new s t Queen NoPiece cap false false false

end Move

/-- Modelled from the spec: the UndoRecord (spec section 3), pushed by
make and popped by unmake; field order follows the UnMove::new call in
make_move (moves.rs is not among the sources). -/
structure UnMove where
  start : Nat
  target : Nat
  promotion : Bool
  capture : PieceIndex
  en_passent : Bool
  en_passent_mask : Nat
  castling : Bool
  castling_rights : CastlingRights
  halfmove_clock : Nat
  deriving DecidableEq

/-- UnMove::new. -/
def UnMove.new (s t : Nat) (promo : Bool) (cap : PieceIndex) (ep : Bool) (epMask : Nat)
    (cas : Bool) (rights : CastlingRights) (clock : Nat) : UnMove :=
  ⟨s, t, promo, cap, ep, epMask, cas, rights, clock⟩

-- masks to prevent A-H file wrapping (lookup_tables.rs consts)
def NOT_A_FILE : Nat := inverse 0x0101010101010101
def NOT_A_B_FILES : Nat := inverse 0x0303030303030303
def NOT_H_FILE : Nat := inverse 0x8080808080808080
def NOT_G_H_FILES : Nat := inverse 0xC0C0C0C0C0C0C0C0

def A_FILE : Nat := 0x0101010101010101
def B_FILE : Nat := 0x0202020202020202
def C_FILE : Nat := 0x0404040404040404
def D_FILE : Nat := 0x0808080808080808
def E_FILE : Nat := 0x1010101010101010
def F_FILE : Nat := 0x2020202020202020
def G_FILE : Nat := 0x4040404040404040
def H_FILE : Nat := 0x8080808080808080

def FILES : List Nat := [A_FILE, B_FILE, C_FILE, D_FILE, E_FILE, F_FILE, G_FILE, H_FILE]

def FIRST_RANK : Nat := 0x00000000000000FF
def SECOND_RANK : Nat := 0x000000000000FF00
def THIRD_RANK : Nat := 0x0000000000FF0000
def FOURTH_RANK : Nat := 0x00000000FF000000
def FIFTH_RANK : Nat := 0x000000FF00000000
def SIXTH_RANK : Nat := 0x0000FF0000000000
def SEVENTH_RANK : Nat := 0x00FF000000000000
def EIGHTH_RANK : Nat := 0xFF00000000000000

def LIGHT_SQUARES : Nat := 0x5555555555555555
def DARK_SQUARES : Nat := 0xAAAAAAAAAAAAAAAA
def LONG_DIAGONALS : Nat := 0x8142241818244281

/-- lookup_tables.rs adjacent_files. -/
def adjacent_files (file : Nat) : Nat :=
  match file with
  | 0 => B_FILE
  | 1 => A_FILE ||| C_FILE
  | 2 => B_FILE ||| D_FILE
  | 3 => C_FILE ||| E_FILE
  | 4 => D_FILE ||| F_FILE
  | 5 => E_FILE ||| G_FILE
  | 6 => F_FILE ||| H_FILE
  | _ => G_FILE

/-- Knight attack mask from one square: the shift formula of the repo's
table generator (src/lookup_tables.rs generate_knight_table), applied to
the single-square board. -/
def lookup_knight (sq : Nat) : Nat :=
  if sq < 64 then
    let k := shl 1 sq
    (shl k 6 &&& NOT_G_H_FILES) ||| (shl k 10 &&& NOT_A_B_FILES) |||
    (shl k 15 &&& NOT_H_FILE) ||| (shl k 17 &&& NOT_A_FILE) |||
    (shr k 6 &&& NOT_A_B_FILES) ||| (shr k 10 &&& NOT_G_H_FILES) |||
    (shr k 15 &&& NOT_A_FILE) ||| (shr k 17 &&& NOT_H_FILE)
  else 0

/-- King attack mask from one square: the shift formula of the repo's
table generator (src/lookup_tables.rs generate_king_table). -/
def lookup_king (sq : Nat) : Nat :=
  if sq < 64 then
    let k := shl 1 sq
    let m := (shl k 1 &&& NOT_A_FILE) ||| (shr k 1 &&& NOT_H_FILE)
    let k2 := k ||| m
    m ||| shl k2 8 ||| shr k2 8
  else 0

/-- Modelled from the spec: the pawn attack table (cheers_pregen is not
among the sources); the White/Black capture shifts match pawn_attacks in
chessgame/mod.rs applied to a single square. -/
def lookup_pawn_attack (sq : Nat) (c : ColorIndex) : Nat :=
  if sq < 64 then
    let b := shl 1 sq
    match c with
    | White => (shl b 7 &&& NOT_H_FILE) ||| (shl b 9 &&& NOT_A_FILE)
    | Black => (shr b 9 &&& NOT_H_FILE) ||| (shr b 7 &&& NOT_A_FILE)
  else 0

/-- Modelled from the spec: the pawn single-push table (cheers_pregen is
not among the sources): the square one rank ahead, empty past the edge. -/
def lookup_pawn_push (sq : Nat) (c : ColorIndex) : Nat :=
  if sq < 64 then
    let b := shl 1 sq
    match c with
    | White => shl b 8
    | Black => shr b 8
  else 0

/-- Modelled from the spec: one sliding ray from (f, r) in direction
(df, dr), continuing past each square until the board edge or the first
blocker (inclusive), as the true ray attack of spec section 4.1. -/
def ray (block : Nat) (df dr : Int) : Nat → Int → Int → Nat
  | 0, _, _ => 0
  | Nat.succ fuel, f, r =>
    let f' := f + df
    let r' := r + dr
    if 0 ≤ f' ∧ f' < 8 ∧ 0 ≤ r' ∧ r' < 8 then
      let sq := (f' + 8 * r').toNat
      (1 <<< sq) ||| (if block.testBit sq then 0 else ray block df dr fuel f' r')
    else 0

/-- Modelled from the spec: rook sliding attacks via the magic table
(cheers_pregen is not among the sources), specified as the true ray
attacks in the four orthogonal directions. -/
def lookup_rook (sq : Nat) (block : Nat) : Nat :=
  if sq < 64 then
    let f : Int := (sq % 8 : Nat)
    let r : Int := (sq / 8 : Nat)
    ray block 0 1 8 f r ||| ray block 0 (-1) 8 f r ||| ray block 1 0 8 f r |||
      ray block (-1) 0 8 f r
  else 0

/-- Modelled from the spec: bishop sliding attacks via the magic table
(cheers_pregen is not among the sources), specified as the true ray
attacks in the four diagonal directions. -/
def lookup_bishop (sq : Nat) (block : Nat) : Nat :=
  if sq < 64 then
    let f : Int := (sq % 8 : Nat)
    let r : Int := (sq / 8 : Nat)
    ray block 1 1 8 f r ||| ray block 1 (-1) 8 f r ||| ray block (-1) 1 8 f r |||
      ray block (-1) (-1) 8 f r
  else 0

/-- lookup_tables.rs lookup_queen: union of the rook and bishop lookups. -/
def lookup_queen (sq : Nat) (block : Nat) : Nat :=
  lookup_rook sq block ||| lookup_bishop sq block

/-- Modelled from the spec: walk helper for the between table; collects
squares from (f, r) onward in direction (df, dr) until the target square
b is reached. -/
def betweenWalk (b : Nat) (df dr : Int) : Nat → Int → Int → Nat
  | 0, _, _ => 0
  | Nat.succ fuel, f, r =>
    if 0 ≤ f ∧ f < 8 ∧ 0 ≤ r ∧ r < 8 then
      let sq := (f + 8 * r).toNat
      if sq = b then 0
      else (1 <<< sq) ||| betweenWalk b df dr fuel (f + df) (r + dr)
    else 0

/-- Modelled from the spec: the between table (spec section 4.1): the open
ray strictly between two squares sharing a rank, file or diagonal,
otherwise empty (cheers_pregen is not among the sources). -/
def lookup_between (a b : Nat) : Nat :=
  if a < 64 ∧ b < 64 ∧ a ≠ b then
    let fa : Int := (a % 8 : Nat)
    let ra : Int := (a / 8 : Nat)
    let fb : Int := (b % 8 : Nat)
    let rb : Int := (b / 8 : Nat)
    let df := (fb - fa).sign
    let dr := (rb - ra).sign
    if fa = fb ∨ ra = rb ∨ (fb - fa).natAbs = (rb - ra).natAbs then
      betweenWalk b df dr 8 (fa + df) (ra + dr)
    else 0
  else 0

/-- The position state (chessgame/mod.rs ChessGame). -/
structure ChessGame where
  color_masks : ColorMasks
  combined : Nat
  piece_masks : PieceMasks
  current_player : ColorIndex
  castling_rights : CastlingRights
  en_passent_mask : Nat
  halfmove_clock : Nat
  hash : Nat
  position_history : List Nat
  unmove_history : List UnMove
  deriving DecidableEq

namespace ChessGame

/-- ChessGame::piece_at. -/
def piece_at (g : ChessGame) (square : Nat) : PieceIndex :=
  let test := shl 1 square
  if is_empty (g.combined &&& test) then NoPiece
  else
    let pawns := g.piece_masks White Pawn ||| g.piece_masks Black Pawn
    let knights := g.piece_masks White Knight ||| g.piece_masks Black Knight
    let bishops := g.piece_masks White Bishop ||| g.piece_masks Black Bishop
    let rooks := g.piece_masks White Rook ||| g.piece_masks Black Rook
    let queens := g.piece_masks White Queen ||| g.piece_masks Black Queen
    if is_not_empty ((pawns ||| knights ||| bishops) &&& test) then
      if is_not_empty (pawns &&& test) then Pawn
      else if is_not_empty (knights &&& test) then Knight
      else Bishop
    else if is_not_empty (rooks &&& test) then Rook
    else if is_not_empty (queens &&& test) then Queen
    else King

/-- ChessGame::color_at. -/
def color_at (g : ChessGame) (square : Nat) : ColorIndex :=
  if is_not_empty (g.color_masks White &&& shl 1 square) then White else Black

/-- ChessGame::en_passent_square. -/
def en_passent_square (g : ChessGame) : Option Nat :=
  match first_square g.en_passent_mask with
  | 64 => none
  | sq => some sq

/-- ChessGame::has_non_pawn_material. -/
def has_non_pawn_material (g : ChessGame) (color : ColorIndex) : Bool :=
  !(is_empty (g.piece_masks color Knight ||| g.piece_masks color Bishop |||
      g.piece_masks color Rook ||| g.piece_masks color Queen))

/-- ChessGame::pawn_attacks. -/
def pawn_attacks (g : ChessGame) (color : ColorIndex) : Nat :=
  match color with
  | White =>
    let pawns := g.piece_masks White Pawn
    let west_attacks := shl pawns 7 &&& NOT_H_FILE
    let east_attacks := shl pawns 9 &&& NOT_A_FILE
    west_attacks ||| east_attacks
  | Black =>
    let pawns := g.piece_masks Black Pawn
    let west_attacks := shr pawns 9 &&& NOT_H_FILE
    let east_attacks := shr pawns 7 &&& NOT_A_FILE
    west_attacks ||| east_attacks

/-- ChessGame::pawn_front_spans. -/
def pawn_front_spans (g : ChessGame) (color : ColorIndex) : Nat :=
  let spans := g.piece_masks color Pawn
  if color = White then
    let spans := spans ||| shl spans 8
    let spans := spans ||| shl spans 16
    spans ||| shl spans 32
  else
    let spans := spans ||| shr spans 8
    let spans := spans ||| shr spans 16
    spans ||| shr spans 32

/-- ChessGame::pawn_attack_spans. -/
def pawn_attack_spans (g : ChessGame) (color : ColorIndex) : Nat :=
  let spans := g.pawn_attacks color
  if color = White then
    let spans := spans ||| shl spans 8
    let spans := spans ||| shl spans 16
    spans ||| shl spans 32
  else
    let spans := spans ||| shr spans 8
    let spans := spans ||| shr spans 16
    spans ||| shr spans 32

/-- ChessGame::knight_attacks: union of attacks of all knights of a color. -/
def knight_attacks (g : ChessGame) (color : ColorIndex) : Nat :=
  (squaresOf (g.piece_masks color Knight)).foldl (fun result i => result ||| lookup_knight i) 0

/-- ChessGame::bishop_attacks. -/
def bishop_attacks (g : ChessGame) (color : ColorIndex) (blocking_mask : Nat) : Nat :=
  (squaresOf (g.piece_masks color Bishop)).foldl
    (fun result i => result ||| lookup_bishop i blocking_mask) 0

/-- ChessGame::rook_attacks. -/
def rook_attacks (g : ChessGame) (color : ColorIndex) (blocking_mask : Nat) : Nat :=
  (squaresOf (g.piece_masks color Rook)).foldl
    (fun result i => result ||| lookup_rook i blocking_mask) 0

/-- ChessGame::queen_attacks. -/
def queen_attacks (g : ChessGame) (color : ColorIndex) (blocking_mask : Nat) : Nat :=
  (squaresOf (g.piece_masks color Queen)).foldl
    (fun result i => result ||| lookup_queen i blocking_mask) 0

/-- ChessGame::king_attacks. -/
def king_attacks (g : ChessGame) (color : ColorIndex) : Nat :=
  lookup_king (first_square (g.piece_masks color King))

/-- ChessGame::discovered_attacks. -/
def discovered_attacks (g : ChessGame) (square : Nat) (color : ColorIndex) : Nat :=
  let rookAtt := lookup_rook square g.combined
  let bishopAtt := lookup_bishop square g.combined
  let rooks := g.piece_masks color.not Rook &&& inverse rookAtt
  let bishops := g.piece_masks color.not Bishop &&& inverse bishopAtt
  (rooks &&& lookup_rook square (g.combined &&& inverse rookAtt)) |||
    (bishops &&& lookup_bishop square (g.combined &&& inverse bishopAtt))

/-- ChessGame::all_attacks. -/
def all_attacks (g : ChessGame) (color : ColorIndex) (blocking_mask : Nat) : Nat :=
  g.pawn_attacks color ||| g.knight_attacks color ||| g.king_attacks color |||
    g.bishop_attacks color blocking_mask ||| g.rook_attacks color blocking_mask |||
    g.queen_attacks color blocking_mask

/-- ChessGame::in_check. -/
def in_check (g : ChessGame) (color : ColorIndex) : Bool :=
  is_not_empty (g.all_attacks color.not g.combined &&& g.piece_masks color King)

/-- ChessGame::is_pseudolegal. -/
def is_pseudolegal (g : ChessGame) (start target : Nat) : Bool :=
  if start = target then true
  else
    let piece := g.piece_at start
    let color := g.current_player
    match piece with
    | Pawn =>
      let d := max target start - min target start
      if d % 8 ≠ 0 then
        is_not_empty (g.pawn_attacks color &&&
          (g.color_masks color.not ||| g.en_passent_mask) &&& shl 1 target)
      else
        let push_one := lookup_pawn_push start color &&& inverse g.combined
        if d = 8 && is_not_empty (push_one &&& shl 1 target) then true
        else if d = 16 && is_not_empty push_one then
          is_not_empty (lookup_pawn_push (first_square push_one) color &&&
            inverse g.combined &&& shl 1 target)
        else false
    | Knight =>
      is_not_empty (g.knight_attacks color &&& inverse (g.color_masks color) &&& shl 1 target)
    | Bishop =>
      is_not_empty (g.bishop_attacks color g.combined &&& inverse (g.color_masks color) &&&
        shl 1 target)
    | Rook =>
      is_not_empty (g.rook_attacks color g.combined &&& inverse (g.color_masks color) &&&
        shl 1 target)
    | Queen =>
      is_not_empty (g.queen_attacks color g.combined &&& inverse (g.color_masks color) &&&
        shl 1 target)
    | King =>
      is_not_empty (g.king_attacks color &&& inverse (g.color_masks color) &&& shl 1 target)
    | NoPiece => false

/-- The checker set computed at the top of ChessGame::legal_moves: enemy
pieces directly attacking the king of the side to move. -/
def checkers (g : ChessGame) : Nat :=
  let color := g.current_player
  let king_square := first_square (g.piece_masks color King)
  (lookup_pawn_attack king_square color &&& g.piece_masks color.not Pawn) |||
    (lookup_knight king_square &&& g.piece_masks color.not Knight) |||
    (lookup_bishop king_square g.combined &&&
      (g.piece_masks color.not Bishop ||| g.piece_masks color.not Queen)) |||
    (lookup_rook king_square g.combined &&&
      (g.piece_masks color.not Rook ||| g.piece_masks color.not Queen))

/-- ChessGame::legal_moves, translated block by block; the moves pushed
into the Vec become list concatenation in the same order. -/
def legal_moves (g : ChessGame) : List Move :=
  let color := g.current_player
  let king_square := first_square (g.piece_masks color King)
  -- King moves
  let kingless_blocking_mask :=
    (g.color_masks color ^^^ g.piece_masks color King) ||| g.color_masks color.not
  let attacked_squares := g.all_attacks color.not kingless_blocking_mask
  let king_moves :=
    g.king_attacks color &&& inverse (attacked_squares ||| g.color_masks color)
  let kingMoveList := (squaresOf king_moves).map (fun target =>
    Move.king_move king_square target (is_not_empty (shl 1 target &&& g.color_masks color.not)))
  -- Check evasions
  let checkers := g.checkers
  let num_checkers := count_ones checkers
  -- only king moves are legal in double+ check
  if 1 < num_checkers then kingMoveList
  else
    -- mask of squares a piece can capture on / move to
    let capture_mask := if num_checkers = 1 then checkers else mask64
    let push_mask :=
      if num_checkers = 1 then
        let checker_square := first_square checkers
        if (g.piece_at checker_square).is_slider then
          if rankOf king_square = rankOf checker_square ∨
              fileOf king_square = fileOf checker_square then
            -- orthogonal slider
            let slider_rays := lookup_rook king_square (shl 1 checker_square)
            lookup_rook checker_square (shl 1 king_square) &&& slider_rays
          else
            -- diagonal slider
            let slider_rays := lookup_bishop king_square (shl 1 checker_square)
            lookup_bishop checker_square (shl 1 king_square) &&& slider_rays
        else 0
      else mask64
    -- Pinned pieces
    let orthogonal_pin_rays := lookup_rook king_square (g.color_masks color.not)
    let pinning_orthogonals :=
      (g.piece_masks color.not Rook ||| g.piece_masks color.not Queen) &&& orthogonal_pin_rays
    let orthoPinMoves := (squaresOf pinning_orthogonals).flatMap (fun pinner_square =>
      let pin_ray := lookup_between king_square pinner_square
      if count_ones (pin_ray &&& g.color_masks color) = 1 then
        let pinned_rook_or_queen :=
          pin_ray &&& (g.piece_masks color Rook ||| g.piece_masks color Queen)
        let rookPart :=
          if is_not_empty pinned_rook_or_queen then
            let rook_square := first_square pinned_rook_or_queen
            let rook_moves := (pin_ray ||| shl 1 pinner_square) &&&
              (push_mask ||| capture_mask) &&& inverse pinned_rook_or_queen
            (squaresOf rook_moves).map (fun target =>
              Move.new rook_square target (g.piece_at rook_square) NoPiece
                (target == pinner_square) false false false)
          else []
        let pinned_pawn := pin_ray &&& g.piece_masks color Pawn
        let pawnPart :=
          if is_not_empty pinned_pawn then
            let pawn_square := first_square pinned_pawn
            let pawn_moves := lookup_pawn_push pawn_square color &&& pin_ray &&&
              push_mask &&& inverse g.combined
            let pawn_moves :=
              if is_not_empty pawn_moves ∧
                  ((color = White ∧ rankOf pawn_square = 1 ∧
                      is_empty (g.combined &&& shl 1 (offset pawn_square 0 2))) ∨
                    (color = Black ∧ rankOf pawn_square = 6 ∧
                      is_empty (g.combined &&& shl 1 (offset pawn_square 0 (-2))))) then
                pawn_moves ||| lookup_pawn_push (first_square pawn_moves) color
              else pawn_moves
            (squaresOf pawn_moves).map (fun target =>
              Move.new pawn_square target Pawn NoPiece false
                (max target pawn_square - min target pawn_square == 16) false false)
          else []
        rookPart ++ pawnPart
      else [])
    let diagonal_pin_rays := lookup_bishop king_square (g.color_masks color.not)
    let pinning_diagonals :=
      (g.piece_masks color.not Bishop ||| g.piece_masks color.not Queen) &&& diagonal_pin_rays
    let diagPinMoves := (squaresOf pinning_diagonals).flatMap (fun pinner_square =>
      let pin_ray := lookup_between king_square pinner_square
      if count_ones (pin_ray &&& g.color_masks color) = 1 then
        let pinned_bishop_or_queen :=
          pin_ray &&& (g.piece_masks color Bishop ||| g.piece_masks color Queen)
        let bishopPart :=
          if is_not_empty pinned_bishop_or_queen then
            let bishop_square := first_square pinned_bishop_or_queen
            let bishop_moves := (pin_ray ||| shl 1 pinner_square) &&&
              (push_mask ||| capture_mask) &&& inverse pinned_bishop_or_queen
            (squaresOf bishop_moves).map (fun target =>
              Move.new bishop_square target (g.piece_at bishop_square) NoPiece
                (target == pinner_square) false false false)
          else []
        let pinned_pawn := pin_ray &&& g.piece_masks color Pawn
        let pawnPart :=
          if is_not_empty pinned_pawn then
            let pawn_square := first_square pinned_pawn
            let pawn_moves := lookup_pawn_attack pawn_square color &&& shl 1 pinner_square &&&
              capture_mask &&& (g.color_masks color.not ||| g.en_passent_mask)
            (squaresOf pawn_moves).flatMap (fun target =>
              if rankOf target = color.not.toNat * 7 then
                -- pinned pawn capture promotions
                [Move.pawn_capture_promotion pawn_square target Knight,
                  Move.pawn_capture_promotion pawn_square target Bishop,
                  Move.pawn_capture_promotion pawn_square target Rook,
                  Move.pawn_capture_promotion pawn_square target Queen]
              else
                [Move.new pawn_square target Pawn NoPiece true false
                  (if g.en_passent_mask = 0 then false
                    else target == first_square g.en_passent_mask) false])
          else []
        bishopPart ++ pawnPart
      else [])
    -- pinned-piece mask accumulated across both pin loops
    let pinned_pieces := (squaresOf pinning_orthogonals).foldl (fun acc pinner_square =>
      let pin_ray := lookup_between king_square pinner_square
      if count_ones (pin_ray &&& g.color_masks color) = 1 then
        acc ||| (pin_ray &&& g.color_masks color)
      else acc) 0
    let pinned_pieces := (squaresOf pinning_diagonals).foldl (fun acc pinner_square =>
      let pin_ray := lookup_between king_square pinner_square
      if count_ones (pin_ray &&& g.color_masks color) = 1 then
        acc ||| (pin_ray &&& g.color_masks color)
      else acc) pinned_pieces
    -- Castling if not in check
    let castleMoves :=
      if num_checkers = 0 then
        let king := g.piece_masks color King
        let ks :=
          if g.castling_rights color Kingside &&
              is_empty (g.combined &&& (shl king 1 ||| shl king 2)) &&
              is_empty (attacked_squares &&& (shl king 1 ||| shl king 2)) then
            let start := first_square king
            [Move.king_castle start (offset start 2 0)]
          else []
        let qs :=
          if g.castling_rights color Queenside &&
              is_empty (g.combined &&& (shr king 1 ||| shr king 2 ||| shr king 3)) &&
              is_empty (attacked_squares &&& (shr king 1 ||| shr king 2)) then
            let start := first_square king
            [Move.king_castle start (offset start (-2) 0)]
          else []
        ks ++ qs
      else []
    -- Pawn moves
    let pawns := g.piece_masks color Pawn &&& inverse pinned_pieces
    let pawnMoves :=
      if color = White then
        (squaresOf pawns).flatMap (fun pawn_square =>
          let pawn := shl 1 pawn_square
          -- single pawn pushes
          let pushPart :=
            let pawn_push_one := shl pawn 8 &&& push_mask &&& inverse g.combined
            if is_not_empty pawn_push_one then
              let target := first_square pawn_push_one
              if rankOf target = 7 then
                [Move.pawn_push_promotion pawn_square target Knight,
                  Move.pawn_push_promotion pawn_square target Bishop,
                  Move.pawn_push_promotion pawn_square target Rook,
                  Move.pawn_push_promotion pawn_square target Queen]
              else [Move.pawn_push pawn_square target]
            else []
          -- double pawn pushes
          let doublePart :=
            let pawn_push_two := shl (shl (pawn &&& SECOND_RANK) 8 &&& inverse g.combined) 8 &&&
              inverse g.combined &&& push_mask
            if is_not_empty pawn_push_two then
              [Move.pawn_double_push pawn_square (first_square pawn_push_two)]
            else []
          -- pawn captures
          let capPart :=
            let pawn_captures := ((shl (pawn &&& NOT_A_FILE) 7) ||| (shl (pawn &&& NOT_H_FILE) 9))
              &&& (capture_mask ||| (g.en_passent_mask &&& shl capture_mask 8))
              &&& (g.color_masks color.not ||| g.en_passent_mask)
            (squaresOf pawn_captures).flatMap (fun target =>
              if rankOf target = 7 then
                [Move.pawn_capture_promotion pawn_square target Knight,
                  Move.pawn_capture_promotion pawn_square target Bishop,
                  Move.pawn_capture_promotion pawn_square target Rook,
                  Move.pawn_capture_promotion pawn_square target Queen]
              else if shl 1 target = g.en_passent_mask then
                -- en passent capture
                if rankOf (first_square (g.piece_masks color King)) = 4 then
                  let blocking_mask := g.combined &&&
                    inverse (shl 1 pawn_square ||| shr g.en_passent_mask 8)
                  let attacking_rooks_or_queens :=
                    (g.piece_masks color.not Rook ||| g.piece_masks color.not Queen) &&& FIFTH_RANK
                  let en_passent_pinned := (squaresOf attacking_rooks_or_queens).any
                    (fun rook_square =>
                      is_not_empty (lookup_rook rook_square blocking_mask &&&
                        g.piece_masks color King))
                  let attacking_queens := g.piece_masks color.not Queen &&& FOURTH_RANK
                  let en_passent_pinned := en_passent_pinned ||
                    (squaresOf attacking_queens).any (fun queen_square =>
                      is_not_empty (lookup_queen queen_square blocking_mask &&&
                        g.piece_masks color King))
                  if en_passent_pinned then []
                  else [Move.pawn_enpassent_capture pawn_square target]
                else [Move.pawn_enpassent_capture pawn_square target]
              else [Move.pawn_capture pawn_square target])
          pushPart ++ doublePart ++ capPart)
      else
        (squaresOf pawns).flatMap (fun pawn_square =>
          let pawn := shl 1 pawn_square
          -- single pawn pushes
          let pushPart :=
            let pawn_push_one := shr pawn 8 &&& push_mask &&& inverse g.combined
            if is_not_empty pawn_push_one then
              let target := first_square pawn_push_one
              if rankOf target = 0 then
                [Move.pawn_push_promotion pawn_square target Knight,
                  Move.pawn_push_promotion pawn_square target Bishop,
                  Move.pawn_push_promotion pawn_square target Rook,
                  Move.pawn_push_promotion pawn_square target Queen]
              else [Move.pawn_push pawn_square target]
            else []
          -- double pawn pushes
          let doublePart :=
            let pawn_push_two := shr (shr (pawn &&& SEVENTH_RANK) 8 &&& inverse g.combined) 8 &&&
              inverse g.combined &&& push_mask
            if is_not_empty pawn_push_two then
              [Move.pawn_double_push pawn_square (first_square pawn_push_two)]
            else []
          -- pawn captures
          let capPart :=
            let pawn_captures := ((shr (pawn &&& NOT_A_FILE) 9) ||| (shr (pawn &&& NOT_H_FILE) 7))
              &&& (capture_mask ||| (g.en_passent_mask &&& shr capture_mask 8))
              &&& (g.color_masks color.not ||| g.en_passent_mask)
            (squaresOf pawn_captures).flatMap (fun target =>
              if rankOf target = 0 then
                [Move.pawn_capture_promotion pawn_square target Knight,
                  Move.pawn_capture_promotion pawn_square target Bishop,
                  Move.pawn_capture_promotion pawn_square target Rook,
                  Move.pawn_capture_promotion pawn_square target Queen]
              else if shl 1 target = g.en_passent_mask then
                -- en passent capture
                if rankOf (first_square (g.piece_masks color King)) = 3 then
                  let blocking_mask := g.combined &&&
                    inverse (shl 1 pawn_square ||| shl g.en_passent_mask 8)
                  let attacking_rooks_or_queens :=
                    (g.piece_masks color.not Rook ||| g.piece_masks color.not Queen) &&& FOURTH_RANK
                  let en_passent_pinned := (squaresOf attacking_rooks_or_queens).any
                    (fun rook_square =>
                      is_not_empty (lookup_rook rook_square blocking_mask &&&
                        g.piece_masks color King))
                  if en_passent_pinned then []
                  else [Move.pawn_enpassent_capture pawn_square target]
                else [Move.pawn_enpassent_capture pawn_square target]
              else [Move.pawn_capture pawn_square target])
          pushPart ++ doublePart ++ capPart)
    -- Knight moves
    let knights := g.piece_masks color Knight &&& inverse pinned_pieces
    let knightMoves := (squaresOf knights).flatMap (fun knight_square =>
      let attacks := lookup_knight knight_square &&& inverse (g.color_masks color) &&&
        (push_mask ||| capture_mask)
      (squaresOf attacks).map (fun target =>
        Move.knight_move knight_square target
          (is_not_empty (g.color_masks color.not &&& shl 1 target))))
    -- Bishop moves
    let bishops := g.piece_masks color Bishop &&& inverse pinned_pieces
    let bishopMoves := (squaresOf bishops).flatMap (fun bishop_square =>
      let attacks := lookup_bishop bishop_square g.combined &&& inverse (g.color_masks color) &&&
        (push_mask ||| capture_mask)
      (squaresOf attacks).map (fun target =>
        Move.bishop_move bishop_square target
          (is_not_empty (g.color_masks color.not &&& shl 1 target))))
    -- Rook moves
    let rooks := g.piece_masks color Rook &&& inverse pinned_pieces
    let rookMoves := (squaresOf rooks).flatMap (fun rook_square =>
      let attacks := lookup_rook rook_square g.combined &&& inverse (g.color_masks color) &&&
        (push_mask ||| capture_mask)
      (squaresOf attacks).map (fun target =>
        Move.rook_move rook_square target
          (is_not_empty (g.color_masks color.not &&& shl 1 target))))
    -- queen moves
    let queens := g.piece_masks color Queen &&& inverse pinned_pieces
    let queenMoves := (squaresOf queens).flatMap (fun queen_square =>
      let attacks := lookup_queen queen_square g.combined &&& inverse (g.color_masks color) &&&
        (push_mask ||| capture_mask)
      (squaresOf attacks).map (fun target =>
        Move.queen_move queen_square target
          (is_not_empty (g.color_masks color.not &&& shl 1 target))))
    kingMoveList ++ orthoPinMoves ++ diagPinMoves ++ castleMoves ++ pawnMoves ++
      knightMoves ++ bishopMoves ++ rookMoves ++ queenMoves

end ChessGame

/-- CastlingIndex as usize (Queenside = 0, Kingside = 1). -/
def CastlingIndex.toNat : CastlingIndex → Nat
  | Queenside => 0
  | Kingside => 1

/-- Modelled from the spec: a fixed pseudo-random 64-bit constant per index
(zobrist.rs with its random constants is not among the sources); a
splitmix-style mixer keeps the constants pairwise distinct in practice. -/
def zmix (n : Nat) : Nat :=
  let x := (n + 0x9E3779B97F4A7C15) % 2 ^ 64
  let x := ((x ^^^ (x >>> 30)) * 0xBF58476D1CE4E5B9) % 2 ^ 64
  let x := ((x ^^^ (x >>> 27)) * 0x94D049BB133111EB) % 2 ^ 64
  x ^^^ (x >>> 31)

/-- Modelled from the spec: one constant per (piece kind, color, square). -/
def zobrist_piece (p : PieceIndex) (c : ColorIndex) (sq : Nat) : Nat :=
  zmix (p.toNat * 128 + c.toNat * 64 + sq)

/-- Modelled from the spec: the side-to-move constant. -/
def zobrist_player : Nat := zmix 1600

/-- Modelled from the spec: XOR of the four castling-flag constants
actually held. -/
def zobrist_castling (r : CastlingRights) : Nat :=
  (if r White Queenside then zmix 1610 else 0) ^^^
    (if r White Kingside then zmix 1611 else 0) ^^^
    (if r Black Queenside then zmix 1612 else 0) ^^^
    (if r Black Kingside then zmix 1613 else 0)

/-- Modelled from the spec: one constant per en-passant file. -/
def zobrist_enpassent (mask : Nat) : Nat :=
  zmix (1620 + fileOf (first_square mask))

/-- The piece-square part of zobrist_hash, as a function of the piece
masks alone (the first fold of ChessGame::zobrist_hash). -/
def zobrist_pieces_of (pm : PieceMasks) : Nat :=
  ([Pawn, Knight, Bishop, Rook, Queen, King]).foldl (fun hash piece =>
    ([White, Black]).foldl (fun hash color =>
      (squaresOf (pm color piece)).foldl
        (fun hash square => hash ^^^ zobrist_piece piece color square) hash) hash) 0

namespace ChessGame

/-- ChessGame::zobrist_hash: the from-scratch recomputation. -/
def zobrist_hash (g : ChessGame) : Nat :=
  let hash := ([Pawn, Knight, Bishop, Rook, Queen, King]).foldl (fun hash piece =>
    ([White, Black]).foldl (fun hash color =>
      (squaresOf (g.piece_masks color piece)).foldl
        (fun hash square => hash ^^^ zobrist_piece piece color square) hash) hash) 0
  let hash := if g.current_player = Black then hash ^^^ zobrist_player else hash
  let hash := hash ^^^ zobrist_castling g.castling_rights
  if is_not_empty g.en_passent_mask then hash ^^^ zobrist_enpassent g.en_passent_mask else hash

/-- The first block of ChessGame::make_move: push the unmove record and
the previous hash, increment the halfmove clock (u8 wrap). -/
def make_push_histories (g : ChessGame) (m : Move) (captured : PieceIndex) : ChessGame :=
  { g with
    unmove_history := UnMove.new m.start m.target (decide (m.promotion ≠ NoPiece)) captured
      m.en_passent g.en_passent_mask m.castling g.castling_rights g.halfmove_clock ::
        g.unmove_history
    position_history := g.hash :: g.position_history
    halfmove_clock := (g.halfmove_clock + 1) % 256 }

/-- The Castling block of make_move: move king and rook, clear the
color's rights, update the hash. -/
def make_castle (g : ChessGame) (color : ColorIndex) (start target : Nat)
    (castling : Bool) : ChessGame :=
  if castling then
    let dx : Int := (target : Int) - (start : Int)
    let rook_start := if dx = 2 then offset target 1 0 else offset target (-2) 0
    let rook_target := if dx = 2 then offset target (-1) 0 else offset target 1 0
    let g := { g with
      hash := g.hash ^^^ zobrist_piece King color start ^^^ zobrist_piece King color target
        ^^^ zobrist_piece Rook color rook_start ^^^ zobrist_piece Rook color rook_target
      piece_masks := updPM
        (updPM g.piece_masks color King
          (g.piece_masks color King ^^^ (shl 1 target ||| shl 1 start)))
        color Rook
        (g.piece_masks color Rook ^^^ (shl 1 rook_target ||| shl 1 rook_start))
      color_masks := updCM g.color_masks color
        (g.color_masks color ^^^
          (shl 1 start ||| shl 1 target ||| shl 1 rook_start ||| shl 1 rook_target)) }
    { g with
      hash := g.hash ^^^ zobrist_castling g.castling_rights ^^^
        zobrist_castling (updCRColor g.castling_rights color false false)
      castling_rights := updCRColor g.castling_rights color false false }
  else g

/-- The capture block of make_move: remove the captured piece (en passent
aware) and reset the halfmove clock. -/
def make_capture (g : ChessGame) (color : ColorIndex) (target : Nat) (en_passent : Bool)
    (captured : PieceIndex) : ChessGame :=
  if captured ≠ NoPiece then
    let cap_square :=
      if en_passent then
        if color = White then offset target 0 (-1) else offset target 0 1
      else target
    { g with
      hash := g.hash ^^^ zobrist_piece captured color.not cap_square
      piece_masks := updPM g.piece_masks color.not captured
        (g.piece_masks color.not captured ^^^ shl 1 cap_square)
      color_masks := updCM g.color_masks color.not
        (g.color_masks color.not ^^^ shl 1 cap_square)
      halfmove_clock := 0 }
  else g

/-- The reset-en-passent block of make_move. -/
def make_clear_ep (g : ChessGame) : ChessGame :=
  if is_not_empty g.en_passent_mask then
    { g with
      hash := g.hash ^^^ zobrist_enpassent g.en_passent_mask
      en_passent_mask := 0 }
  else g

/-- The update-castling-rights block of make_move for the moving piece. -/
def make_rights_piece (g : ChessGame) (color : ColorIndex) (start : Nat)
    (piece : PieceIndex) : ChessGame :=
  if piece = King then
    { g with
      hash := g.hash ^^^ zobrist_castling g.castling_rights ^^^
        zobrist_castling (updCRColor g.castling_rights color false false)
      castling_rights := updCRColor g.castling_rights color false false }
  else if piece = Rook then
    if g.castling_rights color Kingside && (start == 7 + 56 * color.toNat) then
      { g with
        hash := g.hash ^^^ zobrist_castling g.castling_rights ^^^
          zobrist_castling (updCR g.castling_rights color Kingside false)
        castling_rights := updCR g.castling_rights color Kingside false }
    else if g.castling_rights color Queenside && (start == 56 * color.toNat) then
      { g with
        hash := g.hash ^^^ zobrist_castling g.castling_rights ^^^
          zobrist_castling (updCR g.castling_rights color Queenside false)
        castling_rights := updCR g.castling_rights color Queenside false }
    else g
  else g

/-- The update-castling-rights block of make_move for a captured rook. -/
def make_rights_capture (g : ChessGame) (color : ColorIndex) (target : Nat)
    (captured : PieceIndex) : ChessGame :=
  if captured = Rook then
    if g.castling_rights color.not Kingside && (target == 7 + 56 * color.not.toNat) then
      { g with
        hash := g.hash ^^^ zobrist_castling g.castling_rights ^^^
          zobrist_castling (updCR g.castling_rights color.not Kingside false)
        castling_rights := updCR g.castling_rights color.not Kingside false }
    else if g.castling_rights color.not Queenside && (target == 56 * color.not.toNat) then
      { g with
        hash := g.hash ^^^ zobrist_castling g.castling_rights ^^^
          zobrist_castling (updCR g.castling_rights color.not Queenside false)
        castling_rights := updCR g.castling_rights color.not Queenside false }
    else g
  else g

/-- The move-the-piece block of make_move (skipped for castling). -/
def make_move_piece (g : ChessGame) (color : ColorIndex) (start target : Nat)
    (piece : PieceIndex) (castling : Bool) : ChessGame :=
  if ¬ castling then
    { g with
      hash := g.hash ^^^ zobrist_piece piece color start ^^^ zobrist_piece piece color target
      piece_masks := updPM g.piece_masks color piece
        (g.piece_masks color piece ^^^ (shl 1 start ||| shl 1 target))
      color_masks := updCM g.color_masks color
        (g.color_masks color ^^^ (shl 1 start ||| shl 1 target)) }
  else g

/-- The pawn-special-cases block of make_move: double-push en-passent
square, promotion, rule-50 reset. -/
def make_pawn (g : ChessGame) (color : ColorIndex) (m : Move) : ChessGame :=
  if m.piece = Pawn then
    let g :=
      if m.double_pawn_push then
        let ep_square :=
          if color = White then offset m.target 0 (-1) else offset m.target 0 1
        -- only set the ep mask if the pawn can be taken
        let g := { g with en_passent_mask := shl 1 ep_square &&& g.pawn_attacks color.not }
        if is_not_empty g.en_passent_mask then
          { g with hash := g.hash ^^^ zobrist_enpassent g.en_passent_mask }
        else g
      else g
    let g :=
      if m.promotion ≠ NoPiece then
        let pm1 := updPM g.piece_masks color Pawn (g.piece_masks color Pawn ^^^ shl 1 m.target)
        { g with
          hash := g.hash ^^^ zobrist_piece Pawn color m.target ^^^
            zobrist_piece m.promotion color m.target
          piece_masks := updPM pm1 color m.promotion (pm1 color m.promotion ||| shl 1 m.target) }
      else g
    { g with halfmove_clock := 0 }
  else g

/-- The final block of make_move: swap players and rebuild the combined
mask. -/
def make_finish (g : ChessGame) : ChessGame :=
  { g with
    hash := g.hash ^^^ zobrist_player
    current_player := g.current_player.not
    combined := g.color_masks White ||| g.color_masks Black }

/-- ChessGame::make_move, as the composition of its blocks in source
order. -/
def make_move (g : ChessGame) (m : Move) : ChessGame :=
  let color := g.current_player
  let captured := if m.en_passent then Pawn else g.piece_at m.target
  let g1 := make_push_histories g m captured
  let g2 := make_castle g1 color m.start m.target m.castling
  let g3 := make_capture g2 color m.target m.en_passent captured
  let g4 := make_clear_ep g3
  let g5 := make_rights_piece g4 color m.start m.piece
  let g6 := make_rights_capture g5 color m.target captured
  let g7 := make_move_piece g6 color m.start m.target m.piece m.castling
  let g8 := make_pawn g7 color m
  make_finish g8

/-- ChessGame::unmake_move.  The source pops the unmove and position
histories with unwrap and panics on an empty stack; the empty-stack case
returns the state unchanged here and is never exercised by the theorems. -/
def unmake_move (g : ChessGame) : ChessGame :=
  let g := { g with current_player := g.current_player.not }
  match g.unmove_history with
  | [] => g
  | unmove :: rest =>
    let g := { g with unmove_history := rest }
    let start := unmove.start
    let target := unmove.target
    let piece := g.piece_at target
    let g :=
      if unmove.promotion then
        let pm1 := updPM g.piece_masks g.current_player piece
          (g.piece_masks g.current_player piece ^^^ shl 1 target)
        { g with piece_masks :=
            updPM pm1 g.current_player Pawn (pm1 g.current_player Pawn ^^^ shl 1 target) }
      else g
    let piece := if unmove.promotion then Pawn else piece
    let g :=
      if unmove.castling then
        if fileOf target = 2 then
          -- queenside
          let rook_start := offset target (-2) 0
          let rook_target := offset target 1 0
          let pm1 := updPM g.piece_masks g.current_player King
            (g.piece_masks g.current_player King ^^^ (shl 1 start ||| shl 1 target))
          { g with
            piece_masks := updPM pm1 g.current_player Rook
              (pm1 g.current_player Rook ^^^ (shl 1 rook_start ||| shl 1 rook_target))
            color_masks := updCM g.color_masks g.current_player
              (g.color_masks g.current_player ^^^
                (shl 1 start ||| shl 1 target ||| shl 1 rook_start ||| shl 1 rook_target)) }
        else
          -- kingside
          let rook_start := offset target 1 0
          let rook_target := offset target (-1) 0
          let pm1 := updPM g.piece_masks g.current_player King
            (g.piece_masks g.current_player King ^^^ (shl 1 start ||| shl 1 target))
          { g with
            piece_masks := updPM pm1 g.current_player Rook
              (pm1 g.current_player Rook ^^^ (shl 1 rook_start ||| shl 1 rook_target))
            color_masks := updCM g.color_masks g.current_player
              (g.color_masks g.current_player ^^^
                (shl 1 start ||| shl 1 target ||| shl 1 rook_start ||| shl 1 rook_target)) }
      else
        -- move piece back to start
        let g := { g with
          piece_masks := updPM g.piece_masks g.current_player piece
            (g.piece_masks g.current_player piece ^^^ (shl 1 start ||| shl 1 target))
          color_masks := updCM g.color_masks g.current_player
            (g.color_masks g.current_player ^^^ (shl 1 start ||| shl 1 target)) }
        if unmove.capture ≠ NoPiece then
          let cap_square :=
            if unmove.en_passent then
              match g.current_player with
              | White => offset target 0 (-1)
              | Black => offset target 0 1
            else target
          -- replace captured piece
          { g with
            piece_masks := updPM g.piece_masks g.current_player.not unmove.capture
              (g.piece_masks g.current_player.not unmove.capture ^^^ shl 1 cap_square)
            color_masks := updCM g.color_masks g.current_player.not
              (g.color_masks g.current_player.not ^^^ shl 1 cap_square) }
        else g
    -- restore board state
    { g with
      castling_rights := unmove.castling_rights
      en_passent_mask := unmove.en_passent_mask
      hash := g.position_history.headD 0
      position_history := g.position_history.tail
      halfmove_clock := unmove.halfmove_clock
      combined := g.color_masks White ||| g.color_masks Black }

/-- ChessGame::make_null_move. -/
def make_null_move (g : ChessGame) : ChessGame :=
  let unmove := UnMove.new 0 0 false NoPiece false g.en_passent_mask false g.castling_rights 0
  let g := { g with
    unmove_history := unmove :: g.unmove_history
    position_history := g.hash :: g.position_history }
  let g :=
    if is_not_empty g.en_passent_mask then
      { g with
        hash := g.hash ^^^ zobrist_enpassent g.en_passent_mask
        en_passent_mask := 0 }
    else g
  { g with
    hash := g.hash ^^^ zobrist_player
    halfmove_clock := (g.halfmove_clock + 1) % 256
    current_player := g.current_player.not }

/-- ChessGame::unmake_null_move (panics on an empty stack in the source;
the empty-stack case returns the state unchanged here). -/
def unmake_null_move (g : ChessGame) : ChessGame :=
  match g.unmove_history with
  | [] => g
  | unmove :: rest =>
    { g with
      unmove_history := rest
      en_passent_mask := unmove.en_passent_mask
      current_player := g.current_player.not
      halfmove_clock := (g.halfmove_clock + 255) % 256
      hash := g.position_history.headD 0
      position_history := g.position_history.tail }

/-- ChessGame::mobility_area (chessgame/evaluate.rs). -/
def mobility_area (g : ChessGame) (color : ColorIndex) : Nat :=
  let blocked_pawns :=
    match color with
    | White => g.piece_masks White Pawn &&& shr (g.piece_masks Black Pawn) 8
    | Black => g.piece_masks Black Pawn &&& shl (g.piece_masks White Pawn) 8
  -- exclude squares attacked by enemy pawns, our blocked pawns and our king
  inverse (g.pawn_attacks color.not ||| blocked_pawns ||| g.piece_masks color King)

/-- ChessGame::game_phase (chessgame/evaluate.rs): i32 arithmetic with
truncating division. -/
def game_phase (g : ChessGame) : Int :=
  let knight_phase : Int := 1
  let bishop_phase : Int := 1
  let rook_phase : Int := 2
  let queen_phase : Int := 4
  let total_phase := knight_phase * 4 + bishop_phase * 4 + rook_phase * 4 + queen_phase * 2
  let phase : Int :=
    (count_ones (g.piece_masks White Knight ||| g.piece_masks Black Knight) : Int) * knight_phase
    + (count_ones (g.piece_masks White Bishop ||| g.piece_masks Black Bishop) : Int) * bishop_phase
    + (count_ones (g.piece_masks White Rook ||| g.piece_masks Black Rook) : Int) * rook_phase
    + (count_ones (g.piece_masks White Queen ||| g.piece_masks Black Queen) : Int) * queen_phase
  Int.tdiv (256 * (total_phase - phase)) total_phase

end ChessGame

/-- The per-evaluation scratch data (EvalInfo in chessgame/evaluate.rs);
the two-element arrays indexed by `color as usize` become functions of the
color. -/
structure EvalInfo where
  mobility_area : ColorIndex → Nat
  behind_pawns : ColorIndex → Nat
  outposts : ColorIndex → Nat
  seventh_rank : ColorIndex → Nat

/-- The EvalInfo initialisation at the top of EvalContext::evaluate
(chessgame/evaluate.rs lines 99-113), field for field. -/
def evalInfo (g : ChessGame) : EvalInfo :=
  { mobility_area := fun c =>
      match c with
      | White => g.mobility_area White
      | Black => g.mobility_area Black
    behind_pawns := fun c =>
      match c with
      | White => shr (g.piece_masks White Pawn) 8
      | Black => shl (g.piece_masks Black Pawn) 8
    outposts := fun c =>
      match c with
      | White => inverse (g.pawn_attack_spans Black)
      | Black => inverse (g.pawn_attacks White)
    seventh_rank := fun c =>
      match c with
      | White => SEVENTH_RANK
      | Black => SECOND_RANK }

/-- An (mg, eg) score pair (EvalScore in chessgame/evaluate.rs). -/
structure EvalScore where
  mg : Int
  eg : Int
  deriving DecidableEq, Repr

/-- The rooks-on-seventh block of EvalContext::evaluate_rooks
(chessgame/evaluate.rs lines 300-307), applied to a running EvalScore;
eval_params.rs is not among the sources, so the two rook_on_seventh
parameters are passed as arguments. -/
def rooks_on_seventh_accum (param_mg param_eg : Int) (g : ChessGame) (color : ColorIndex)
    (info : EvalInfo) (eval : EvalScore) : EvalScore :=
  let rooks_on_seventh : Int :=
    (count_ones (g.piece_masks color Rook &&& info.seventh_rank color) : Int)
  let eval := { eval with mg := eval.mg + param_mg * rooks_on_seventh }
  { eval with mg := eval.mg + param_eg * rooks_on_seventh }

/-- The rooks-on-seventh term as the claim states it: the midgame
parameter feeds the midgame score and the endgame parameter the endgame
score (spec section 4.5); written from the spec for comparison with
rooks_on_seventh_accum. -/
def rooks_on_seventh_claim (param_mg param_eg : Int) (g : ChessGame) (color : ColorIndex)
    (info : EvalInfo) (eval : EvalScore) : EvalScore :=
  let rooks_on_seventh : Int :=
    (count_ones (g.piece_masks color Rook &&& info.seventh_rank color) : Int)
  { eval with
    mg := eval.mg + param_mg * rooks_on_seventh
    eg := eval.eg + param_eg * rooks_on_seventh }

/-! Transposition table (transposition_table.rs).  The two AtomicU64 words
of an Entry become a pair (key, data); the table becomes a list of such
pairs.  Signed casts are modelled with explicit two's-complement
conversions. -/

/-- u8 bit pattern reinterpreted as i8. -/
def asI8 (n : Nat) : Int := if n < 128 then (n : Int) else (n : Int) - 256

/-- u32 bit pattern reinterpreted as i32. -/
def asI32 (n : Nat) : Int := if n < 2 ^ 31 then (n : Int) else (n : Int) - 2 ^ 32

/-- Signed value as u64 (two's complement). -/
def asU64 (i : Int) : Nat := (i % (2 ^ 64 : Int)).toNat

/-- Signed value as u8 (two's complement). -/
def asU8 (i : Int) : Nat := (i % (256 : Int)).toNat

/-- Signed value as u32 (two's complement). -/
def asU32 (i : Int) : Nat := (i % (2 ^ 32 : Int)).toNat

inductive NodeType where
  | Exact
  | UpperBound
  | LowerBound
  deriving DecidableEq, Repr

namespace NodeType

/-- NodeType as u64 discriminant. -/
def toNat : NodeType → Nat
  | Exact => 0
  | UpperBound => 1
  | LowerBound => 2

/-- NodeType::from_u8; the value 3 is unreachable in the source (the
argument is masked to two bits and only 0..2 are stored). -/
def from_u8 (n : Nat) : NodeType :=
  match n with
  | 0 => Exact
  | 1 => UpperBound
  | _ => LowerBound

end NodeType

/-- TTEntry (transposition_table.rs). -/
structure TTEntry where
  score : Int
  depth : Int
  move_start : Nat
  move_target : Nat
  promotion : PieceIndex
  node_type : NodeType
  double_pawn_push : Bool
  en_passent_capture : Bool
  castling : Bool
  deriving DecidableEq, Repr

/-- TTEntry::from_data. -/
def TTEntry.from_data (data : Nat) : TTEntry :=
  { score := asI32 (data &&& 0xFFFFFFFF)
    depth := asI8 ((data >>> 32) &&& 0xFF)
    move_start := (data >>> (32 + 8)) &&& 0xFF
    move_target := (data >>> (32 + 8 + 8)) &&& 0xFF
    promotion := PieceIndex.from_u8 ((data >>> (32 + 8 + 8 + 8)) &&& 0b111)
    node_type := NodeType.from_u8 ((data >>> (32 + 8 + 8 + 8 + 3)) &&& 0b11)
    double_pawn_push := ((data >>> (32 + 8 + 8 + 8 + 3 + 2)) &&& 0b1) ≠ 0
    en_passent_capture := ((data >>> (32 + 8 + 8 + 8 + 3 + 2 + 1)) &&& 0b1) ≠ 0
    castling := ((data >>> (32 + 8 + 8 + 8 + 3 + 2 + 1 + 1)) &&& 0b1) ≠ 0 }

/-- The data word packed by TranspositionTable::set (lines 106-115). -/
def tt_pack_data (best_move : Move) (depth : Int) (score : Int) (node_type : NodeType) : Nat :=
  let data := asU32 score
  let data := data ||| (asU8 depth <<< 32)
  let data := data ||| (best_move.start <<< (32 + 8))
  let data := data ||| (best_move.target <<< (32 + 8 + 8))
  let data := data ||| (best_move.promotion.toNat <<< (32 + 8 + 8 + 8))
  let data := data ||| (node_type.toNat <<< (32 + 8 + 8 + 8 + 3))
  let data := data ||| ((if best_move.double_pawn_push then 1 else 0) <<< (32 + 8 + 8 + 8 + 3 + 2))
  let data := data ||| ((if best_move.en_passent then 1 else 0) <<< (32 + 8 + 8 + 8 + 3 + 2 + 1))
  data ||| ((if best_move.castling then 1 else 0) <<< (32 + 8 + 8 + 8 + 3 + 2 + 1 + 1))

/-- TranspositionTable::set on the underlying (key, data) array.  On the
empty table `table.len() - 1` underflows in the source and the oversized
index makes `get` return None, so the write is dropped either way. -/
def tt_set (table : List (Nat × Nat)) (hash : Nat) (best_move : Move) (depth : Int)
    (score : Int) (node_type : NodeType) : List (Nat × Nat) :=
  let index := hash &&& (table.length - 1)
  match table.get? index with
  | none => table
  | some stored =>
    let stored_depth := (stored.2 >>> 24) &&& 0xFF
    if asU64 depth < stored_depth then
      -- depth-preferred replacement
      table
    else
      let data := tt_pack_data best_move depth score node_type
      table.set index (hash ^^^ data, data)

/-- TranspositionTable::get on the underlying (key, data) array. -/
def tt_get (table : List (Nat × Nat)) (hash : Nat) : Option TTEntry :=
  let index := hash &&& (table.length - 1)
  match table.get? index with
  | none => none
  | some stored =>
    let data := stored.2
    if stored.1 ^^^ data = hash then
      -- entry is valid, return data
      some (TTEntry.from_data data)
    else
      -- key and data didn't match, invalid entry
      none

/-- usize::next_power_of_two: the smallest power of two ≥ n (1 for n = 0;
the search over 0..63 covers the whole usize range). -/
def next_power_of_two (n : Nat) : Nat :=
  2 ^ (List.range 64).findIdx (fun k => decide (n ≤ 2 ^ k))

/-- std::mem::size_of::<Entry>(): two AtomicU64 words. -/
def entry_size : Nat := 16

/-- The entry count allocated by TranspositionTable::new(table_size_mb). -/
def tt_new_length (table_size_mb : Nat) : Nat :=
  let length := table_size_mb * 1024 * 1024 / entry_size
  if length ≠ 0 then next_power_of_two length else length

/-- The entry count allocated by TranspositionTable::set_size(size_mb). -/
def tt_set_size_length (size_mb : Nat) : Nat :=
  next_power_of_two (size_mb * 1024 * 1024 / entry_size)

/-- The entry count as the claim states it: floor(size_mb * 1024 * 1024 /
sizeof(Entry)) rounded DOWN to a power of two; written from the spec for
comparison with tt_new_length. -/
def tt_length_claim (table_size_mb : Nat) : Nat :=
  let length := table_size_mb * 1024 * 1024 / entry_size
  if length = 0 then 0
  else 2 ^ (List.range 64).findIdx (fun k => decide (length < 2 ^ (k + 1)))

/-! FEN serialisation and parsing (chessgame/mod.rs fen / set_from_fen). -/

/-- The lower-case piece letter of the fen serialiser. -/
def piece_letter (p : PieceIndex) : Char :=
  match p with
  | Pawn => 'p'
  | Knight => 'n'
  | Bishop => 'b'
  | Rook => 'r'
  | Queen => 'q'
  | King => 'k'
  | NoPiece => '?'

/-- Modelled from the spec: the algebraic coordinate of a square (the
coord helper of moves.rs is not among the sources): file letter then rank
digit. -/
def coord (sq : Nat) : List Char :=
  [Char.ofNat (97 + fileOf sq), Nat.digitChar (rankOf sq + 1)]

/-- ASCII to_ascii_uppercase. -/
def ascii_upper (c : Char) : Char :=
  if 'a' ≤ c ∧ c ≤ 'z' then Char.ofNat (c.toNat - 32) else c

/-- Decimal digits of a number (fuelled so that the kernel can reduce it). -/
def dec_repr_aux : Nat → Nat → List Char
  | 0, _ => []
  | Nat.succ fuel, n =>
    if n < 10 then [Nat.digitChar n]
    else dec_repr_aux fuel (n / 10) ++ [Nat.digitChar (n % 10)]

/-- Decimal representation of a number, as written by to_string. -/
def dec_repr (n : Nat) : List Char := dec_repr_aux (n + 1) n

/-- str::split on a character class, keeping empty pieces between
consecutive separators exactly as Rust does. -/
def split_list (sep : Char → Bool) : List Char → List (List Char)
  | [] => [[]]
  | c :: cs =>
    let r := split_list sep cs
    if sep c then [] :: r
    else
      match r with
      | [] => [[c]]
      | h :: t => (c :: h) :: t

namespace ChessGame

/-- ChessGame::fen, block by block.  Note the source tests
`castling_rights[(Black, Kingside)]` twice: once pushing 'k' and once
pushing 'q'. -/
def fen (g : ChessGame) : String :=
  let fen := ((List.range 8).reverse).foldl (fun fen rank =>
    let state := (List.range 8).foldl (fun (state : Nat × List Char) file =>
      let (empty_counter, fen) := state
      let square := 8 * rank + file
      match g.piece_at square with
      | NoPiece => (empty_counter + 1, fen)
      | piece =>
        let fen := if empty_counter ≠ 0 then fen ++ [Nat.digitChar empty_counter] else fen
        let letter := piece_letter piece
        let letter := if g.color_at square = White then ascii_upper letter else letter
        (0, fen ++ [letter])) (0, fen)
    let fen := if state.1 ≠ 0 then state.2 ++ [Nat.digitChar state.1] else state.2
    fen ++ ['/']) []
  -- remove trailing '/'
  let fen := fen.dropLast
  let fen := fen ++ [' ']
  -- side to move
  let fen := fen ++ [match g.current_player with | White => 'w' | Black => 'b']
  let fen := fen ++ [' ']
  -- castling rights
  let fen := if g.castling_rights White Kingside then fen ++ ['K'] else fen
  let fen := if g.castling_rights White Queenside then fen ++ ['Q'] else fen
  let fen := if g.castling_rights Black Kingside then fen ++ ['k'] else fen
  let fen := if g.castling_rights Black Kingside then fen ++ ['q'] else fen
  let fen := if g.castling_rights = ((fun _ _ => false) : CastlingRights) then fen ++ ['-'] else fen
  let fen := fen ++ [' ']
  -- en passent square
  let fen :=
    match g.en_passent_square with
    | none => fen ++ ['-']
    | some sq => fen ++ coord sq
  let fen := fen ++ [' ']
  -- halfmove clock
  let fen := fen ++ dec_repr g.halfmove_clock
  let fen := fen ++ [' ']
  -- fullmove number
  String.mk (fen ++ dec_repr (g.position_history.length / 2))

end ChessGame

/-- str::parse::<u8>: decimal parse failing on an empty string, a
non-digit character or a value above 255. -/
def parse_u8 (s : List Char) : Except String Nat :=
  if s.isEmpty then Except.error "cannot parse integer from empty string"
  else
    s.foldlM (fun acc c =>
      if '0' ≤ c ∧ c ≤ '9' then
        let v := acc * 10 + (c.toNat - 48)
        if v < 256 then Except.ok v else Except.error "number too large to fit in target type"
      else Except.error "invalid digit found in string") 0

/-- The empty position written at the top of ChessGame::set_from_fen. -/
def emptyGame : ChessGame :=
  { color_masks := fun _ => 0
    combined := 0
    piece_masks := fun _ _ => 0
    current_player := White
    castling_rights := fun _ _ => false
    en_passent_mask := 0
    halfmove_clock := 0
    hash := 0
    position_history := []
    unmove_history := [] }

/-- One character of the FEN board field (the inner match of
set_from_fen): updates (index, piece_masks, color_masks). -/
def fen_board_char (st : Nat × PieceMasks × ColorMasks) (chr : Char) :
    Nat × PieceMasks × ColorMasks :=
  let (index, pm, cm) := st
  let put (c : ColorIndex) (p : PieceIndex) : Nat × PieceMasks × ColorMasks :=
    (index + 1, updPM pm c p (pm c p ||| shl 1 index), updCM cm c (cm c ||| shl 1 index))
  match chr with
  | 'n' => put Black Knight
  | 'N' => put White Knight
  | 'b' => put Black Bishop
  | 'B' => put White Bishop
  | 'r' => put Black Rook
  | 'R' => put White Rook
  | 'q' => put Black Queen
  | 'Q' => put White Queen
  | 'k' => put Black King
  | 'K' => put White King
  | 'p' => put Black Pawn
  | 'P' => put White Pawn
  | chr =>
    if '1' ≤ chr ∧ chr ≤ '8' then
      (index + (chr.toNat - 48) - 1 + 1, pm, cm)
    else
      -- unexpected characters only print a warning in the source
      (index + 1, pm, cm)

/-- ChessGame::set_from_fen.  The source mutates self and returns
Result<(), _>; here the parsed position is returned.  The fields are read
from the split exactly as the source does (board lines via
`lines.clone().take(8)`, then `lines.nth(8)` and three `next()` calls). -/
def set_from_fen (fen : String) : Except String ChessGame :=
  let g := emptyGame
  let lines := split_list (fun c => c == '/' || c == ' ') fen.data
  -- board
  let st := (lines.take 8).enum.foldl (fun st iline =>
    iline.2.foldl fen_board_char (56 - iline.1 * 8, st.2.1, st.2.2))
    (0, g.piece_masks, g.color_masks)
  let g := { g with piece_masks := st.2.1, color_masks := st.2.2 }
  -- side to move
  match lines.get? 8 with
  | none => Except.error "No metadata!"
  | some side =>
    (if side = ['w'] then Except.ok White
     else if side = ['b'] then Except.ok Black
     else Except.error ("Invalid player character: " ++ String.mk side)).bind (fun player =>
    let g := { g with current_player := player }
    -- castling rights
    (match lines.get? 9 with
     | none => Except.error "Insufficient metadata for castling rights!"
     | some other =>
        if other = ['-'] then Except.ok ((fun _ _ => false) : CastlingRights)
        else
          other.foldlM (fun (cr : CastlingRights) chr =>
            match chr with
            | 'K' => Except.ok (updCR cr White Kingside true)
            | 'k' => Except.ok (updCR cr Black Kingside true)
            | 'Q' => Except.ok (updCR cr White Queenside true)
            | 'q' => Except.ok (updCR cr Black Queenside true)
            | _ => Except.error ("Invalid player character: " ++ String.mk other))
            ((fun _ _ => false) : CastlingRights)).bind (fun rights =>
    let g := { g with castling_rights := rights }
    -- en passent square
    (match lines.get? 10 with
     | none => Except.error "Insufficient metadata for en passent square!"
     | some other =>
        if other = ['-'] then Except.ok 0
        else
          (match other.get? 0 with
           | none => Except.error "Empty en passent string!"
           | some c =>
              if 'a' ≤ c ∧ c ≤ 'h' then Except.ok (c.toNat - 97)
              else Except.error "Invalid en passent file").bind (fun sq =>
          match other.get? 1 with
          | none => Except.error "En passent string too short"
          | some c =>
              if '1' ≤ c ∧ c ≤ '8' then Except.ok (shl 1 (sq + 8 * (c.toNat - 49)))
              else Except.error "Invalid en passent rank")).bind (fun epMask =>
    let g := { g with en_passent_mask := epMask }
    -- halfmove clock
    (match lines.get? 11 with
     | none => Except.error "No halfmove clock!"
     | some s => parse_u8 s).bind (fun clock =>
    let g := { g with halfmove_clock := clock }
    let g := { g with combined := g.color_masks White ||| g.color_masks Black }
    Except.ok { g with hash := g.zobrist_hash }))))

/-- ChessGame::new: the starting position. -/
def newGame : ChessGame :=
  (set_from_fen "rnbqkbnr/pppppppp/8/8/8/8/PPPPPPPP/RNBQKBNR w KQkq - 0 1").toOption.getD
    emptyGame

/-- ChessGame::perft (pure form: the make/unmake pair of the source
becomes recursion through make_move). -/
def perft (g : ChessGame) (depth : Nat) : Nat :=
  match depth with
  | 0 => 1
  | 1 => g.legal_moves.length
  | Nat.succ d => (g.legal_moves).foldl (fun nodes m => nodes + perft (g.make_move m) d) 0

/-- The Kiwipete perft reference position (spec section 8). -/
def kiwipete : ChessGame :=
  (set_from_fen
    "r3k2r/p1ppqpb1/bn2pnp1/3PN3/1p2P3/2N2Q1p/PPPBBPPP/R3K2R w KQkq - 0 1").toOption.getD
    emptyGame

/-- A double-check position: white king e1 checked by rooks on e8 and h1. -/
def double_check_game : ChessGame :=
  (set_from_fen "k3r3/8/8/8/8/8/8/4K2r w - - 0 1").toOption.getD emptyGame

/-- A position where Black holds only the queenside castling right. -/
def bq_rights_game : ChessGame :=
  (set_from_fen "r3k3/8/8/8/8/8/8/4K2R w Kq - 0 1").toOption.getD emptyGame

/-- The round trip of bq_rights_game through fen and set_from_fen. -/
def bq_rights_reparsed : ChessGame :=
  (set_from_fen bq_rights_game.fen).toOption.getD emptyGame

/-- A position with seven white queens (promoted extra material). -/
def excess_queens_game : ChessGame :=
  (set_from_fen "QQQQQQQ1/8/8/8/8/8/8/k6K w - - 0 1").toOption.getD emptyGame

/-- A bare position with one white rook on a7 (the relative seventh rank). -/
def rook_seventh_game : ChessGame :=
  { emptyGame with piece_masks := updPM emptyGame.piece_masks White Rook (shl 1 48) }

/-- A bare position with one white pawn on a2. -/
def pawn_a2_game : ChessGame :=
  { emptyGame with piece_masks := updPM emptyGame.piece_masks White Pawn (shl 1 8) }

/-- The weighted non-king, non-pawn material count of the claim: knight 1,
bishop 1, rook 2, queen 4. -/
def phase_weight (g : ChessGame) : Nat :=
  count_ones (g.piece_masks White Knight ||| g.piece_masks Black Knight) * 1 +
    count_ones (g.piece_masks White Bishop ||| g.piece_masks Black Bishop) * 1 +
    count_ones (g.piece_masks White Rook ||| g.piece_masks Black Rook) * 2 +
    count_ones (g.piece_masks White Queen ||| g.piece_masks Black Queen) * 4

/-- The structural invariant of reachable positions (spec sections 3 and
8): 64-bit piece masks, pairwise disjoint across colors and kinds; the
color masks are their unions and combined their union; the en-passant
mask is an empty square behind a double-pushed pawn (rank 3 or 6); a held
castling right implies the king still sits on its home square.  The
bounded quantifiers keep the predicate kernel-decidable. -/
def WF (g : ChessGame) : Prop :=
  (∀ c ∈ [White, Black], ∀ p ∈ [Pawn, Knight, Bishop, Rook, Queen, King, NoPiece],
    g.piece_masks c p < 2 ^ 64) ∧
  (∀ c ∈ [White, Black], ∀ p ∈ [Pawn, Knight, Bishop, Rook, Queen, King, NoPiece],
    ∀ c' ∈ [White, Black], ∀ p' ∈ [Pawn, Knight, Bishop, Rook, Queen, King, NoPiece],
    (c, p) ≠ (c', p') → g.piece_masks c p &&& g.piece_masks c' p' = 0) ∧
  (∀ c ∈ [White, Black],
    g.color_masks c = g.piece_masks c Pawn ||| g.piece_masks c Knight |||
      g.piece_masks c Bishop ||| g.piece_masks c Rook ||| g.piece_masks c Queen |||
      g.piece_masks c King) ∧
  g.color_masks White &&& g.color_masks Black = 0 ∧
  g.combined = g.color_masks White ||| g.color_masks Black ∧
  g.en_passent_mask &&& g.combined = 0 ∧
  g.en_passent_mask &&& (THIRD_RANK ||| SIXTH_RANK) = g.en_passent_mask ∧
  g.en_passent_mask < 2 ^ 64 ∧
  (∀ c ∈ [White, Black], ∀ s ∈ [Queenside, Kingside], g.castling_rights c s = true →
    g.piece_masks c King = shl 1 (4 + 56 * c.toNat)) ∧
  g.halfmove_clock < 256 ∧
  (∀ c ∈ [White, Black], count_ones (g.piece_masks c King) = 1)

/-- The properties of a generated legal move that make and unmake rely
on: in-range squares, a free target square for non-castling moves, the
promotion and en-passant flag disciplines, and the exact shape of a
castling move.  legal_moves only emits moves satisfying this (proved
below). -/
def MoveOK (g : ChessGame) (m : Move) : Prop :=
  m.start < 64 ∧ m.target < 64 ∧
  (m.castling = false →
    Nat.testBit (g.color_masks g.current_player) m.target = false ∧
    Nat.testBit (g.color_masks g.current_player) m.start = true ∧
    m.piece ≠ NoPiece) ∧
  (m.promotion ≠ NoPiece → m.piece = Pawn ∧ m.promotion ≠ Pawn ∧ m.castling = false) ∧
  (m.en_passent = true → m.castling = false ∧ m.piece = Pawn ∧ m.promotion = NoPiece ∧
    Nat.testBit g.en_passent_mask m.target = true) ∧
  (m.castling = true → m.piece = King ∧ m.promotion = NoPiece ∧ m.en_passent = false ∧
    m.start = 4 + 56 * g.current_player.toNat ∧
    (m.target = m.start + 2 ∨ m.target + 2 = m.start) ∧
    Nat.testBit g.combined m.target = false)

set_option synthInstance.maxSize 1024 in
set_option maxHeartbeats 1000000 in
instance (g : ChessGame) : Decidable (WF g) := by
  unfold WF
  infer_instance

instance (g : ChessGame) (m : Move) : Decidable (MoveOK g m) := by
  unfold MoveOK
  infer_instance

/-! ## Theorems -/

/-! Bit-level facts about the bitboard primitives. -/

theorem mem_squaresOf {b t : Nat} : t ∈ squaresOf b ↔ t < 64 ∧ b.testBit t = true := by
  simp [squaresOf, List.mem_filter, List.mem_range]

theorem testBit_shl (b n i : Nat) :
    (shl b n).testBit i = (decide (i < 64) && decide (n ≤ i) && b.testBit (i - n)) := by
  simp only [shl, Nat.testBit_mod_two_pow, Nat.testBit_shiftLeft, Bool.and_assoc]

theorem testBit_shr (b n i : Nat) : (shr b n).testBit i = b.testBit (n + i) := by
  simp [shr, Nat.testBit_shiftRight]

theorem testBit_shl_one (s i : Nat) :
    (shl 1 s).testBit i = (decide (i = s) && decide (i < 64)) := by
  rw [testBit_shl]
  rcases Nat.lt_or_ge i 64 with h | h
  · rcases Nat.decEq i s with hs | hs
    · simp_all
      intro hle
      rcases Nat.lt_or_ge s i with h2 | h2
      · have : i - s ≠ 0 := by omega
        simp [Nat.testBit_eq_false_of_lt, show (1 : Nat) < 2 ^ (i - s) from by
          calc (1 : Nat) < 2 ^ 1 := by norm_num
          _ ≤ 2 ^ (i - s) := Nat.pow_le_pow_right (by norm_num) (by omega)]
      · omega
    · subst hs
      simp [Nat.sub_self, h]
  · simp [Nat.le_of_lt, show ¬ i < 64 from by omega]

theorem testBit_of_inverse {b i : Nat} (h : (inverse b).testBit i = true) (hi : i < 64) :
    b.testBit i = false := by
  simp only [inverse, mask64, Nat.testBit_xor, Nat.testBit_two_pow_sub_one] at h
  cases hb : b.testBit i
  · rfl
  · rw [hb] at h
    simp [hi] at h

theorem testBit_inverse_of_not {b i : Nat} (h : b.testBit i = false) (hi : i < 64) :
    (inverse b).testBit i = true := by
  simp only [inverse, mask64, Nat.testBit_xor, Nat.testBit_two_pow_sub_one, h]
  simp [hi]

theorem testBit_of_disjoint {x y : Nat} (h : x &&& y = 0) {i : Nat}
    (hx : x.testBit i = true) : y.testBit i = false := by
  have := congrArg (fun z => z.testBit i) h
  simp only [Nat.testBit_and, Nat.zero_testBit] at this
  cases hy : y.testBit i
  · rfl
  · rw [hx, hy] at this
    simp at this

theorem xor_cancel_r (x y : Nat) : x ^^^ y ^^^ y = x := by
  rw [Nat.xor_assoc, Nat.xor_self, Nat.xor_zero]

theorem lor_xor_cancel {x y : Nat} (h : x &&& y = 0) : (x ||| y) ^^^ y = x := by
  apply Nat.eq_of_testBit_eq
  intro i
  simp only [Nat.testBit_xor, Nat.testBit_or]
  cases hy : y.testBit i
  · simp
  · have hx : x.testBit i = false := by
      cases hx : x.testBit i
      · rfl
      · have := testBit_of_disjoint h hx
        rw [hy] at this
        simp at this
    simp [hx]

theorem exists_testBit_of_ne_zero {x : Nat} (h : x ≠ 0) : ∃ i, x.testBit i = true := by
  by_contra hall
  push_neg at hall
  exact h (Nat.eq_of_testBit_eq fun i => by
    simpa [Nat.zero_testBit] using Bool.eq_false_iff.mpr (hall i))

theorem first_square_spec {b : Nat} (h0 : b ≠ 0) (h64 : b < 2 ^ 64) :
    first_square b < 64 ∧ b.testBit (first_square b) = true ∧
      ∀ j < first_square b, b.testBit j = false := by
  obtain ⟨i, hi⟩ := exists_testBit_of_ne_zero h0
  have hi64 : i < 64 := by
    by_contra hge
    rw [Nat.testBit_eq_false_of_lt (Nat.lt_of_lt_of_le h64
      (Nat.pow_le_pow_right (by norm_num) (by omega)))] at hi
    exact Bool.false_ne_true hi
  have hex : ∃ x ∈ List.range 64, b.testBit x = true := ⟨i, by simp [List.mem_range, hi64], hi⟩
  have hlt : (List.range 64).findIdx (fun j => b.testBit j) < (List.range 64).length :=
    List.findIdx_lt_length_of_exists hex
  have hfs : first_square b < 64 := by simpa using hlt
  refine ⟨hfs, ?_, ?_⟩
  · have := List.findIdx_getElem (p := fun j => b.testBit j) (w := hlt)
    simpa [first_square] using this
  · intro j hj
    have hjlt : j < (List.range 64).findIdx (fun j => b.testBit j) := hj
    have := List.not_of_lt_findIdx hjlt
    simpa using this

theorem first_square_shl_one {k : Nat} (hk : k < 64) : first_square (shl 1 k) = k := by
  unfold first_square
  rw [List.findIdx_eq (by simpa using hk)]
  constructor
  · simp [testBit_shl_one, hk]
  · intro j hj
    simp only [List.getElem_range, testBit_shl_one]
    simp
    intro hjk
    omega

theorem shl_shl_one (a b : Nat) : shl (shl 1 a) b = shl 1 (a + b) := by
  apply Nat.eq_of_testBit_eq
  intro i
  rw [testBit_shl, testBit_shl_one, testBit_shl_one]
  by_cases h64 : i < 64
  · by_cases hb : b ≤ i
    · by_cases heq : i - b = a
      · have hi : i = a + b := by omega
        simp [h64, hb, heq, hi]
        omega
      · have hi : i ≠ a + b := by omega
        simp [heq, hi]
    · have hi : i ≠ a + b := by omega
      simp [hb, hi]
  · simp [h64]

theorem shr_shl_one {a : Nat} (b : Nat) (ha : a < 64) (hb : b ≤ a) :
    shr (shl 1 a) b = shl 1 (a - b) := by
  apply Nat.eq_of_testBit_eq
  intro i
  rw [testBit_shr, testBit_shl_one, testBit_shl_one]
  rcases Nat.decEq (b + i) a with hne | heq
  · simp_all
    omega
  · simp_all
    omega

theorem and_shl_one_eq_zero {x t : Nat} (ht : t < 64) :
    x &&& shl 1 t = 0 ↔ x.testBit t = false := by
  constructor
  · intro h
    have := congrArg (fun z => z.testBit t) h
    simpa [Nat.testBit_and, testBit_shl_one, ht] using this
  · intro h
    apply Nat.eq_of_testBit_eq
    intro i
    simp only [Nat.testBit_and, testBit_shl_one, Nat.zero_testBit]
    rcases Nat.decEq i t with hne | heq
    · simp [hne]
    · subst heq
      simp [h]

theorem and_shl_one_ne_zero {x t : Nat} (ht : t < 64) :
    x &&& shl 1 t ≠ 0 ↔ x.testBit t = true := by
  rw [Ne, and_shl_one_eq_zero ht]
  cases h : x.testBit t <;> simp

theorem updPM_same (pm : PieceMasks) (c : ColorIndex) (p : PieceIndex) (v : Nat) :
    (updPM pm c p v) c p = v := by
  simp [updPM]

theorem updPM_other {c' : ColorIndex} {p' : PieceIndex} (pm : PieceMasks) (c : ColorIndex)
    (p : PieceIndex) (v : Nat) (h : ¬ (c' = c ∧ p' = p)) : (updPM pm c p v) c' p' = pm c' p' := by
  simp [updPM, h]

theorem updPM_revert (pm : PieceMasks) (c : ColorIndex) (p : PieceIndex) (v : Nat) :
    updPM (updPM pm c p v) c p (pm c p) = pm := by
  funext c' p'
  by_cases h : c' = c ∧ p' = p
  · obtain ⟨rfl, rfl⟩ := h
    simp [updPM]
  · simp [updPM, h]

theorem updCM_same (cm : ColorMasks) (c : ColorIndex) (v : Nat) : (updCM cm c v) c = v := by
  simp [updCM]

theorem updCM_other {c' : ColorIndex} (cm : ColorMasks) (c : ColorIndex) (v : Nat)
    (h : c' ≠ c) : (updCM cm c v) c' = cm c' := by
  simp [updCM, h]

theorem updCM_revert (cm : ColorMasks) (c : ColorIndex) (v : Nat) :
    updCM (updCM cm c v) c (cm c) = cm := by
  funext c'
  by_cases h : c' = c
  · subst h
    simp [updCM]
  · simp [updCM, h]

theorem not_ne_self (c : ColorIndex) : c.not ≠ c := by cases c <;> simp [ColorIndex.not]

theorem eq_shl_one_of_subset {x y : Nat} (hy : y < 64)
    (hsub : ∀ i, x.testBit i = true → i = y) (hne : x ≠ 0) : x = shl 1 y := by
  have hxy : x.testBit y = true := by
    obtain ⟨i, hi⟩ := exists_testBit_of_ne_zero hne
    have := hsub i hi
    rwa [this] at hi
  apply Nat.eq_of_testBit_eq
  intro i
  rw [testBit_shl_one]
  rcases Nat.decEq i y with hne2 | heq
  · cases hxi : x.testBit i
    · simp [hne2]
    · exact absurd (hsub i hxi) hne2
  · subst heq
    simp [hxy, hy]

theorem ColorIndex.not_not (c : ColorIndex) : c.not.not = c := by cases c <;> rfl

/-- Characterisation of next_power_of_two on the usize range: the result
is the smallest power of two at least n. -/
theorem next_power_of_two_spec (n : Nat) (h : n ≤ 2 ^ 63) :
    (∃ k, next_power_of_two n = 2 ^ k) ∧ n ≤ next_power_of_two n ∧
      (1 ≤ n → next_power_of_two n < 2 * n) := by
  unfold next_power_of_two
  have hex : ∃ x ∈ List.range 64, (fun k => decide (n ≤ 2 ^ k)) x = true :=
    ⟨63, by simp, by simpa using h⟩
  have hlt : (List.range 64).findIdx (fun k => decide (n ≤ 2 ^ k)) < (List.range 64).length :=
    List.findIdx_lt_length_of_exists hex
  refine ⟨⟨_, rfl⟩, ?_, ?_⟩
  · have hget := List.findIdx_getElem (p := fun k => decide (n ≤ 2 ^ k)) (w := hlt)
    simpa using hget
  · intro h1
    set i := (List.range 64).findIdx (fun k => decide (n ≤ 2 ^ k)) with hi
    rcases Nat.eq_zero_or_pos i with hz | hpos
    · rw [hz]
      simp only [pow_zero]
      omega
    · have hnot := @List.not_of_lt_findIdx Nat (fun k => decide (n ≤ 2 ^ k))
        (List.range 64) (i - 1) (by omega)
      simp only [List.getElem_range, decide_eq_false_iff_not, Nat.not_le] at hnot
      have hsplit : 2 ^ i = 2 * 2 ^ (i - 1) := by
        conv_lhs => rw [show i = (i - 1) + 1 from by omega]
        rw [pow_succ]
        ring
      rw [hsplit]
      omega

/-- tt_set leaves every index other than hash &&& (len - 1) unchanged. -/
theorem tt_set_other_indices (table : List (Nat × Nat)) (hash : Nat) (bm : Move) (d sc : Int)
    (nt : NodeType) (i : Nat) (h : i ≠ hash &&& (table.length - 1)) :
    (tt_set table hash bm d sc nt).get? i = table.get? i := by
  simp only [tt_set]
  split
  · rfl
  · split
    · rfl
    · simp only [List.get?_eq_getElem?]
      exact List.getElem?_set_ne (Ne.symm h)

/-- CLAIM C10 — For every position and every square s, is_pseudolegal(s, s)
returns true: the degenerate move is accepted before any piece, blocker or
occupancy check, even on an empty square. -/
theorem is_pseudolegal_degenerate (g : ChessGame) (s : Nat) :
    g.is_pseudolegal s s = true := by
  simp [ChessGame.is_pseudolegal]

/-- CLAIM C5 — The depth-preferred replacement check of
TranspositionTable::set reads bits 24..31 of the stored data word (the
high byte of the score), not bits 32..39 that from_data and the packing
use for the depth: with a stored entry of depth 7 and score 0x01000000, a
new write of depth 3 is accepted although 7 > 3. -/
theorem tt_set_reads_depth_from_score_bits :
    (TTEntry.from_data (tt_pack_data (Move.pawn_push 8 16) 7 16777216 NodeType.Exact)).depth = 7 ∧
    (3 : Int) < 7 ∧
    tt_set [(0, tt_pack_data (Move.pawn_push 8 16) 7 16777216 NodeType.Exact)] 5
        (Move.pawn_push 8 16) 3 0 NodeType.Exact =
      [(5 ^^^ tt_pack_data (Move.pawn_push 8 16) 3 0 NodeType.Exact,
        tt_pack_data (Move.pawn_push 8 16) 3 0 NodeType.Exact)] ∧
    tt_set [(0, tt_pack_data (Move.pawn_push 8 16) 7 16777216 NodeType.Exact)] 5
        (Move.pawn_push 8 16) 3 0 NodeType.Exact ≠
      [(0, tt_pack_data (Move.pawn_push 8 16) 7 16777216 NodeType.Exact)] := by
  refine ⟨by decide, by decide, by decide, by decide⟩

/-- CLAIM C6 (counterexample) — TranspositionTable::new does not round the
entry count down to a power of two: for size_mb = 3 the code allocates
262144 entries (next_power_of_two) while rounding down gives 131072. -/
theorem tt_new_length_not_rounded_down :
    tt_new_length 3 = 262144 ∧ tt_length_claim 3 = 131072 ∧
      tt_new_length 3 ≠ tt_length_claim 3 := by
  refine ⟨by decide, by decide, by decide⟩

/-- CLAIM C6 (amended) — TranspositionTable::new(size_mb) allocates
N = next_power_of_two(size_mb * 2^20 / sizeof(Entry)) entries: a power of
two with l ≤ N < 2l (rounding UP), equal to the set_size count, while get
and set address the table at index hash &&& (N - 1) and set leaves all
other indices unchanged. -/
theorem tt_new_length_rounds_up (size_mb : Nat)
    (h1 : size_mb * 1024 * 1024 / entry_size ≠ 0)
    (h2 : size_mb * 1024 * 1024 / entry_size ≤ 2 ^ 63) :
    (∃ k, tt_new_length size_mb = 2 ^ k) ∧
    size_mb * 1024 * 1024 / entry_size ≤ tt_new_length size_mb ∧
    tt_new_length size_mb < 2 * (size_mb * 1024 * 1024 / entry_size) ∧
    tt_set_size_length size_mb = tt_new_length size_mb ∧
    (∀ (table : List (Nat × Nat)) (hash : Nat) (bm : Move) (d sc : Int) (nt : NodeType)
      (i : Nat), i ≠ hash &&& (table.length - 1) →
        (tt_set table hash bm d sc nt).get? i = table.get? i) ∧
    (∀ (table : List (Nat × Nat)) (hash : Nat),
      tt_get table hash = (table.get? (hash &&& (table.length - 1))).bind (fun stored =>
        if stored.1 ^^^ stored.2 = hash then some (TTEntry.from_data stored.2) else none)) := by
  obtain ⟨hpow, hle, hlt⟩ := next_power_of_two_spec (size_mb * 1024 * 1024 / entry_size) h2
  have hN : tt_new_length size_mb = next_power_of_two (size_mb * 1024 * 1024 / entry_size) := by
    unfold tt_new_length
    simp [h1]
  refine ⟨?_, ?_, ?_, ?_, ?_, ?_⟩
  · rw [hN]; exact hpow
  · rw [hN]; exact hle
  · rw [hN]; exact hlt (Nat.one_le_iff_ne_zero.mpr h1)
  · rw [hN]; unfold tt_set_size_length; rfl
  · intro table hash bm d sc nt i hi
    exact tt_set_other_indices table hash bm d sc nt i hi
  · intro table hash
    simp only [tt_get]
    cases table.get? (hash &&& (table.length - 1)) <;> rfl

/-- CLAIM C6 (witness). -/
theorem tt_new_length_rounds_up_witness :
    3 * 1024 * 1024 / entry_size ≠ 0 ∧ 3 * 1024 * 1024 / entry_size ≤ 2 ^ 63 ∧
      ((∃ k, tt_new_length 3 = 2 ^ k) ∧
        3 * 1024 * 1024 / entry_size ≤ tt_new_length 3 ∧
        tt_new_length 3 < 2 * (3 * 1024 * 1024 / entry_size) ∧
        tt_set_size_length 3 = tt_new_length 3 ∧
        (∀ (table : List (Nat × Nat)) (hash : Nat) (bm : Move) (d sc : Int) (nt : NodeType)
          (i : Nat), i ≠ hash &&& (table.length - 1) →
            (tt_set table hash bm d sc nt).get? i = table.get? i) ∧
        (∀ (table : List (Nat × Nat)) (hash : Nat),
          tt_get table hash = (table.get? (hash &&& (table.length - 1))).bind (fun stored =>
            if stored.1 ^^^ stored.2 = hash then some (TTEntry.from_data stored.2) else none))) :=
  ⟨by decide, by decide, tt_new_length_rounds_up 3 (by decide) (by decide)⟩

/-- CLAIM C9 (counterexample) — game_phase is not confined to [0, 256]: in
a position with seven queens (promoted extra material) the weighted
material sum is 28 > 24 and game_phase evaluates to -42. -/
theorem game_phase_negative_on_promoted_material :
    excess_queens_game.game_phase = -42 ∧ ¬ (0 ≤ excess_queens_game.game_phase) := by
  refine ⟨by decide, by decide⟩

/-- CLAIM C9 (amended) — game_phase computes exactly
256 * (24 - remaining) / 24 (i32 truncating division) with the claimed
weights, and the result lies in [0, 256] whenever the weighted material
sum is at most 24 (true of all non-promoted positions). -/
theorem game_phase_formula_and_range (g : ChessGame) :
    g.game_phase = Int.tdiv (256 * (24 - (phase_weight g : Int))) 24 ∧
      (phase_weight g ≤ 24 → 0 ≤ g.game_phase ∧ g.game_phase ≤ 256) := by
  have hform : g.game_phase = Int.tdiv (256 * (24 - (phase_weight g : Int))) 24 := by
    unfold ChessGame.game_phase phase_weight
    push_cast
    ring_nf
  refine ⟨hform, fun hle => ?_⟩
  rw [hform]
  have h0 : (0 : Int) ≤ 256 * (24 - (phase_weight g : Int)) := by
    have : (phase_weight g : Int) ≤ 24 := by exact_mod_cast hle
    nlinarith
  rw [Int.tdiv_eq_ediv h0 (by norm_num)]
  constructor
  · exact Int.ediv_nonneg h0 (by norm_num)
  · have hub : 256 * (24 - (phase_weight g : Int)) ≤ 6144 := by
      have : (0 : Int) ≤ (phase_weight g : Int) := by positivity
      nlinarith
    calc 256 * (24 - (phase_weight g : Int)) / 24 ≤ 6144 / 24 :=
      Int.ediv_le_ediv (by norm_num) hub
    _ = 256 := by norm_num

/-- CLAIM C9 (witness). -/
theorem game_phase_formula_and_range_witness :
    newGame.game_phase = Int.tdiv (256 * (24 - (phase_weight newGame : Int))) 24 ∧
      phase_weight newGame ≤ 24 ∧ 0 ≤ newGame.game_phase ∧ newGame.game_phase ≤ 256 :=
  ⟨(game_phase_formula_and_range newGame).1, by decide,
    (game_phase_formula_and_range newGame).2 (by decide)⟩

/-- CLAIM C8 — The rooks-on-seventh block of evaluate_rooks adds both the
midgame and the endgame parameter into the midgame score and leaves the
endgame score unchanged; on a position with one rook on the seventh rank
and parameters (3, 5) the code yields (8, 0) where the claimed semantics
(mg to mg, eg to eg) yields (3, 5). -/
theorem rooks_on_seventh_eg_into_mg :
    (∀ (pmg peg : Int) (g : ChessGame) (c : ColorIndex) (info : EvalInfo) (ev : EvalScore),
      (rooks_on_seventh_accum pmg peg g c info ev).eg = ev.eg ∧
      (rooks_on_seventh_accum pmg peg g c info ev).mg = ev.mg +
        pmg * (count_ones (g.piece_masks c Rook &&& info.seventh_rank c) : Int) +
        peg * (count_ones (g.piece_masks c Rook &&& info.seventh_rank c) : Int)) ∧
    rooks_on_seventh_accum 3 5 rook_seventh_game White (evalInfo rook_seventh_game) ⟨0, 0⟩ =
      ⟨8, 0⟩ ∧
    rooks_on_seventh_claim 3 5 rook_seventh_game White (evalInfo rook_seventh_game) ⟨0, 0⟩ =
      ⟨3, 5⟩ := by
  refine ⟨fun pmg peg g c info ev => ⟨rfl, rfl⟩, by decide, by decide⟩

/-- CLAIM C7 — The outposts scratch of the evaluator obeys the claimed
definition for White (complement of Black's pawn attack spans) but not for
Black: for Black the code complements White's current pawn ATTACKS, so
with a single white pawn on a2 the square b4 counts as a black outpost
although the pawn can attack b4 after one push. -/
theorem outposts_black_uses_attacks_not_spans :
    (∀ g : ChessGame, (evalInfo g).outposts White = inverse (g.pawn_attack_spans Black)) ∧
    (evalInfo pawn_a2_game).outposts Black = inverse (pawn_a2_game.pawn_attacks White) ∧
    Nat.testBit ((evalInfo pawn_a2_game).outposts Black) 25 = true ∧
    Nat.testBit (inverse (pawn_a2_game.pawn_attack_spans White)) 25 = false ∧
    (evalInfo pawn_a2_game).outposts Black ≠ inverse (pawn_a2_game.pawn_attack_spans White) := by
  refine ⟨fun g => rfl, rfl, by decide, by decide, by decide⟩

/-- CLAIM C3 — In double check (at least two checkers on the side-to-move
king) legal_moves returns only king moves: every generated move starts on
the king square, moves the king and is not a castling move. -/
theorem double_check_only_king_moves (g : ChessGame)
    (h : 1 < count_ones g.checkers) :
    ∀ m ∈ g.legal_moves,
      m.start = first_square (g.piece_masks g.current_player King) ∧
        m.piece = King ∧ m.castling = false := by
  intro m hm
  unfold ChessGame.legal_moves at hm
  rw [if_pos h] at hm
  simp only [List.mem_map] at hm
  obtain ⟨t, _, rfl⟩ := hm
  exact ⟨rfl, rfl, rfl⟩

/-- CLAIM C3 (witness): in the double-check position the theorem applies
to the king move e1-d2. -/
theorem double_check_only_king_moves_witness :
    1 < count_ones double_check_game.checkers ∧
      Move.king_move 4 11 false ∈ double_check_game.legal_moves ∧
      ((Move.king_move 4 11 false).start =
          first_square (double_check_game.piece_masks double_check_game.current_player King) ∧
        (Move.king_move 4 11 false).piece = King ∧
        (Move.king_move 4 11 false).castling = false) :=
  ⟨by decide, by decide,
    double_check_only_king_moves double_check_game (by decide)
      (Move.king_move 4 11 false) (by decide)⟩

/-- CLAIM C4 — The FEN round trip loses castling rights: the serialiser
tests the Black kingside flag both for 'k' and for 'q', so a position in
which Black holds only the queenside right serialises without any Black
castling letter, and re-parsing its own fen() output returns a position
with different castling rights (the board, side to move, en-passant mask
and halfmove clock do round-trip). -/
theorem fen_round_trip_drops_black_queenside :
    bq_rights_game.castling_rights Black Queenside = true ∧
    (set_from_fen bq_rights_game.fen).isOk = true ∧
    bq_rights_reparsed.castling_rights Black Queenside = false ∧
    bq_rights_reparsed.castling_rights ≠ bq_rights_game.castling_rights ∧
    bq_rights_reparsed.piece_masks = bq_rights_game.piece_masks ∧
    bq_rights_reparsed.current_player = bq_rights_game.current_player ∧
    bq_rights_reparsed.en_passent_mask = bq_rights_game.en_passent_mask ∧
    bq_rights_reparsed.halfmove_clock = bq_rights_game.halfmove_clock := by
  refine ⟨by decide, by decide, by decide, by decide, by decide, by decide, by decide, by decide⟩

/-! Characterisation of piece_at by mask bits. -/

theorem is_empty_eq_false {x : Nat} (h : x ≠ 0) : is_empty x = false := by
  simp [is_empty, h]

theorem is_not_empty_eq_true {x : Nat} (h : x ≠ 0) : is_not_empty x = true := by
  simp [is_not_empty, h]

/-- piece_at written as a flat cascade over single mask bits. -/
theorem piece_at_eq (g : ChessGame) (sq : Nat) (hsq : sq < 64) :
    g.piece_at sq =
      if g.combined.testBit sq = false then NoPiece
      else if (g.piece_masks White Pawn ||| g.piece_masks Black Pawn).testBit sq then Pawn
      else if (g.piece_masks White Knight ||| g.piece_masks Black Knight).testBit sq then Knight
      else if (g.piece_masks White Bishop ||| g.piece_masks Black Bishop).testBit sq then Bishop
      else if (g.piece_masks White Rook ||| g.piece_masks Black Rook).testBit sq then Rook
      else if (g.piece_masks White Queen ||| g.piece_masks Black Queen).testBit sq then Queen
      else King := by
  unfold ChessGame.piece_at
  simp only [is_empty, is_not_empty, beq_iff_eq, bne_iff_ne, Ne, and_shl_one_eq_zero hsq]
  cases hcomb : g.combined.testBit sq <;>
    cases hP : (g.piece_masks White Pawn ||| g.piece_masks Black Pawn).testBit sq <;>
    cases hN : (g.piece_masks White Knight ||| g.piece_masks Black Knight).testBit sq <;>
    cases hB : (g.piece_masks White Bishop ||| g.piece_masks Black Bishop).testBit sq <;>
    cases hR : (g.piece_masks White Rook ||| g.piece_masks Black Rook).testBit sq <;>
    cases hQ : (g.piece_masks White Queen ||| g.piece_masks Black Queen).testBit sq <;>
    simp_all [Nat.testBit_or] <;> (intros ; simp_all)

/-- In a well-formed position a set bit of a piece mask determines
piece_at. -/
theorem piece_at_of_testBit {g : ChessGame} (hwf : WF g) {c : ColorIndex} {k : PieceIndex}
    {sq : Nat} (hk : k ≠ NoPiece) (hbit : (g.piece_masks c k).testBit sq = true)
    (hsq : sq < 64) : g.piece_at sq = k := by
  obtain ⟨-, hdisj, hunion, -, hcomb, -⟩ := hwf
  have hdisj' : ∀ c' k', (c, k) ≠ (c', k') → (g.piece_masks c' k').testBit sq = false := by
    intro c' k' hne
    exact testBit_of_disjoint
      (hdisj c (by cases c <;> simp) k (by cases k <;> simp) c' (by cases c' <;> simp) k'
        (by cases k' <;> simp) hne) hbit
  have hcolor : (g.color_masks c).testBit sq = true := by
    rw [hunion c (by cases c <;> simp)]
    simp only [Nat.testBit_or]
    cases k with
    | Pawn => simp [hbit]
    | Knight => simp [hbit]
    | Bishop => simp [hbit]
    | Rook => simp [hbit]
    | Queen => simp [hbit]
    | King => simp [hbit]
    | NoPiece => exact absurd rfl hk
  have hcombined : g.combined.testBit sq = true := by
    rw [hcomb]
    simp only [Nat.testBit_or]
    cases c <;> simp [hcolor]
  rw [piece_at_eq g sq hsq, if_neg (by simp [hcombined])]
  have hother : ∀ k', k' ≠ k →
      (g.piece_masks White k' ||| g.piece_masks Black k').testBit sq = false := by
    intro k' hne
    have h1 : (g.piece_masks White k').testBit sq = false :=
      hdisj' White k' (fun hpp => hne (congrArg Prod.snd hpp).symm)
    have h2 : (g.piece_masks Black k').testBit sq = false :=
      hdisj' Black k' (fun hpp => hne (congrArg Prod.snd hpp).symm)
    simp [Nat.testBit_or, h1, h2]
  have hself : (g.piece_masks White k ||| g.piece_masks Black k).testBit sq = true := by
    simp only [Nat.testBit_or]
    cases c <;> simp [hbit]
  cases k with
  | Pawn => simp [hself]
  | Knight => simp [hother Pawn (by simp), hself]
  | Bishop => simp [hother Pawn (by simp), hother Knight (by simp), hself]
  | Rook =>
    simp [hother Pawn (by simp), hother Knight (by simp), hother Bishop (by simp), hself]
  | Queen =>
    simp [hother Pawn (by simp), hother Knight (by simp), hother Bishop (by simp),
      hother Rook (by simp), hself]
  | King =>
    simp [hother Pawn (by simp), hother Knight (by simp), hother Bishop (by simp),
      hother Rook (by simp), hother Queen (by simp)]
  | NoPiece => exact absurd rfl hk

/-- An empty square yields NoPiece. -/
theorem piece_at_of_empty {g : ChessGame} {sq : Nat}
    (h : g.combined.testBit sq = false) (hsq : sq < 64) : g.piece_at sq = NoPiece := by
  rw [piece_at_eq g sq hsq, if_pos h]

/-! Further mask-update algebra and well-formedness accessors. -/

theorem updPM_overwrite (pm : PieceMasks) (c : ColorIndex) (p : PieceIndex) (v w : Nat) :
    updPM (updPM pm c p v) c p w = updPM pm c p w := by
  funext c' p'
  by_cases h : c' = c ∧ p' = p <;> simp [updPM, h]

theorem updCM_overwrite (cm : ColorMasks) (c : ColorIndex) (v w : Nat) :
    updCM (updCM cm c v) c w = updCM cm c w := by
  funext c'
  by_cases h : c' = c <;> simp [updCM, h]

theorem testBit_lt_64 {b i : Nat} (hb : b < 2 ^ 64) (h : b.testBit i = true) : i < 64 := by
  by_contra hge
  rw [Nat.testBit_eq_false_of_lt (Nat.lt_of_lt_of_le hb
    (Nat.pow_le_pow_right (by norm_num) (by omega)))] at h
  exact Bool.false_ne_true h

theorem or_lt_64 {x y : Nat} (hx : x < 2 ^ 64) (hy : y < 2 ^ 64) : x ||| y < 2 ^ 64 :=
  Nat.or_lt_two_pow hx hy

theorem count_ones_eq_length (b : Nat) : count_ones b = (squaresOf b).length := by
  simp [count_ones, squaresOf, List.countP_eq_length_filter]

theorem eq_shl_one_of_count_one {b : Nat} (hb : b < 2 ^ 64) (h : count_ones b = 1) :
    b = shl 1 (first_square b) := by
  rw [count_ones_eq_length] at h
  obtain ⟨x, hx⟩ := List.length_eq_one.mp h
  have hb0 : b ≠ 0 := by
    intro h0
    subst h0
    rw [show squaresOf 0 = [] from by decide] at hx
    exact absurd hx (by simp)
  have hmemx : ∀ i, b.testBit i = true → i = x := by
    intro i hi
    have hi64 : i < 64 := testBit_lt_64 hb hi
    have : i ∈ squaresOf b := mem_squaresOf.mpr ⟨hi64, hi⟩
    rw [hx] at this
    simpa using this
  obtain ⟨hfs64, hfsbit, -⟩ := first_square_spec hb0 hb
  have hfx : first_square b = x := hmemx _ hfsbit
  exact eq_shl_one_of_subset (hfx ▸ hfs64) (fun i hi => (hmemx i hi).trans hfx.symm) hb0

namespace WF

variable {g : ChessGame}

theorem bound (hwf : WF g) (c : ColorIndex) (p : PieceIndex) : g.piece_masks c p < 2 ^ 64 :=
  hwf.1 c (by cases c <;> simp) p (by cases p <;> simp)

theorem disjoint (hwf : WF g) {c : ColorIndex} {p : PieceIndex} {c' : ColorIndex}
    {p' : PieceIndex} (h : (c, p) ≠ (c', p')) :
    g.piece_masks c p &&& g.piece_masks c' p' = 0 :=
  hwf.2.1 c (by cases c <;> simp) p (by cases p <;> simp) c' (by cases c' <;> simp) p'
    (by cases p' <;> simp) h

theorem union (hwf : WF g) (c : ColorIndex) :
    g.color_masks c = g.piece_masks c Pawn ||| g.piece_masks c Knight |||
      g.piece_masks c Bishop ||| g.piece_masks c Rook ||| g.piece_masks c Queen |||
      g.piece_masks c King :=
  hwf.2.2.1 c (by cases c <;> simp)

theorem colors (hwf : WF g) : g.color_masks White &&& g.color_masks Black = 0 :=
  hwf.2.2.2.1

theorem combined_eq (hwf : WF g) :
    g.combined = g.color_masks White ||| g.color_masks Black :=
  hwf.2.2.2.2.1

theorem ep_disjoint (hwf : WF g) : g.en_passent_mask &&& g.combined = 0 :=
  hwf.2.2.2.2.2.1

theorem ep_ranks (hwf : WF g) :
    g.en_passent_mask &&& (THIRD_RANK ||| SIXTH_RANK) = g.en_passent_mask :=
  hwf.2.2.2.2.2.2.1

theorem ep_lt (hwf : WF g) : g.en_passent_mask < 2 ^ 64 :=
  hwf.2.2.2.2.2.2.2.1

theorem castle_king (hwf : WF g) {c : ColorIndex} {s : CastlingIndex}
    (h : g.castling_rights c s = true) :
    g.piece_masks c King = shl 1 (4 + 56 * c.toNat) :=
  hwf.2.2.2.2.2.2.2.2.1 c (by cases c <;> simp) s (by cases s <;> simp) h

theorem clock (hwf : WF g) : g.halfmove_clock < 256 :=
  hwf.2.2.2.2.2.2.2.2.2.1

theorem king_count (hwf : WF g) (c : ColorIndex) :
    count_ones (g.piece_masks c King) = 1 :=
  hwf.2.2.2.2.2.2.2.2.2.2 c (by cases c <;> simp)

theorem cm_lt (hwf : WF g) (c : ColorIndex) : g.color_masks c < 2 ^ 64 := by
  rw [hwf.union c]
  exact or_lt_64 (or_lt_64 (or_lt_64 (or_lt_64 (or_lt_64 (hwf.bound c Pawn)
    (hwf.bound c Knight)) (hwf.bound c Bishop)) (hwf.bound c Rook)) (hwf.bound c Queen))
    (hwf.bound c King)

theorem combined_lt (hwf : WF g) : g.combined < 2 ^ 64 := by
  rw [hwf.combined_eq]
  exact or_lt_64 (hwf.cm_lt White) (hwf.cm_lt Black)

theorem pm_bit_cm (hwf : WF g) {c : ColorIndex} {p : PieceIndex} {sq : Nat}
    (hp : p ≠ NoPiece) (h : (g.piece_masks c p).testBit sq = true) :
    (g.color_masks c).testBit sq = true := by
  rw [hwf.union c]
  simp only [Nat.testBit_or]
  cases p <;> simp_all

theorem cm_false_pm (hwf : WF g) {c : ColorIndex} {p : PieceIndex} {sq : Nat}
    (hp : p ≠ NoPiece) (h : (g.color_masks c).testBit sq = false) :
    (g.piece_masks c p).testBit sq = false := by
  cases hb : (g.piece_masks c p).testBit sq
  · rfl
  · rw [hwf.pm_bit_cm hp hb] at h
    exact absurd h (by simp)

theorem cm_bit_combined (hwf : WF g) {c : ColorIndex} {sq : Nat}
    (h : (g.color_masks c).testBit sq = true) : g.combined.testBit sq = true := by
  rw [hwf.combined_eq]
  simp only [Nat.testBit_or]
  cases c <;> simp_all

theorem combined_false_cm (hwf : WF g) {c : ColorIndex} {sq : Nat}
    (h : g.combined.testBit sq = false) : (g.color_masks c).testBit sq = false := by
  cases hb : (g.color_masks c).testBit sq
  · rfl
  · rw [hwf.cm_bit_combined hb] at h
    exact absurd h (by simp)

theorem enemy_bit_own_false (hwf : WF g) {c : ColorIndex} {sq : Nat}
    (h : (g.color_masks c.not).testBit sq = true) : (g.color_masks c).testBit sq = false := by
  cases c
  · exact testBit_of_disjoint ((Nat.land_comm _ _).trans hwf.colors) h
  · exact testBit_of_disjoint hwf.colors h

theorem ep_bit_combined_false (hwf : WF g) {sq : Nat}
    (h : g.en_passent_mask.testBit sq = true) : g.combined.testBit sq = false :=
  testBit_of_disjoint hwf.ep_disjoint h

theorem own_false_of_enemy_or_ep (hwf : WF g) {c : ColorIndex} {sq : Nat}
    (h : (g.color_masks c.not ||| g.en_passent_mask).testBit sq = true) :
    (g.color_masks c).testBit sq = false := by
  rw [Nat.testBit_or] at h
  rcases Bool.or_eq_true_iff.mp h with h1 | h2
  · exact hwf.enemy_bit_own_false h1
  · exact hwf.combined_false_cm (hwf.ep_bit_combined_false h2)

theorem king_ne_zero (hwf : WF g) (c : ColorIndex) : g.piece_masks c King ≠ 0 := by
  intro h0
  have := hwf.king_count c
  rw [h0] at this
  exact absurd this (by decide)

theorem king_singleton (hwf : WF g) (c : ColorIndex) :
    g.piece_masks c King = shl 1 (first_square (g.piece_masks c King)) :=
  eq_shl_one_of_count_one (hwf.bound c King) (hwf.king_count c)

theorem king_sq_lt (hwf : WF g) (c : ColorIndex) :
    first_square (g.piece_masks c King) < 64 :=
  (first_square_spec (hwf.king_ne_zero c) (hwf.bound c King)).1

theorem own_king_bit (hwf : WF g) (c : ColorIndex) :
    (g.color_masks c).testBit (first_square (g.piece_masks c King)) = true :=
  hwf.pm_bit_cm (by decide)
    (first_square_spec (hwf.king_ne_zero c) (hwf.bound c King)).2.1

theorem ep_target_range (hwf : WF g) {t : Nat} (h : g.en_passent_mask.testBit t = true) :
    16 ≤ t ∧ t < 48 := by
  have ht64 : t < 64 := testBit_lt_64 hwf.ep_lt h
  have hrank : (THIRD_RANK ||| SIXTH_RANK).testBit t = true := by
    have := congrArg (fun z => z.testBit t) hwf.ep_ranks
    simp only [Nat.testBit_and, h, Bool.true_and] at this
    exact this
  have key : ∀ u, u < 64 → (THIRD_RANK ||| SIXTH_RANK).testBit u = true → 16 ≤ u ∧ u < 48 := by
    decide
  exact key t ht64 hrank

end WF

/-- The cascade of piece_at resolved from explicit bit facts: the occupied
bit is set, the kind's union bit is set and every other kind's union bit is
clear. -/
theorem piece_at_of_bits {g : ChessGame} {k : PieceIndex} {sq : Nat} (hsq : sq < 64)
    (hk : k ≠ NoPiece) (hcombined : g.combined.testBit sq = true)
    (hself : (g.piece_masks White k ||| g.piece_masks Black k).testBit sq = true)
    (hother : ∀ k', k' ≠ k → k' ≠ NoPiece →
      (g.piece_masks White k' ||| g.piece_masks Black k').testBit sq = false) :
    g.piece_at sq = k := by
  rw [piece_at_eq g sq hsq, if_neg (by simp [hcombined])]
  cases k with
  | Pawn => simp [hself]
  | Knight => simp [hother Pawn (by simp) (by simp), hself]
  | Bishop => simp [hother Pawn (by simp) (by simp), hother Knight (by simp) (by simp), hself]
  | Rook =>
    simp [hother Pawn (by simp) (by simp), hother Knight (by simp) (by simp),
      hother Bishop (by simp) (by simp), hself]
  | Queen =>
    simp [hother Pawn (by simp) (by simp), hother Knight (by simp) (by simp),
      hother Bishop (by simp) (by simp), hother Rook (by simp) (by simp), hself]
  | King =>
    simp [hother Pawn (by simp) (by simp), hother Knight (by simp) (by simp),
      hother Bishop (by simp) (by simp), hother Rook (by simp) (by simp),
      hother Queen (by simp) (by simp)]
  | NoPiece => exact absurd rfl hk

/-- The kind returned by piece_at has its union bit set (the King fallback
case needs well-formedness). -/
theorem union_testBit_of_piece_at {g : ChessGame} (hwf : WF g) {k : PieceIndex} {sq : Nat}
    (hsq : sq < 64) (h : g.piece_at sq = k) (hk : k ≠ NoPiece) :
    (g.piece_masks White k ||| g.piece_masks Black k).testBit sq = true := by
  rw [piece_at_eq g sq hsq] at h
  by_cases hcb : g.combined.testBit sq = false
  · rw [if_pos hcb] at h
    exact absurd h.symm hk
  · rw [if_neg hcb] at h
    have hcb' : g.combined.testBit sq = true := by
      cases hx : g.combined.testBit sq
      · exact absurd hx hcb
      · rfl
    split_ifs at h with h1 h2 h3 h4 h5
    · exact h ▸ h1
    · exact h ▸ h2
    · exact h ▸ h3
    · exact h ▸ h4
    · exact h ▸ h5
    · -- King fallback: the occupied bit must come from some piece mask
      subst h
      have hsome : ∃ c, (g.color_masks c).testBit sq = true := by
        rw [hwf.combined_eq] at hcb'
        rw [Nat.testBit_or] at hcb'
        rcases Bool.or_eq_true_iff.mp hcb' with hw | hb
        · exact ⟨White, hw⟩
        · exact ⟨Black, hb⟩
      obtain ⟨c, hc⟩ := hsome
      rw [hwf.union c] at hc
      simp only [Nat.testBit_or, Bool.or_eq_true_iff] at hc h1 h2 h3 h4 h5
      push_neg at h1 h2 h3 h4 h5
      simp only [Nat.testBit_or, Bool.or_eq_true_iff]
      cases c <;> tauto

/-- piece_at returning NoPiece means the occupied bit is clear. -/
theorem combined_false_of_piece_at {g : ChessGame} {sq : Nat} (hsq : sq < 64)
    (h : g.piece_at sq = NoPiece) : g.combined.testBit sq = false := by
  rw [piece_at_eq g sq hsq] at h
  by_cases hcb : g.combined.testBit sq = false
  · exact hcb
  · rw [if_neg hcb] at h
    split_ifs at h <;> exact absurd h (by simp)

/-- When the side to move does not occupy the square, the piece found
there belongs to the opponent. -/
theorem enemy_pm_of_piece_at {g : ChessGame} (hwf : WF g) {c : ColorIndex} {k : PieceIndex}
    {sq : Nat} (hsq : sq < 64) (hk : k ≠ NoPiece) (hat : g.piece_at sq = k)
    (hown : (g.color_masks c).testBit sq = false) :
    (g.piece_masks c.not k).testBit sq = true := by
  have hu := union_testBit_of_piece_at hwf hsq hat hk
  have hcself : (g.piece_masks c k).testBit sq = false := hwf.cm_false_pm hk hown
  rw [Nat.testBit_or] at hu
  rcases Bool.or_eq_true_iff.mp hu with hw | hb
  · cases c
    · rw [hw] at hcself
      exact absurd hcself (by simp)
    · exact hw
  · cases c
    · exact hb
    · rw [hb] at hcself
      exact absurd hcself (by simp)

/-! Field projections through the blocks of make_move. -/

namespace ChessGame

section MakeBlocks

variable (g : ChessGame) (m : Move) (c : ColorIndex) (s t : Nat) (cas ep : Bool)
  (cap p : PieceIndex)

theorem push_pm : (make_push_histories g m cap).piece_masks = g.piece_masks := rfl

theorem push_cm : (make_push_histories g m cap).color_masks = g.color_masks := rfl

theorem push_cp : (make_push_histories g m cap).current_player = g.current_player := rfl

theorem push_hash : (make_push_histories g m cap).hash = g.hash := rfl

theorem push_ep : (make_push_histories g m cap).en_passent_mask = g.en_passent_mask := rfl

theorem push_cr : (make_push_histories g m cap).castling_rights = g.castling_rights := rfl

theorem push_uh : (make_push_histories g m cap).unmove_history =
    UnMove.new m.start m.target (decide (m.promotion ≠ NoPiece)) cap m.en_passent
      g.en_passent_mask m.castling g.castling_rights g.halfmove_clock ::
      g.unmove_history := rfl

theorem push_ph : (make_push_histories g m cap).position_history =
    g.hash :: g.position_history := rfl

theorem castle_uh : (make_castle g c s t cas).unmove_history = g.unmove_history := by
  simp only [make_castle]
  repeat' split
  all_goals rfl

theorem castle_ph : (make_castle g c s t cas).position_history = g.position_history := by
  simp only [make_castle]
  repeat' split
  all_goals rfl

theorem castle_cp : (make_castle g c s t cas).current_player = g.current_player := by
  simp only [make_castle]
  repeat' split
  all_goals rfl

theorem castle_ep : (make_castle g c s t cas).en_passent_mask = g.en_passent_mask := by
  simp only [make_castle]
  repeat' split
  all_goals rfl

theorem castle_false : make_castle g c s t false = g := rfl

theorem capture_uh : (make_capture g c t ep cap).unmove_history = g.unmove_history := by
  simp only [make_capture]
  repeat' split
  all_goals rfl

theorem capture_ph : (make_capture g c t ep cap).position_history = g.position_history := by
  simp only [make_capture]
  repeat' split
  all_goals rfl

theorem capture_cp : (make_capture g c t ep cap).current_player = g.current_player := by
  simp only [make_capture]
  repeat' split
  all_goals rfl

theorem capture_ep : (make_capture g c t ep cap).en_passent_mask = g.en_passent_mask := by
  simp only [make_capture]
  repeat' split
  all_goals rfl

theorem capture_cr : (make_capture g c t ep cap).castling_rights = g.castling_rights := by
  simp only [make_capture]
  repeat' split
  all_goals rfl

theorem capture_none : make_capture g c t ep NoPiece = g := by
  simp [make_capture]

theorem clear_ep_pm : (make_clear_ep g).piece_masks = g.piece_masks := by
  simp only [make_clear_ep]
  repeat' split
  all_goals rfl

theorem clear_ep_cm : (make_clear_ep g).color_masks = g.color_masks := by
  simp only [make_clear_ep]
  repeat' split
  all_goals rfl

theorem clear_ep_cp : (make_clear_ep g).current_player = g.current_player := by
  simp only [make_clear_ep]
  repeat' split
  all_goals rfl

theorem clear_ep_uh : (make_clear_ep g).unmove_history = g.unmove_history := by
  simp only [make_clear_ep]
  repeat' split
  all_goals rfl

theorem clear_ep_ph : (make_clear_ep g).position_history = g.position_history := by
  simp only [make_clear_ep]
  repeat' split
  all_goals rfl

theorem clear_ep_cr : (make_clear_ep g).castling_rights = g.castling_rights := by
  simp only [make_clear_ep]
  repeat' split
  all_goals rfl

theorem rights_piece_pm : (make_rights_piece g c s p).piece_masks = g.piece_masks := by
  simp only [make_rights_piece]
  repeat' split
  all_goals rfl

theorem rights_piece_cm : (make_rights_piece g c s p).color_masks = g.color_masks := by
  simp only [make_rights_piece]
  repeat' split
  all_goals rfl

theorem rights_piece_cp : (make_rights_piece g c s p).current_player = g.current_player := by
  simp only [make_rights_piece]
  repeat' split
  all_goals rfl

theorem rights_piece_uh : (make_rights_piece g c s p).unmove_history = g.unmove_history := by
  simp only [make_rights_piece]
  repeat' split
  all_goals rfl

theorem rights_piece_ph : (make_rights_piece g c s p).position_history =
    g.position_history := by
  simp only [make_rights_piece]
  repeat' split
  all_goals rfl

theorem rights_piece_ep : (make_rights_piece g c s p).en_passent_mask =
    g.en_passent_mask := by
  simp only [make_rights_piece]
  repeat' split
  all_goals rfl

theorem rights_capture_pm : (make_rights_capture g c t cap).piece_masks = g.piece_masks := by
  simp only [make_rights_capture]
  repeat' split
  all_goals rfl

theorem rights_capture_cm : (make_rights_capture g c t cap).color_masks = g.color_masks := by
  simp only [make_rights_capture]
  repeat' split
  all_goals rfl

theorem rights_capture_cp : (make_rights_capture g c t cap).current_player =
    g.current_player := by
  simp only [make_rights_capture]
  repeat' split
  all_goals rfl

theorem rights_capture_uh : (make_rights_capture g c t cap).unmove_history =
    g.unmove_history := by
  simp only [make_rights_capture]
  repeat' split
  all_goals rfl

theorem rights_capture_ph : (make_rights_capture g c t cap).position_history =
    g.position_history := by
  simp only [make_rights_capture]
  repeat' split
  all_goals rfl

theorem rights_capture_ep : (make_rights_capture g c t cap).en_passent_mask =
    g.en_passent_mask := by
  simp only [make_rights_capture]
  repeat' split
  all_goals rfl

theorem move_piece_uh : (make_move_piece g c s t p cas).unmove_history =
    g.unmove_history := by
  simp only [make_move_piece]
  repeat' split
  all_goals rfl

theorem move_piece_ph : (make_move_piece g c s t p cas).position_history =
    g.position_history := by
  simp only [make_move_piece]
  repeat' split
  all_goals rfl

theorem move_piece_cp : (make_move_piece g c s t p cas).current_player =
    g.current_player := by
  simp only [make_move_piece]
  repeat' split
  all_goals rfl

theorem move_piece_ep : (make_move_piece g c s t p cas).en_passent_mask =
    g.en_passent_mask := by
  simp only [make_move_piece]
  repeat' split
  all_goals rfl

theorem move_piece_cr : (make_move_piece g c s t p cas).castling_rights =
    g.castling_rights := by
  simp only [make_move_piece]
  repeat' split
  all_goals rfl

theorem move_piece_castling : make_move_piece g c s t p true = g := by
  simp [make_move_piece]

theorem move_piece_normal : make_move_piece g c s t p false =
    { g with
      hash := g.hash ^^^ zobrist_piece p c s ^^^ zobrist_piece p c t
      piece_masks := updPM g.piece_masks c p
        (g.piece_masks c p ^^^ (shl 1 s ||| shl 1 t))
      color_masks := updCM g.color_masks c
        (g.color_masks c ^^^ (shl 1 s ||| shl 1 t)) } := by
  simp [make_move_piece]

theorem pawn_cm : (make_pawn g c m).color_masks = g.color_masks := by
  simp only [make_pawn]
  repeat' split
  all_goals rfl

theorem pawn_cp : (make_pawn g c m).current_player = g.current_player := by
  simp only [make_pawn]
  repeat' split
  all_goals rfl

theorem pawn_uh : (make_pawn g c m).unmove_history = g.unmove_history := by
  simp only [make_pawn]
  repeat' split
  all_goals rfl

theorem pawn_ph : (make_pawn g c m).position_history = g.position_history := by
  simp only [make_pawn]
  repeat' split
  all_goals rfl

theorem pawn_cr : (make_pawn g c m).castling_rights = g.castling_rights := by
  simp only [make_pawn]
  repeat' split
  all_goals rfl

theorem pawn_pm_no_promo (h : m.promotion = NoPiece) :
    (make_pawn g c m).piece_masks = g.piece_masks := by
  simp only [make_pawn, h]
  repeat' split
  all_goals first | rfl | simp_all

theorem pawn_not_pawn (h : m.piece ≠ Pawn) : make_pawn g c m = g := by
  simp [make_pawn, h]

theorem finish_pm : (make_finish g).piece_masks = g.piece_masks := rfl

theorem finish_cm : (make_finish g).color_masks = g.color_masks := rfl

theorem finish_cp : (make_finish g).current_player = g.current_player.not := rfl

theorem finish_uh : (make_finish g).unmove_history = g.unmove_history := rfl

theorem finish_ph : (make_finish g).position_history = g.position_history := rfl

theorem finish_ep : (make_finish g).en_passent_mask = g.en_passent_mask := rfl

theorem finish_cr : (make_finish g).castling_rights = g.castling_rights := rfl

theorem finish_comb : (make_finish g).combined =
    g.color_masks White ||| g.color_masks Black := rfl

end MakeBlocks

/-! Field projections through make_move as a whole. -/

theorem make_move_uh (g : ChessGame) (m : Move) :
    (make_move g m).unmove_history =
      UnMove.new m.start m.target (decide (m.promotion ≠ NoPiece))
        (if m.en_passent then Pawn else g.piece_at m.target) m.en_passent
        g.en_passent_mask m.castling g.castling_rights g.halfmove_clock ::
        g.unmove_history := by
  simp only [make_move, finish_uh, pawn_uh, move_piece_uh, rights_capture_uh, rights_piece_uh,
    clear_ep_uh, capture_uh, castle_uh, push_uh, push_ep, push_cr]

theorem make_move_ph (g : ChessGame) (m : Move) :
    (make_move g m).position_history = g.hash :: g.position_history := by
  simp only [make_move, finish_ph, pawn_ph, move_piece_ph, rights_capture_ph, rights_piece_ph,
    clear_ep_ph, capture_ph, castle_ph, push_ph]

theorem make_move_cp (g : ChessGame) (m : Move) :
    (make_move g m).current_player = g.current_player.not := by
  simp only [make_move, finish_cp, pawn_cp, move_piece_cp, rights_capture_cp, rights_piece_cp,
    clear_ep_cp, capture_cp, castle_cp, push_cp]

theorem make_move_comb (g : ChessGame) (m : Move) :
    (make_move g m).combined =
      (make_move g m).color_masks White ||| (make_move g m).color_masks Black := by
  simp only [make_move, finish_comb, finish_cm, pawn_cm]

theorem eq_not_self_iff (c : ColorIndex) : (c = c.not) ↔ False :=
  ⟨fun h => absurd h.symm (not_ne_self c), False.elim⟩

theorem not_eq_self_iff (c : ColorIndex) : (c.not = c) ↔ False :=
  ⟨fun h => absurd h (not_ne_self c), False.elim⟩

/-! Mask characterisations of the conditional blocks. -/

theorem castle_true_pm (g : ChessGame) (c : ColorIndex) (s t : Nat) :
    (make_castle g c s t true).piece_masks =
      updPM (updPM g.piece_masks c King (g.piece_masks c King ^^^ (shl 1 t ||| shl 1 s)))
        c Rook (g.piece_masks c Rook ^^^
          (shl 1 (if (t : Int) - (s : Int) = 2 then offset t (-1) 0 else offset t 1 0) |||
            shl 1 (if (t : Int) - (s : Int) = 2 then offset t 1 0 else offset t (-2) 0))) := by
  simp only [make_castle]
  split <;> first | rfl | simp_all

theorem castle_true_cm (g : ChessGame) (c : ColorIndex) (s t : Nat) :
    (make_castle g c s t true).color_masks =
      updCM g.color_masks c (g.color_masks c ^^^
        (shl 1 s ||| shl 1 t |||
          shl 1 (if (t : Int) - (s : Int) = 2 then offset t 1 0 else offset t (-2) 0) |||
          shl 1 (if (t : Int) - (s : Int) = 2 then offset t (-1) 0 else offset t 1 0))) := by
  simp only [make_castle]
  split <;> first | rfl | simp_all

theorem capture_some_pm (g : ChessGame) (c : ColorIndex) (t : Nat) (ep : Bool)
    (cap : PieceIndex) (h : cap ≠ NoPiece) :
    (make_capture g c t ep cap).piece_masks =
      updPM g.piece_masks c.not cap (g.piece_masks c.not cap ^^^
        shl 1 (if ep then (if c = White then offset t 0 (-1) else offset t 0 1) else t)) := by
  simp only [make_capture, if_pos h]
  repeat' split
  all_goals rfl

theorem capture_some_cm (g : ChessGame) (c : ColorIndex) (t : Nat) (ep : Bool)
    (cap : PieceIndex) (h : cap ≠ NoPiece) :
    (make_capture g c t ep cap).color_masks =
      updCM g.color_masks c.not (g.color_masks c.not ^^^
        shl 1 (if ep then (if c = White then offset t 0 (-1) else offset t 0 1) else t)) := by
  simp only [make_capture, if_pos h]
  repeat' split
  all_goals rfl

theorem pawn_pm_promo (g : ChessGame) (c : ColorIndex) (m : Move) (hpiece : m.piece = Pawn)
    (hpromo : m.promotion ≠ NoPiece) (hne : m.promotion ≠ Pawn) :
    (make_pawn g c m).piece_masks =
      updPM (updPM g.piece_masks c Pawn (g.piece_masks c Pawn ^^^ shl 1 m.target))
        c m.promotion (g.piece_masks c m.promotion ||| shl 1 m.target) := by
  simp only [make_pawn, if_pos hpiece, if_pos hpromo]
  repeat' split
  all_goals simp [updPM_other _ _ _ _ (by simp [hne] : ¬ (c = c ∧ m.promotion = Pawn))]

/-! Mask characterisations of make_move, case by case.  `color` is the
mover, reads are simplified to the pre-move masks. -/

theorem make_move_pm_quiet (g : ChessGame) (m : Move) (hcas : m.castling = false)
    (hpromo : m.promotion = NoPiece)
    (hcap : (if m.en_passent then Pawn else g.piece_at m.target) = NoPiece) :
    (make_move g m).piece_masks =
      updPM g.piece_masks g.current_player m.piece
        (g.piece_masks g.current_player m.piece ^^^ (shl 1 m.start ||| shl 1 m.target)) := by
  simp only [make_move, hcap, hcas, hpromo, castle_false, capture_none, finish_pm,
    rights_capture_pm, rights_piece_pm, clear_ep_pm, push_pm, push_cp, push_cm,
    pawn_pm_no_promo, move_piece_normal]

theorem make_move_cm_quiet (g : ChessGame) (m : Move) (hcas : m.castling = false)
    (hcap : (if m.en_passent then Pawn else g.piece_at m.target) = NoPiece) :
    (make_move g m).color_masks =
      updCM g.color_masks g.current_player
        (g.color_masks g.current_player ^^^ (shl 1 m.start ||| shl 1 m.target)) := by
  simp only [make_move, hcap, hcas, castle_false, capture_none, finish_cm,
    rights_capture_cm, rights_piece_cm, clear_ep_cm, push_cm, push_cp, push_pm,
    pawn_cm, move_piece_normal]

theorem make_move_pm_capture (g : ChessGame) (m : Move) (k : PieceIndex)
    (hcas : m.castling = false) (hpromo : m.promotion = NoPiece) (hep : m.en_passent = false)
    (hcap : g.piece_at m.target = k) (hk : k ≠ NoPiece) :
    (make_move g m).piece_masks =
      updPM (updPM g.piece_masks g.current_player.not k
          (g.piece_masks g.current_player.not k ^^^ shl 1 m.target))
        g.current_player m.piece
        (g.piece_masks g.current_player m.piece ^^^ (shl 1 m.start ||| shl 1 m.target)) := by
  have hcap' : (if m.en_passent then Pawn else g.piece_at m.target) = k := by
    simp [hep, hcap]
  simp only [make_move, hcap', hcas, hpromo]
  rw [castle_false, finish_pm, pawn_pm_no_promo _ _ _ hpromo, move_piece_normal]
  simp only [rights_capture_pm, rights_piece_pm, clear_ep_pm]
  rw [capture_some_pm _ _ _ _ _ hk]
  rw [hep, if_neg (show ¬ (false = true) from by decide)]
  simp only [push_pm, push_cp]
  rw [updPM_other _ _ _ _ (fun hand => (not_ne_self g.current_player) hand.1.symm)]

theorem make_move_cm_capture (g : ChessGame) (m : Move) (k : PieceIndex)
    (hcas : m.castling = false) (hep : m.en_passent = false)
    (hcap : g.piece_at m.target = k) (hk : k ≠ NoPiece) :
    (make_move g m).color_masks =
      updCM (updCM g.color_masks g.current_player.not
          (g.color_masks g.current_player.not ^^^ shl 1 m.target))
        g.current_player
        (g.color_masks g.current_player ^^^ (shl 1 m.start ||| shl 1 m.target)) := by
  have hcap' : (if m.en_passent then Pawn else g.piece_at m.target) = k := by
    simp [hep, hcap]
  simp only [make_move, hcap', hcas]
  rw [castle_false, finish_cm, pawn_cm, move_piece_normal]
  simp only [rights_capture_cm, rights_piece_cm, clear_ep_cm]
  rw [capture_some_cm _ _ _ _ _ hk]
  rw [hep, if_neg (show ¬ (false = true) from by decide)]
  simp only [push_cm, push_cp]
  rw [updCM_other _ _ _ (Ne.symm (not_ne_self _))]

theorem make_move_pm_ep (g : ChessGame) (m : Move) (hcas : m.castling = false)
    (hpromo : m.promotion = NoPiece) (hep : m.en_passent = true) (hpiece : m.piece = Pawn) :
    (make_move g m).piece_masks =
      updPM (updPM g.piece_masks g.current_player.not Pawn
          (g.piece_masks g.current_player.not Pawn ^^^
            shl 1 (if g.current_player = White then offset m.target 0 (-1)
              else offset m.target 0 1)))
        g.current_player Pawn
        (g.piece_masks g.current_player Pawn ^^^ (shl 1 m.start ||| shl 1 m.target)) := by
  have hcap' : (if m.en_passent then Pawn else g.piece_at m.target) = Pawn := by
    simp [hep]
  simp only [make_move, hcap', hcas, hpromo]
  rw [castle_false, finish_pm, pawn_pm_no_promo _ _ _ hpromo, move_piece_normal]
  simp only [rights_capture_pm, rights_piece_pm, clear_ep_pm]
  rw [capture_some_pm _ _ _ _ _ (by decide : (Pawn : PieceIndex) ≠ NoPiece)]
  rw [hep, if_pos (show (true = true) from rfl), hpiece]
  simp only [push_pm, push_cp]
  rw [updPM_other _ _ _ _ (fun hand => (not_ne_self g.current_player) hand.1.symm)]

theorem make_move_cm_ep (g : ChessGame) (m : Move) (hcas : m.castling = false)
    (hep : m.en_passent = true) :
    (make_move g m).color_masks =
      updCM (updCM g.color_masks g.current_player.not
          (g.color_masks g.current_player.not ^^^
            shl 1 (if g.current_player = White then offset m.target 0 (-1)
              else offset m.target 0 1)))
        g.current_player
        (g.color_masks g.current_player ^^^ (shl 1 m.start ||| shl 1 m.target)) := by
  have hcap' : (if m.en_passent then Pawn else g.piece_at m.target) = Pawn := by
    simp [hep]
  simp only [make_move, hcap', hcas]
  rw [castle_false, finish_cm, pawn_cm, move_piece_normal]
  simp only [rights_capture_cm, rights_piece_cm, clear_ep_cm]
  rw [capture_some_cm _ _ _ _ _ (by decide : (Pawn : PieceIndex) ≠ NoPiece)]
  rw [hep, if_pos (show (true = true) from rfl)]
  simp only [push_cm, push_cp]
  rw [updCM_other _ _ _ (Ne.symm (not_ne_self _))]

theorem make_move_pm_castle (g : ChessGame) (m : Move) (hcas : m.castling = true)
    (hep : m.en_passent = false) (hpiece : m.piece = King)
    (hcap : g.piece_at m.target = NoPiece) :
    (make_move g m).piece_masks =
      updPM (updPM g.piece_masks g.current_player King
          (g.piece_masks g.current_player King ^^^ (shl 1 m.target ||| shl 1 m.start)))
        g.current_player Rook
        (g.piece_masks g.current_player Rook ^^^
          (shl 1 (if (m.target : Int) - (m.start : Int) = 2 then offset m.target (-1) 0
              else offset m.target 1 0) |||
            shl 1 (if (m.target : Int) - (m.start : Int) = 2 then offset m.target 1 0
              else offset m.target (-2) 0))) := by
  have hcap' : (if m.en_passent then Pawn else g.piece_at m.target) = NoPiece := by
    rw [hep]
    simpa using hcap
  have hnp : m.piece ≠ Pawn := by
    rw [hpiece]
    decide
  simp only [make_move, hcap', hcas, castle_false, capture_none, finish_pm,
    rights_capture_pm, rights_piece_pm, clear_ep_pm, push_pm, push_cp, push_cm,
    move_piece_castling, pawn_not_pawn _ _ _ hnp, castle_true_pm]

theorem make_move_cm_castle (g : ChessGame) (m : Move) (hcas : m.castling = true)
    (hep : m.en_passent = false) (hpiece : m.piece = King)
    (hcap : g.piece_at m.target = NoPiece) :
    (make_move g m).color_masks =
      updCM g.color_masks g.current_player
        (g.color_masks g.current_player ^^^
          (shl 1 m.start ||| shl 1 m.target |||
            shl 1 (if (m.target : Int) - (m.start : Int) = 2 then offset m.target 1 0
              else offset m.target (-2) 0) |||
            shl 1 (if (m.target : Int) - (m.start : Int) = 2 then offset m.target (-1) 0
              else offset m.target 1 0))) := by
  have hcap' : (if m.en_passent then Pawn else g.piece_at m.target) = NoPiece := by
    rw [hep]
    simpa using hcap
  have hnp : m.piece ≠ Pawn := by
    rw [hpiece]
    decide
  simp only [make_move, hcap', hcas, castle_false, capture_none, finish_cm,
    rights_capture_cm, rights_piece_cm, clear_ep_cm, push_cm, push_cp, push_pm,
    move_piece_castling, pawn_not_pawn _ _ _ hnp, castle_true_cm]

theorem make_move_pm_promo_quiet (g : ChessGame) (m : Move) (hcas : m.castling = false)
    (hpromo : m.promotion ≠ NoPiece) (hpp : m.promotion ≠ Pawn) (hpiece : m.piece = Pawn)
    (hep : m.en_passent = false)
    (hcap : g.piece_at m.target = NoPiece) :
    (make_move g m).piece_masks =
      updPM (updPM g.piece_masks g.current_player Pawn
          (g.piece_masks g.current_player Pawn ^^^ (shl 1 m.start ||| shl 1 m.target) ^^^
            shl 1 m.target))
        g.current_player m.promotion
        (g.piece_masks g.current_player m.promotion ||| shl 1 m.target) := by
  have hcap' : (if m.en_passent then Pawn else g.piece_at m.target) = NoPiece := by
    simp [hep, hcap]
  simp only [make_move, hcap', hcas]
  rw [castle_false, capture_none, finish_pm, pawn_pm_promo _ _ _ hpiece hpromo hpp,
    move_piece_normal]
  simp only [rights_capture_pm, rights_piece_pm, clear_ep_pm, push_pm, push_cp]
  rw [hpiece, updPM_same, updPM_overwrite,
    updPM_other _ _ _ _ (fun hand => hpp hand.2)]

theorem make_move_pm_promo_capture (g : ChessGame) (m : Move) (k : PieceIndex)
    (hcas : m.castling = false) (hpromo : m.promotion ≠ NoPiece) (hpp : m.promotion ≠ Pawn)
    (hpiece : m.piece = Pawn) (hep : m.en_passent = false)
    (hcap : g.piece_at m.target = k) (hk : k ≠ NoPiece) :
    (make_move g m).piece_masks =
      updPM (updPM (updPM g.piece_masks g.current_player.not k
            (g.piece_masks g.current_player.not k ^^^ shl 1 m.target))
          g.current_player Pawn
          (g.piece_masks g.current_player Pawn ^^^ (shl 1 m.start ||| shl 1 m.target) ^^^
            shl 1 m.target))
        g.current_player m.promotion
        (g.piece_masks g.current_player m.promotion ||| shl 1 m.target) := by
  have hcap' : (if m.en_passent then Pawn else g.piece_at m.target) = k := by
    simp [hep, hcap]
  simp only [make_move, hcap', hcas]
  rw [castle_false, finish_pm, pawn_pm_promo _ _ _ hpiece hpromo hpp, move_piece_normal]
  simp only [rights_capture_pm, rights_piece_pm, clear_ep_pm]
  rw [capture_some_pm _ _ _ _ _ hk]
  rw [hep, if_neg (show ¬ (false = true) from by decide)]
  simp only [push_pm, push_cp]
  rw [hpiece, updPM_same, updPM_overwrite]
  rw [updPM_other _ _ _ _ (fun hand => (not_ne_self g.current_player) hand.1.symm)]
  rw [updPM_other _ _ _ _ (fun hand => hpp hand.2)]
  rw [updPM_other _ _ _ _ (fun hand => (not_ne_self g.current_player) hand.1.symm)]

end ChessGame

/-! Bit and union helpers for the restoration proof. -/

theorem testBit_xor_pair_t {x s t : Nat} (ht : t < 64) :
    (x ^^^ (shl 1 s ||| shl 1 t)).testBit t = !(x.testBit t) := by
  simp [Nat.testBit_xor, Nat.testBit_or, testBit_shl_one, ht]

theorem testBit_xor_pair_s {x s t : Nat} (hs : s < 64) :
    (x ^^^ (shl 1 s ||| shl 1 t)).testBit s = !(x.testBit s) := by
  simp [Nat.testBit_xor, Nat.testBit_or, testBit_shl_one, hs]

theorem testBit_xor_pair_other {x s t i : Nat} (his : i ≠ s) (hit : i ≠ t) :
    (x ^^^ (shl 1 s ||| shl 1 t)).testBit i = x.testBit i := by
  simp [Nat.testBit_xor, Nat.testBit_or, testBit_shl_one, his, hit]

theorem testBit_xor_one_self {x t : Nat} (ht : t < 64) :
    (x ^^^ shl 1 t).testBit t = !(x.testBit t) := by
  simp [Nat.testBit_xor, testBit_shl_one, ht]

theorem testBit_xor_one_other {x u i : Nat} (hi : i ≠ u) :
    (x ^^^ shl 1 u).testBit i = x.testBit i := by
  simp [Nat.testBit_xor, testBit_shl_one, hi]

theorem updPM_self (pm : PieceMasks) (c : ColorIndex) (p : PieceIndex) :
    updPM pm c p (pm c p) = pm := by
  funext c' p'
  by_cases h : c' = c ∧ p' = p
  · obtain ⟨rfl, rfl⟩ := h
    simp [updPM]
  · simp [updPM, h]

theorem updCM_self (cm : ColorMasks) (c : ColorIndex) : updCM cm c (cm c) = cm := by
  funext c'
  by_cases h : c' = c
  · subst h
    simp [updCM]
  · simp [updCM, h]

theorem updCM_union (cm : ColorMasks) (c : ColorIndex) (v : Nat) :
    (updCM cm c v) White ||| (updCM cm c v) Black = v ||| cm c.not := by
  cases c
  · simp [updCM, ColorIndex.not]
  · simp only [updCM, ColorIndex.not]
    simp [Nat.lor_comm]

theorem updPM_union_same (pm : PieceMasks) (c : ColorIndex) (p : PieceIndex) (v : Nat) :
    (updPM pm c p v) White p ||| (updPM pm c p v) Black p = v ||| pm c.not p := by
  cases c
  · simp [updPM, ColorIndex.not]
  · simp only [updPM, ColorIndex.not]
    simp [Nat.lor_comm]

theorem updPM_union_other (pm : PieceMasks) (c : ColorIndex) (p : PieceIndex) (v : Nat)
    (k : PieceIndex) (hk : k ≠ p) :
    (updPM pm c p v) White k ||| (updPM pm c p v) Black k = pm White k ||| pm Black k := by
  simp [updPM, hk]

namespace ChessGame

theorem ext' {a b : ChessGame} (h1 : a.color_masks = b.color_masks)
    (h2 : a.combined = b.combined) (h3 : a.piece_masks = b.piece_masks)
    (h4 : a.current_player = b.current_player) (h5 : a.castling_rights = b.castling_rights)
    (h6 : a.en_passent_mask = b.en_passent_mask) (h7 : a.halfmove_clock = b.halfmove_clock)
    (h8 : a.hash = b.hash) (h9 : a.position_history = b.position_history)
    (h10 : a.unmove_history = b.unmove_history) : a = b := by
  cases a
  cases b
  simp_all

/-- piece_at only reads the masks, so changing the player and the history
stacks does not affect it. -/
theorem piece_at_update_cp_uh (h : ChessGame) (cp : ColorIndex) (uh : List UnMove) (t : Nat) :
    ChessGame.piece_at { h with current_player := cp, unmove_history := uh } t =
      h.piece_at t := rfl

/-- unmake_move evaluated on a state whose top unmove record is a plain
move without promotion, castling or capture. -/
theorem unmake_eval_nocap (h : ChessGame) (u : UnMove) (rest : List UnMove)
    (huh : h.unmove_history = u :: rest) (hpr : u.promotion = false)
    (hcs : u.castling = false) (hcp : u.capture = NoPiece) :
    h.unmake_move = { h with
      color_masks := updCM h.color_masks h.current_player.not
        (h.color_masks h.current_player.not ^^^ (shl 1 u.start ||| shl 1 u.target))
      combined := (updCM h.color_masks h.current_player.not
          (h.color_masks h.current_player.not ^^^ (shl 1 u.start ||| shl 1 u.target))) White |||
        (updCM h.color_masks h.current_player.not
          (h.color_masks h.current_player.not ^^^ (shl 1 u.start ||| shl 1 u.target))) Black
      piece_masks := updPM h.piece_masks h.current_player.not (h.piece_at u.target)
        (h.piece_masks h.current_player.not (h.piece_at u.target) ^^^
          (shl 1 u.start ||| shl 1 u.target))
      current_player := h.current_player.not
      castling_rights := u.castling_rights
      en_passent_mask := u.en_passent_mask
      halfmove_clock := u.halfmove_clock
      hash := h.position_history.headD 0
      position_history := h.position_history.tail
      unmove_history := rest } := by
  simp only [unmake_move]
  simp only [huh]
  simp only [hpr, hcs, hcp, piece_at_update_cp_uh]
  simp [Bool.false_eq_true, if_neg]

/-- unmake_move on a record carrying a plain capture (no promotion, no
castling). -/
theorem unmake_eval_cap (h : ChessGame) (u : UnMove) (rest : List UnMove)
    (huh : h.unmove_history = u :: rest) (hpr : u.promotion = false)
    (hcs : u.castling = false) (hcp : u.capture ≠ NoPiece) :
    h.unmake_move = { h with
      color_masks := updCM (updCM h.color_masks h.current_player.not
          (h.color_masks h.current_player.not ^^^ (shl 1 u.start ||| shl 1 u.target)))
        h.current_player (h.color_masks h.current_player ^^^
          shl 1 (if u.en_passent then (if h.current_player.not = White then
            offset u.target 0 (-1) else offset u.target 0 1) else u.target))
      combined := (updCM (updCM h.color_masks h.current_player.not
          (h.color_masks h.current_player.not ^^^ (shl 1 u.start ||| shl 1 u.target)))
        h.current_player (h.color_masks h.current_player ^^^
          shl 1 (if u.en_passent then (if h.current_player.not = White then
            offset u.target 0 (-1) else offset u.target 0 1) else u.target))) White |||
        (updCM (updCM h.color_masks h.current_player.not
          (h.color_masks h.current_player.not ^^^ (shl 1 u.start ||| shl 1 u.target)))
        h.current_player (h.color_masks h.current_player ^^^
          shl 1 (if u.en_passent then (if h.current_player.not = White then
            offset u.target 0 (-1) else offset u.target 0 1) else u.target))) Black
      piece_masks := updPM (updPM h.piece_masks h.current_player.not (h.piece_at u.target)
          (h.piece_masks h.current_player.not (h.piece_at u.target) ^^^
            (shl 1 u.start ||| shl 1 u.target)))
        h.current_player u.capture (h.piece_masks h.current_player u.capture ^^^
          shl 1 (if u.en_passent then (if h.current_player.not = White then
            offset u.target 0 (-1) else offset u.target 0 1) else u.target))
      current_player := h.current_player.not
      castling_rights := u.castling_rights
      en_passent_mask := u.en_passent_mask
      halfmove_clock := u.halfmove_clock
      hash := h.position_history.headD 0
      position_history := h.position_history.tail
      unmove_history := rest } := by
  simp only [unmake_move]
  simp only [huh]
  simp only [hpr, hcs, piece_at_update_cp_uh]
  rw [if_neg (show ¬ (false = true) from by decide)]
  rw [if_pos hcp]
  cases hcolor : h.current_player <;>
    cases hepc : u.en_passent <;>
      simp [ColorIndex.not, updPM_other, updCM_other, updPM, updCM]

/-- unmake_move on a promotion record without capture. -/
theorem unmake_eval_promo_nocap (h : ChessGame) (u : UnMove) (rest : List UnMove)
    (huh : h.unmove_history = u :: rest) (hpr : u.promotion = true)
    (hcs : u.castling = false) (hcp : u.capture = NoPiece)
    (hpp : h.piece_at u.target ≠ Pawn) :
    h.unmake_move = { h with
      color_masks := updCM h.color_masks h.current_player.not
        (h.color_masks h.current_player.not ^^^ (shl 1 u.start ||| shl 1 u.target))
      combined := (updCM h.color_masks h.current_player.not
          (h.color_masks h.current_player.not ^^^ (shl 1 u.start ||| shl 1 u.target))) White |||
        (updCM h.color_masks h.current_player.not
          (h.color_masks h.current_player.not ^^^ (shl 1 u.start ||| shl 1 u.target))) Black
      piece_masks := updPM (updPM h.piece_masks h.current_player.not (h.piece_at u.target)
          (h.piece_masks h.current_player.not (h.piece_at u.target) ^^^ shl 1 u.target))
        h.current_player.not Pawn
        (h.piece_masks h.current_player.not Pawn ^^^ shl 1 u.target ^^^
          (shl 1 u.start ||| shl 1 u.target))
      current_player := h.current_player.not
      castling_rights := u.castling_rights
      en_passent_mask := u.en_passent_mask
      halfmove_clock := u.halfmove_clock
      hash := h.position_history.headD 0
      position_history := h.position_history.tail
      unmove_history := rest } := by
  simp only [unmake_move]
  simp only [huh]
  simp only [hpr, hcs, hcp, piece_at_update_cp_uh]
  simp [updPM_overwrite, updPM_same, updPM_other _ _ _ _ (fun hand => hpp hand.2.symm)]

/-- unmake_move on a promotion record with a capture (never an en-passant
one). -/
theorem unmake_eval_promo_cap (h : ChessGame) (u : UnMove) (rest : List UnMove)
    (huh : h.unmove_history = u :: rest) (hpr : u.promotion = true)
    (hcs : u.castling = false) (hcp : u.capture ≠ NoPiece) (hepc : u.en_passent = false)
    (hpp : h.piece_at u.target ≠ Pawn) :
    h.unmake_move = { h with
      color_masks := updCM (updCM h.color_masks h.current_player.not
          (h.color_masks h.current_player.not ^^^ (shl 1 u.start ||| shl 1 u.target)))
        h.current_player (h.color_masks h.current_player ^^^ shl 1 u.target)
      combined := (updCM (updCM h.color_masks h.current_player.not
          (h.color_masks h.current_player.not ^^^ (shl 1 u.start ||| shl 1 u.target)))
        h.current_player (h.color_masks h.current_player ^^^ shl 1 u.target)) White |||
        (updCM (updCM h.color_masks h.current_player.not
          (h.color_masks h.current_player.not ^^^ (shl 1 u.start ||| shl 1 u.target)))
        h.current_player (h.color_masks h.current_player ^^^ shl 1 u.target)) Black
      piece_masks := updPM (updPM (updPM h.piece_masks h.current_player.not
            (h.piece_at u.target) (h.piece_masks h.current_player.not (h.piece_at u.target) ^^^
              shl 1 u.target))
          h.current_player.not Pawn
          (h.piece_masks h.current_player.not Pawn ^^^ shl 1 u.target ^^^
            (shl 1 u.start ||| shl 1 u.target)))
        h.current_player u.capture
        (h.piece_masks h.current_player u.capture ^^^ shl 1 u.target)
      current_player := h.current_player.not
      castling_rights := u.castling_rights
      en_passent_mask := u.en_passent_mask
      halfmove_clock := u.halfmove_clock
      hash := h.position_history.headD 0
      position_history := h.position_history.tail
      unmove_history := rest } := by
  simp only [unmake_move]
  simp only [huh]
  simp only [hpr, hcs, hepc, piece_at_update_cp_uh]
  rw [if_pos hcp]
  have hread1 : ∀ x y, updPM x h.current_player.not Pawn y h.current_player u.capture =
      x h.current_player u.capture := by
    intro x y
    exact updPM_other _ _ _ _ (fun hand => (not_ne_self h.current_player) hand.1.symm)
  have hread2 : updPM h.piece_masks h.current_player.not (h.piece_at u.target)
      (h.piece_masks h.current_player.not (h.piece_at u.target) ^^^ shl 1 u.target)
      h.current_player u.capture = h.piece_masks h.current_player u.capture :=
    updPM_other _ _ _ _ (fun hand => (not_ne_self h.current_player) hand.1.symm)
  have hread3 : ∀ y, updCM h.color_masks h.current_player.not y h.current_player =
      h.color_masks h.current_player := by
    intro y
    exact updCM_other _ _ _ (Ne.symm (not_ne_self _))
  simp [ColorIndex.not_not, updPM_overwrite, hread1, hread2, hread3, updPM_same,
    updPM_other _ _ _ _ (fun hand => hpp hand.2.symm)]

/-- unmake_move on a castling record. -/
theorem unmake_eval_castle (h : ChessGame) (u : UnMove) (rest : List UnMove)
    (huh : h.unmove_history = u :: rest) (hpr : u.promotion = false)
    (hcs : u.castling = true) :
    h.unmake_move = { h with
      color_masks := updCM h.color_masks h.current_player.not
        (h.color_masks h.current_player.not ^^^
          (shl 1 u.start ||| shl 1 u.target |||
            shl 1 (if fileOf u.target = 2 then offset u.target (-2) 0
              else offset u.target 1 0) |||
            shl 1 (if fileOf u.target = 2 then offset u.target 1 0
              else offset u.target (-1) 0)))
      combined := (updCM h.color_masks h.current_player.not
        (h.color_masks h.current_player.not ^^^
          (shl 1 u.start ||| shl 1 u.target |||
            shl 1 (if fileOf u.target = 2 then offset u.target (-2) 0
              else offset u.target 1 0) |||
            shl 1 (if fileOf u.target = 2 then offset u.target 1 0
              else offset u.target (-1) 0)))) White |||
        (updCM h.color_masks h.current_player.not
        (h.color_masks h.current_player.not ^^^
          (shl 1 u.start ||| shl 1 u.target |||
            shl 1 (if fileOf u.target = 2 then offset u.target (-2) 0
              else offset u.target 1 0) |||
            shl 1 (if fileOf u.target = 2 then offset u.target 1 0
              else offset u.target (-1) 0)))) Black
      piece_masks := updPM (updPM h.piece_masks h.current_player.not King
          (h.piece_masks h.current_player.not King ^^^ (shl 1 u.start ||| shl 1 u.target)))
        h.current_player.not Rook
        (h.piece_masks h.current_player.not Rook ^^^
          (shl 1 (if fileOf u.target = 2 then offset u.target (-2) 0
              else offset u.target 1 0) |||
            shl 1 (if fileOf u.target = 2 then offset u.target 1 0
              else offset u.target (-1) 0)))
      current_player := h.current_player.not
      castling_rights := u.castling_rights
      en_passent_mask := u.en_passent_mask
      halfmove_clock := u.halfmove_clock
      hash := h.position_history.headD 0
      position_history := h.position_history.tail
      unmove_history := rest } := by
  simp only [unmake_move]
  simp only [huh]
  simp only [hpr, hcs, piece_at_update_cp_uh]
  rw [if_neg (show ¬ (false = true) from by decide)]
  by_cases hf : fileOf u.target = 2 <;>
    simp [hf, updPM_other _ _ _ _
      (fun hand => (by decide : (Rook : PieceIndex) ≠ King) hand.2)]

/-! Restoration of the position by unmake_move, case by case. -/

theorem unmake_make_quiet (g : ChessGame) (m : Move) (hwf : WF g)
    (hcas : m.castling = false) (hpromo : m.promotion = NoPiece) (hep : m.en_passent = false)
    (hcap : g.piece_at m.target = NoPiece) (ht : m.target < 64)
    (hownT : (g.color_masks g.current_player).testBit m.target = false)
    (hpieceNN : m.piece ≠ NoPiece) :
    (make_move g m).unmake_move = g := by
  have hcapif : (if m.en_passent then Pawn else g.piece_at m.target) = NoPiece := by
    simp [hep, hcap]
  have hpm := make_move_pm_quiet g m hcas hpromo hcapif
  have hcm := make_move_cm_quiet g m hcas hcapif
  have hcombbit : (make_move g m).combined.testBit m.target = true := by
    rw [make_move_comb, hcm, updCM_union, Nat.testBit_or, testBit_xor_pair_t ht, hownT]
    simp
  have hcombt_false : g.combined.testBit m.target = false := combined_false_of_piece_at ht hcap
  have hpat : (make_move g m).piece_at m.target = m.piece := by
    apply piece_at_of_bits ht hpieceNN hcombbit
    · rw [hpm, updPM_union_same, Nat.testBit_or, testBit_xor_pair_t ht,
        hwf.cm_false_pm hpieceNN hownT]
      simp
    · intro k' hk1 hk2
      rw [hpm, updPM_union_other _ _ _ _ _ hk1, Nat.testBit_or]
      have hW : (g.piece_masks White k').testBit m.target = false :=
        hwf.cm_false_pm hk2 (hwf.combined_false_cm hcombt_false)
      have hB : (g.piece_masks Black k').testBit m.target = false :=
        hwf.cm_false_pm hk2 (hwf.combined_false_cm hcombt_false)
      simp [hW, hB]
  rw [unmake_eval_nocap (make_move g m) _ _ (make_move_uh g m)
    (by simp [UnMove.new, hpromo]) (by simp [UnMove.new, hcas]) (by simp [UnMove.new, hcapif])]
  simp only [UnMove.new]
  apply ChessGame.ext'
  · rw [make_move_cp, ColorIndex.not_not, hcm, updCM_same, xor_cancel_r, updCM_revert]
  · rw [make_move_cp, ColorIndex.not_not, hcm, updCM_same, xor_cancel_r, updCM_revert,
      hwf.combined_eq]
  · rw [make_move_cp, ColorIndex.not_not, hpat, hpm, updPM_same, xor_cancel_r, updPM_revert]
  · rw [make_move_cp, ColorIndex.not_not]
  · rfl
  · rfl
  · rfl
  · rw [make_move_ph]
    rfl
  · rw [make_move_ph]
    rfl
  · rfl

end ChessGame

/-! Multi-slot update/restore algebra. -/

theorem color_cases (a b : ColorIndex) : a = b ∨ a = b.not := by
  cases a <;> cases b <;> simp [ColorIndex.not]

theorem updCM_revert2 (cm : ColorMasks) (a b : ColorIndex) (v1 v2 : Nat) (hab : a ≠ b) :
    updCM (updCM (updCM (updCM cm a v1) b v2) b (cm b)) a (cm a) = cm := by
  funext c
  by_cases h1 : c = a
  · subst h1
    simp [updCM]
  · by_cases h2 : c = b
    · subst h2
      simp [updCM, h1]
    · simp [updCM, h1, h2]

theorem updPM_revert2 (pm : PieceMasks) (a : ColorIndex) (p : PieceIndex) (v1 : Nat)
    (b : ColorIndex) (q : PieceIndex) (v2 : Nat) (h : ¬ (b = a ∧ q = p)) :
    updPM (updPM (updPM (updPM pm a p v1) b q v2) b q (pm b q)) a p (pm a p) = pm := by
  funext c k
  by_cases h1 : c = a ∧ k = p
  · obtain ⟨rfl, rfl⟩ := h1
    simp [updPM, h]
  · by_cases h2 : c = b ∧ k = q
    · obtain ⟨rfl, rfl⟩ := h2
      simp [updPM, h1]
    · simp [updPM, h1, h2]

theorem updPM_revert2' (pm : PieceMasks) (a : ColorIndex) (p : PieceIndex) (v1 : Nat)
    (b : ColorIndex) (q : PieceIndex) (v2 : Nat) (h : ¬ (b = a ∧ q = p)) :
    updPM (updPM (updPM (updPM pm a p v1) b q v2) a p (pm a p)) b q (pm b q) = pm := by
  funext c k
  by_cases h2 : c = b ∧ k = q
  · obtain ⟨rfl, rfl⟩ := h2
    simp [updPM]
  · by_cases h1 : c = a ∧ k = p
    · obtain ⟨rfl, rfl⟩ := h1
      simp [updPM, h2]
    · simp [updPM, h1, h2]

theorem updPM_revert3 (pm : PieceMasks) (a : ColorIndex) (p : PieceIndex) (v1 : Nat)
    (b : ColorIndex) (q : PieceIndex) (v2 : Nat) (c : ColorIndex) (r : PieceIndex) (v3 : Nat)
    (hba : ¬ (b = a ∧ q = p)) (hca : ¬ (c = a ∧ r = p)) (hcb : ¬ (c = b ∧ r = q)) :
    updPM (updPM (updPM (updPM (updPM (updPM pm a p v1) b q v2) c r v3) c r (pm c r))
      b q (pm b q)) a p (pm a p) = pm := by
  funext c' k
  by_cases h1 : c' = a ∧ k = p
  · obtain ⟨rfl, rfl⟩ := h1
    simp [updPM, hba, hca]
  · by_cases h2 : c' = b ∧ k = q
    · obtain ⟨rfl, rfl⟩ := h2
      simp [updPM, h1, hcb]
    · by_cases h3 : c' = c ∧ k = r
      · obtain ⟨rfl, rfl⟩ := h3
        simp [updPM, h1, h2]
      · simp [updPM, h1, h2, h3]

theorem testBit_xor_pair_xor_t {x s t : Nat} (ht : t < 64) :
    (x ^^^ (shl 1 s ||| shl 1 t) ^^^ shl 1 t).testBit t = x.testBit t := by
  rw [testBit_xor_one_self ht, testBit_xor_pair_t ht, Bool.not_not]

namespace ChessGame

theorem unmake_make_capture (g : ChessGame) (m : Move) (k : PieceIndex) (hwf : WF g)
    (hcas : m.castling = false) (hpromo : m.promotion = NoPiece) (hep : m.en_passent = false)
    (hcap : g.piece_at m.target = k) (hk : k ≠ NoPiece) (ht : m.target < 64)
    (hownT : (g.color_masks g.current_player).testBit m.target = false)
    (hpieceNN : m.piece ≠ NoPiece) :
    (make_move g m).unmake_move = g := by
  have hcapif : (if m.en_passent then Pawn else g.piece_at m.target) = k := by
    simp [hep, hcap]
  have hpm := make_move_pm_capture g m k hcas hpromo hep hcap hk
  have hcm := make_move_cm_capture g m k hcas hep hcap hk
  have henemy : (g.piece_masks g.current_player.not k).testBit m.target = true :=
    enemy_pm_of_piece_at hwf ht hk hcap hownT
  have hcombbit : (make_move g m).combined.testBit m.target = true := by
    rw [make_move_comb, hcm, updCM_union, Nat.testBit_or, testBit_xor_pair_t ht, hownT]
    simp
  have hpat : (make_move g m).piece_at m.target = m.piece := by
    apply piece_at_of_bits ht hpieceNN hcombbit
    · rw [hpm, updPM_union_same, Nat.testBit_or, testBit_xor_pair_t ht,
        hwf.cm_false_pm hpieceNN hownT]
      simp
    · intro k' hk1 hk2
      rw [hpm, updPM_union_other _ _ _ _ _ hk1]
      by_cases hkk : k' = k
      · subst hkk
        rw [updPM_union_same, Nat.testBit_or, testBit_xor_one_self ht, henemy,
          ColorIndex.not_not, hwf.cm_false_pm hk2 hownT]
        simp
      · rw [updPM_union_other _ _ _ _ _ hkk, Nat.testBit_or]
        have hany : ∀ c', (g.piece_masks c' k').testBit m.target = false := by
          intro c'
          rcases color_cases c' g.current_player with h1 | h1
          · subst h1
            exact hwf.cm_false_pm hk2 hownT
          · subst h1
            exact testBit_of_disjoint
              (hwf.disjoint (fun hpair => hkk (congrArg Prod.snd hpair).symm)) henemy
        simp [hany]
  rw [unmake_eval_cap (make_move g m) _ _ (make_move_uh g m)
    (by simp [UnMove.new, hpromo]) (by simp [UnMove.new, hcas])
    (by simp [UnMove.new, hcapif, hk])]
  simp only [UnMove.new]
  simp only [hcapif]
  simp only [hep]
  rw [if_neg (show ¬ (false = true) from by decide)]
  apply ChessGame.ext'
  · rw [make_move_cp, ColorIndex.not_not, hcm]
    rw [updCM_same, xor_cancel_r]
    rw [updCM_other _ _ _ (not_ne_self _), updCM_same, xor_cancel_r]
    exact updCM_revert2 _ _ _ _ _ (not_ne_self _)
  · rw [make_move_cp, ColorIndex.not_not, hcm]
    rw [updCM_same, xor_cancel_r]
    rw [updCM_other _ _ _ (not_ne_self _), updCM_same, xor_cancel_r]
    rw [updCM_revert2 _ _ _ _ _ (not_ne_self _), hwf.combined_eq]
  · rw [make_move_cp, ColorIndex.not_not, hpat, hpm]
    rw [updPM_same, xor_cancel_r]
    rw [updPM_other _ _ _ _ (fun hand => (not_ne_self g.current_player) hand.1),
      updPM_same, xor_cancel_r]
    exact updPM_revert2 _ _ _ _ _ _ _ (fun hand => (not_ne_self g.current_player) hand.1.symm)
  · rw [make_move_cp, ColorIndex.not_not]
  · rfl
  · rfl
  · rfl
  · rw [make_move_ph]
    rfl
  · rw [make_move_ph]
    rfl
  · rfl

theorem unmake_make_ep (g : ChessGame) (m : Move) (hwf : WF g)
    (hcas : m.castling = false) (hpromo : m.promotion = NoPiece) (hep : m.en_passent = true)
    (hpiece : m.piece = Pawn)
    (hepbit : g.en_passent_mask.testBit m.target = true) :
    (make_move g m).unmake_move = g := by
  have htr := hwf.ep_target_range hepbit
  have ht : m.target < 64 := by omega
  have hcombt_false : g.combined.testBit m.target = false :=
    hwf.ep_bit_combined_false hepbit
  have hown : (g.color_masks g.current_player).testBit m.target = false :=
    hwf.combined_false_cm hcombt_false
  have hcapif : (if m.en_passent then Pawn else g.piece_at m.target) = Pawn := by
    simp [hep]
  have hpm := make_move_pm_ep g m hcas hpromo hep hpiece
  have hcm := make_move_cm_ep g m hcas hep
  have hcombbit : (make_move g m).combined.testBit m.target = true := by
    rw [make_move_comb, hcm, updCM_union, Nat.testBit_or, testBit_xor_pair_t ht, hown]
    simp
  have hpat : (make_move g m).piece_at m.target = Pawn := by
    apply piece_at_of_bits ht (by decide) hcombbit
    · rw [hpm, updPM_union_same, Nat.testBit_or, testBit_xor_pair_t ht,
        hwf.cm_false_pm (by decide) hown]
      simp
    · intro k' hk1 hk2
      rw [hpm, updPM_union_other _ _ _ _ _ hk1, updPM_union_other _ _ _ _ _ hk1,
        Nat.testBit_or]
      have hany : ∀ c', (g.piece_masks c' k').testBit m.target = false := fun c' =>
        hwf.cm_false_pm hk2 (hwf.combined_false_cm hcombt_false)
      simp [hany]
  rw [unmake_eval_cap (make_move g m) _ _ (make_move_uh g m)
    (by simp [UnMove.new, hpromo]) (by simp [UnMove.new, hcas])
    (by simp [UnMove.new, hcapif])]
  simp only [UnMove.new]
  simp only [hcapif]
  simp only [hep, if_true]
  apply ChessGame.ext'
  · rw [make_move_cp, ColorIndex.not_not, hcm]
    rw [updCM_same, xor_cancel_r]
    rw [updCM_other _ _ _ (not_ne_self _), updCM_same, xor_cancel_r]
    exact updCM_revert2 _ _ _ _ _ (not_ne_self _)
  · rw [make_move_cp, ColorIndex.not_not, hcm]
    rw [updCM_same, xor_cancel_r]
    rw [updCM_other _ _ _ (not_ne_self _), updCM_same, xor_cancel_r]
    rw [updCM_revert2 _ _ _ _ _ (not_ne_self _), hwf.combined_eq]
  · rw [make_move_cp, ColorIndex.not_not, hpat, hpm]
    rw [updPM_same, xor_cancel_r]
    rw [updPM_other _ _ _ _ (fun hand => (not_ne_self g.current_player) hand.1),
      updPM_same, xor_cancel_r]
    exact updPM_revert2 _ _ _ _ _ _ _ (fun hand => (not_ne_self g.current_player) hand.1.symm)
  · rw [make_move_cp, ColorIndex.not_not]
  · rfl
  · rfl
  · rfl
  · rw [make_move_ph]
    rfl
  · rw [make_move_ph]
    rfl
  · rfl

theorem unmake_make_promo_quiet (g : ChessGame) (m : Move) (hwf : WF g)
    (hcas : m.castling = false) (hpromo : m.promotion ≠ NoPiece) (hpp : m.promotion ≠ Pawn)
    (hpiece : m.piece = Pawn) (hep : m.en_passent = false)
    (hcap : g.piece_at m.target = NoPiece) (ht : m.target < 64)
    (hownT : (g.color_masks g.current_player).testBit m.target = false) :
    (make_move g m).unmake_move = g := by
  have hcapif : (if m.en_passent then Pawn else g.piece_at m.target) = NoPiece := by
    simp [hep, hcap]
  have hcombt_false : g.combined.testBit m.target = false := combined_false_of_piece_at ht hcap
  have hpm := make_move_pm_promo_quiet g m hcas hpromo hpp hpiece hep hcap
  have hcm := make_move_cm_quiet g m hcas hcapif
  have hdisj : g.piece_masks g.current_player m.promotion &&& shl 1 m.target = 0 :=
    (and_shl_one_eq_zero ht).mpr (hwf.cm_false_pm hpromo hownT)
  have hcombbit : (make_move g m).combined.testBit m.target = true := by
    rw [make_move_comb, hcm, updCM_union, Nat.testBit_or, testBit_xor_pair_t ht, hownT]
    simp
  have hpat : (make_move g m).piece_at m.target = m.promotion := by
    apply piece_at_of_bits ht hpromo hcombbit
    · rw [hpm, updPM_union_same, Nat.testBit_or, Nat.testBit_or, testBit_shl_one]
      simp [ht]
    · intro k' hk1 hk2
      rw [hpm, updPM_union_other _ _ _ _ _ hk1]
      by_cases hkp : k' = Pawn
      · subst hkp
        rw [updPM_union_same, Nat.testBit_or, testBit_xor_pair_xor_t ht,
          hwf.cm_false_pm (by decide) hownT]
        have henot : (g.piece_masks g.current_player.not Pawn).testBit m.target = false :=
          hwf.cm_false_pm (by decide) (hwf.combined_false_cm hcombt_false)
        simp [henot]
      · rw [updPM_union_other _ _ _ _ _ hkp, Nat.testBit_or]
        have hany : ∀ c', (g.piece_masks c' k').testBit m.target = false := fun c' =>
          hwf.cm_false_pm hk2 (hwf.combined_false_cm hcombt_false)
        simp [hany]
  rw [unmake_eval_promo_nocap (make_move g m) _ _ (make_move_uh g m)
    (by simp [UnMove.new, hpromo]) (by simp [UnMove.new, hcas])
    (by simp [UnMove.new, hcapif])
    (by simp only [UnMove.new]
        rw [hpat]
        exact hpp)]
  simp only [UnMove.new]
  apply ChessGame.ext'
  · rw [make_move_cp, ColorIndex.not_not, hcm, updCM_same, xor_cancel_r, updCM_revert]
  · rw [make_move_cp, ColorIndex.not_not, hcm, updCM_same, xor_cancel_r, updCM_revert,
      hwf.combined_eq]
  · rw [make_move_cp, ColorIndex.not_not, hpat, hpm]
    rw [updPM_same, lor_xor_cancel hdisj]
    rw [updPM_other _ _ _ _ (fun hand => hpp hand.2.symm), updPM_same,
      xor_cancel_r, xor_cancel_r]
    exact updPM_revert2 _ _ _ _ _ _ _ (fun hand => hpp hand.2)
  · rw [make_move_cp, ColorIndex.not_not]
  · rfl
  · rfl
  · rfl
  · rw [make_move_ph]
    rfl
  · rw [make_move_ph]
    rfl
  · rfl

theorem unmake_make_promo_capture (g : ChessGame) (m : Move) (k : PieceIndex) (hwf : WF g)
    (hcas : m.castling = false) (hpromo : m.promotion ≠ NoPiece) (hpp : m.promotion ≠ Pawn)
    (hpiece : m.piece = Pawn) (hep : m.en_passent = false)
    (hcap : g.piece_at m.target = k) (hk : k ≠ NoPiece) (ht : m.target < 64)
    (hownT : (g.color_masks g.current_player).testBit m.target = false) :
    (make_move g m).unmake_move = g := by
  have hcapif : (if m.en_passent then Pawn else g.piece_at m.target) = k := by
    simp [hep, hcap]
  have henemy : (g.piece_masks g.current_player.not k).testBit m.target = true :=
    enemy_pm_of_piece_at hwf ht hk hcap hownT
  have hpm := make_move_pm_promo_capture g m k hcas hpromo hpp hpiece hep hcap hk
  have hcm := make_move_cm_capture g m k hcas hep hcap hk
  have hdisj : g.piece_masks g.current_player m.promotion &&& shl 1 m.target = 0 :=
    (and_shl_one_eq_zero ht).mpr (hwf.cm_false_pm hpromo hownT)
  have hcombbit : (make_move g m).combined.testBit m.target = true := by
    rw [make_move_comb, hcm, updCM_union, Nat.testBit_or, testBit_xor_pair_t ht, hownT]
    simp
  have hpat : (make_move g m).piece_at m.target = m.promotion := by
    apply piece_at_of_bits ht hpromo hcombbit
    · rw [hpm, updPM_union_same, Nat.testBit_or, Nat.testBit_or, testBit_shl_one]
      simp [ht]
    · intro k' hk1 hk2
      rw [hpm, updPM_union_other _ _ _ _ _ hk1]
      by_cases hkp : k' = Pawn
      · subst hkp
        rw [updPM_union_same, Nat.testBit_or, testBit_xor_pair_xor_t ht,
          hwf.cm_false_pm (by decide) hownT]
        by_cases hkpw : k = Pawn
        · subst hkpw
          rw [updPM_same, testBit_xor_one_self ht, henemy]
          simp
        · rw [updPM_other _ _ _ _ (fun hand => hkpw hand.2.symm)]
          have henot : (g.piece_masks g.current_player.not Pawn).testBit m.target = false :=
            testBit_of_disjoint
              (hwf.disjoint (fun hpair => hkpw (congrArg Prod.snd hpair))) henemy
          simp [henot]
      · rw [updPM_union_other _ _ _ _ _ hkp]
        by_cases hkk : k' = k
        · subst hkk
          rw [updPM_union_same, Nat.testBit_or, testBit_xor_one_self ht, henemy,
            ColorIndex.not_not, hwf.cm_false_pm hk2 hownT]
          simp
        · rw [updPM_union_other _ _ _ _ _ hkk, Nat.testBit_or]
          have hany : ∀ c', (g.piece_masks c' k').testBit m.target = false := by
            intro c'
            rcases color_cases c' g.current_player with h1 | h1
            · subst h1
              exact hwf.cm_false_pm hk2 hownT
            · subst h1
              exact testBit_of_disjoint
                (hwf.disjoint (fun hpair => hkk (congrArg Prod.snd hpair).symm)) henemy
          simp [hany]
  rw [unmake_eval_promo_cap (make_move g m) _ _ (make_move_uh g m)
    (by simp [UnMove.new, hpromo]) (by simp [UnMove.new, hcas])
    (by simp [UnMove.new, hcapif, hk]) (by simp [UnMove.new, hep])
    (by simp only [UnMove.new]
        rw [hpat]
        exact hpp)]
  simp only [UnMove.new]
  simp only [hcapif]
  apply ChessGame.ext'
  · rw [make_move_cp, ColorIndex.not_not, hcm]
    rw [updCM_same, xor_cancel_r]
    rw [updCM_other _ _ _ (not_ne_self _), updCM_same, xor_cancel_r]
    exact updCM_revert2 _ _ _ _ _ (not_ne_self _)
  · rw [make_move_cp, ColorIndex.not_not, hcm]
    rw [updCM_same, xor_cancel_r]
    rw [updCM_other _ _ _ (not_ne_self _), updCM_same, xor_cancel_r]
    rw [updCM_revert2 _ _ _ _ _ (not_ne_self _), hwf.combined_eq]
  · rw [make_move_cp, ColorIndex.not_not, hpat, hpm]
    rw [updPM_same, lor_xor_cancel hdisj]
    rw [updPM_other _ _ _ _ (fun hand => hpp hand.2.symm), updPM_same,
      xor_cancel_r, xor_cancel_r]
    rw [updPM_other _ _ _ _ (fun hand => (not_ne_self g.current_player) hand.1),
      updPM_other _ _ _ _ (fun hand => (not_ne_self g.current_player) hand.1),
      updPM_same, xor_cancel_r]
    exact updPM_revert3 _ _ _ _ _ _ _ _ _ _
      (fun hand => (not_ne_self g.current_player) hand.1.symm)
      (fun hand => (not_ne_self g.current_player) hand.1.symm)
      (fun hand => hpp hand.2)
  · rw [make_move_cp, ColorIndex.not_not]
  · rfl
  · rfl
  · rfl
  · rw [make_move_ph]
    rfl
  · rw [make_move_ph]
    rfl
  · rfl

theorem unmake_make_castle (g : ChessGame) (m : Move) (hwf : WF g)
    (hcas : m.castling = true) (hpiece : m.piece = King) (hpromo : m.promotion = NoPiece)
    (hepF : m.en_passent = false)
    (hstart : m.start = 4 + 56 * g.current_player.toNat)
    (htarg : m.target = m.start + 2 ∨ m.target + 2 = m.start)
    (hcombT : g.combined.testBit m.target = false) :
    (make_move g m).unmake_move = g := by
  have htoNat : g.current_player.toNat ≤ 1 := by
    cases g.current_player <;> simp [ColorIndex.toNat]
  have ht : m.target < 64 := by omega
  have hcap : g.piece_at m.target = NoPiece := piece_at_of_empty hcombT ht
  have hpm := make_move_pm_castle g m hcas hepF hpiece hcap
  have hcm := make_move_cm_castle g m hcas hepF hpiece hcap
  rcases htarg with h2 | h2
  · have hdx : ((m.target : Int) - (m.start : Int)) = 2 := by
      rw [h2]
      push_cast
      ring
    have hfile : fileOf m.target = 6 := by
      rw [h2, hstart]
      cases g.current_player <;> rfl
    simp only [eq_true hdx, if_true] at hpm hcm
    rw [unmake_eval_castle (make_move g m) _ _ (make_move_uh g m)
      (by simp [UnMove.new, hpromo]) (by simp [UnMove.new, hcas])]
    simp only [UnMove.new]
    simp only [hfile, if_neg (show ¬ ((6 : Nat) = 2) from by norm_num)]
    apply ChessGame.ext'
    · rw [make_move_cp, ColorIndex.not_not, hcm, updCM_same, xor_cancel_r, updCM_revert]
    · rw [make_move_cp, ColorIndex.not_not, hcm, updCM_same, xor_cancel_r, updCM_revert,
        hwf.combined_eq]
    · rw [make_move_cp, ColorIndex.not_not, hpm]
      rw [updPM_other _ _ _ _ (fun hand => (by decide : (King : PieceIndex) ≠ Rook) hand.2)]
      rw [updPM_same, updPM_same]
      rw [Nat.lor_comm (shl 1 m.target) (shl 1 m.start),
        Nat.lor_comm (shl 1 (offset m.target (-1) 0)) (shl 1 (offset m.target 1 0)),
        xor_cancel_r, xor_cancel_r]
      exact updPM_revert2' _ _ _ _ _ _ _
        (fun hand => (by decide : (Rook : PieceIndex) ≠ King) hand.2)
    · rw [make_move_cp, ColorIndex.not_not]
    · rfl
    · rfl
    · rfl
    · rw [make_move_ph]
      rfl
    · rw [make_move_ph]
      rfl
    · rfl
  · have hdx2 : ((m.target : Int) - (m.start : Int)) = -2 := by
      have hstep : m.start = m.target + 2 := by omega
      rw [hstep]
      push_cast
      ring
    have hdx : ¬ (((m.target : Int) - (m.start : Int)) = 2) := by
      rw [hdx2]
      decide
    have hfile : fileOf m.target = 2 := by
      have ht2 : m.target = 2 + 56 * g.current_player.toNat := by omega
      rw [ht2]
      cases g.current_player <;> rfl
    simp only [if_neg hdx] at hpm hcm
    rw [unmake_eval_castle (make_move g m) _ _ (make_move_uh g m)
      (by simp [UnMove.new, hpromo]) (by simp [UnMove.new, hcas])]
    simp only [UnMove.new]
    simp only [hfile, eq_self_iff_true, if_true]
    apply ChessGame.ext'
    · rw [make_move_cp, ColorIndex.not_not, hcm, updCM_same, xor_cancel_r, updCM_revert]
    · rw [make_move_cp, ColorIndex.not_not, hcm, updCM_same, xor_cancel_r, updCM_revert,
        hwf.combined_eq]
    · rw [make_move_cp, ColorIndex.not_not, hpm]
      rw [updPM_other _ _ _ _ (fun hand => (by decide : (King : PieceIndex) ≠ Rook) hand.2)]
      rw [updPM_same, updPM_same]
      rw [Nat.lor_comm (shl 1 m.target) (shl 1 m.start),
        Nat.lor_comm (shl 1 (offset m.target 1 0)) (shl 1 (offset m.target (-2) 0)),
        xor_cancel_r, xor_cancel_r]
      exact updPM_revert2' _ _ _ _ _ _ _
        (fun hand => (by decide : (Rook : PieceIndex) ≠ King) hand.2)
    · rw [make_move_cp, ColorIndex.not_not]
    · rfl
    · rfl
    · rfl
    · rw [make_move_ph]
      rfl
    · rw [make_move_ph]
      rfl
    · rfl

/-- Restoration: for a well-formed position and a move obeying the move
discipline, unmake_move after make_move is the identity. -/
theorem unmake_make_of_MoveOK (g : ChessGame) (m : Move) (hwf : WF g) (hok : MoveOK g m) :
    (make_move g m).unmake_move = g := by
  obtain ⟨hs, ht, hnc, hyp4, hyp5, hyp6⟩ := hok
  cases hcasB : m.castling with
  | true =>
    obtain ⟨hpiece, hpromo, hepF, hstart, htarg, hcombT⟩ := hyp6 hcasB
    exact unmake_make_castle g m hwf hcasB hpiece hpromo hepF hstart htarg hcombT
  | false =>
    obtain ⟨hownT, hownS, hpieceNN⟩ := hnc hcasB
    cases hepB : m.en_passent with
    | true =>
      obtain ⟨-, hpieceP, hpromoN, hepbit⟩ := hyp5 hepB
      exact unmake_make_ep g m hwf hcasB hpromoN hepB hpieceP hepbit
    | false =>
      by_cases hpromoT : m.promotion = NoPiece
      · by_cases hcap : g.piece_at m.target = NoPiece
        · exact unmake_make_quiet g m hwf hcasB hpromoT hepB hcap ht hownT hpieceNN
        · exact unmake_make_capture g m (g.piece_at m.target) hwf hcasB hpromoT hepB rfl
            hcap ht hownT hpieceNN
      · obtain ⟨hpieceP, hppn, -⟩ := hyp4 hpromoT
        by_cases hcap : g.piece_at m.target = NoPiece
        · exact unmake_make_promo_quiet g m hwf hcasB hpromoT hppn hpieceP hepB hcap ht hownT
        · exact unmake_make_promo_capture g m (g.piece_at m.target) hwf hcasB hpromoT hppn
            hpieceP hepB rfl hcap ht hownT

/-! MoveOK constructors for the move shapes emitted by legal_moves. -/

theorem MoveOK.simple (g : ChessGame) {s t : Nat} {p : PieceIndex} {cap dpp : Bool}
    (hs : s < 64) (ht : t < 64) (hp : p ≠ NoPiece)
    (hot : (g.color_masks g.current_player).testBit t = false)
    (hos : (g.color_masks g.current_player).testBit s = true) :
    MoveOK g (Move.new s t p NoPiece cap dpp false false) := by
  refine ⟨hs, ht, fun _ => ⟨hot, hos, hp⟩, ?_, ?_, ?_⟩
  · intro h
    exact absurd rfl h
  · intro h
    simp [Move.new] at h
  · intro h
    simp [Move.new] at h

theorem MoveOK.promo (g : ChessGame) {s t : Nat} {promo : PieceIndex} {cap : Bool}
    (hs : s < 64) (ht : t < 64) (hpp : promo ≠ Pawn)
    (hot : (g.color_masks g.current_player).testBit t = false)
    (hos : (g.color_masks g.current_player).testBit s = true) :
    MoveOK g (Move.new s t Pawn promo cap false false false) := by
  refine ⟨hs, ht, fun _ => ⟨hot, hos, fun h => by simp [Move.new] at h⟩,
    fun _ => ⟨rfl, hpp, rfl⟩, ?_, ?_⟩
  · intro h
    simp [Move.new] at h
  · intro h
    simp [Move.new] at h

theorem MoveOK.pawn_take (g : ChessGame) {s t : Nat} {flag : Bool}
    (hs : s < 64) (ht : t < 64)
    (hot : (g.color_masks g.current_player).testBit t = false)
    (hos : (g.color_masks g.current_player).testBit s = true)
    (hflag : flag = true → g.en_passent_mask.testBit t = true) :
    MoveOK g (Move.new s t Pawn NoPiece true false flag false) := by
  refine ⟨hs, ht, fun _ => ⟨hot, hos, fun h => by simp [Move.new] at h⟩,
    fun h => absurd rfl h, fun h => ⟨rfl, rfl, rfl, hflag h⟩, ?_⟩
  intro h
  simp [Move.new] at h

theorem MoveOK.castle (g : ChessGame) {s t : Nat}
    (hs : s < 64) (ht : t < 64) (hstart : s = 4 + 56 * g.current_player.toNat)
    (htarg : t = s + 2 ∨ t + 2 = s)
    (hcombT : g.combined.testBit t = false) :
    MoveOK g (Move.king_castle s t) := by
  refine ⟨hs, ht, ?_, ?_, ?_, fun _ => ⟨rfl, rfl, rfl, hstart, htarg, hcombT⟩⟩
  · intro h
    simp [Move.king_castle, Move.new] at h
  · intro h
    exact absurd rfl h
  · intro h
    simp [Move.king_castle, Move.new] at h

theorem lookup_pawn_push_white (sq : Nat) (h : sq < 64) :
    lookup_pawn_push sq White = shl 1 (sq + 8) := by
  unfold lookup_pawn_push
  rw [if_pos h]
  exact shl_shl_one sq 8

theorem lookup_pawn_push_black (sq : Nat) (h : sq < 64) (h8 : 8 ≤ sq) :
    lookup_pawn_push sq Black = shl 1 (sq - 8) := by
  unfold lookup_pawn_push
  rw [if_pos h]
  exact shr_shl_one 8 h h8

theorem pinned_pawn_push_free (g : ChessGame) (hwf : WF g) (psq R P t : Nat)
    (ht64 : t < 64)
    (htbit : (if is_not_empty (lookup_pawn_push psq g.current_player &&& R &&& P &&&
          inverse g.combined) ∧
        ((g.current_player = White ∧ rankOf psq = 1 ∧
            is_empty (g.combined &&& shl 1 (offset psq 0 2))) ∨
          (g.current_player = Black ∧ rankOf psq = 6 ∧
            is_empty (g.combined &&& shl 1 (offset psq 0 (-2))))) then
        (lookup_pawn_push psq g.current_player &&& R &&& P &&& inverse g.combined) |||
          lookup_pawn_push (first_square (lookup_pawn_push psq g.current_player &&& R &&& P &&&
            inverse g.combined)) g.current_player
      else lookup_pawn_push psq g.current_player &&& R &&& P &&& inverse g.combined).testBit t =
      true) :
    (g.color_masks g.current_player).testBit t = false := by
  split at htbit
  · rename_i hcond
    obtain ⟨hne2, hdisj⟩ := hcond
    rw [Nat.testBit_or] at htbit
    rcases Bool.or_eq_true_iff.mp htbit with hbase | hext
    · rw [Nat.testBit_and] at hbase
      exact hwf.combined_false_cm
        (testBit_of_inverse (Bool.and_eq_true_iff.mp hbase).2 ht64)
    · simp only [is_not_empty, bne_iff_ne] at hne2
      rcases hdisj with ⟨hcw, hrank, hemp⟩ | ⟨hcb, hrank, hemp⟩
      · have hps16 : psq < 16 := by
          unfold rankOf at hrank
          omega
        rw [hcw] at hne2 hext
        rw [lookup_pawn_push_white psq (by omega)] at hne2 hext
        have hsub : ∀ i, (shl 1 (psq + 8) &&& R &&& P &&& inverse g.combined).testBit i = true →
            i = psq + 8 := by
          intro i hi
          rw [Nat.testBit_and, Nat.testBit_and, Nat.testBit_and, testBit_shl_one] at hi
          exact of_decide_eq_true (Bool.and_eq_true_iff.mp (Bool.and_eq_true_iff.mp
            (Bool.and_eq_true_iff.mp (Bool.and_eq_true_iff.mp hi).1).1).1).1
        have hpmEq := eq_shl_one_of_subset (show psq + 8 < 64 by omega) hsub hne2
        rw [hpmEq, first_square_shl_one (show psq + 8 < 64 by omega)] at hext
        rw [lookup_pawn_push_white (psq + 8) (by omega), testBit_shl_one] at hext
        have hteq : t = psq + 8 + 8 :=
          of_decide_eq_true (Bool.and_eq_true_iff.mp hext).1
        have hoff : offset psq 0 2 = t := by
          unfold offset
          omega
        simp only [is_empty, beq_iff_eq] at hemp
        rw [hoff] at hemp
        exact hwf.combined_false_cm ((and_shl_one_eq_zero ht64).mp hemp)
      · have hps : 48 ≤ psq ∧ psq < 56 := by
          unfold rankOf at hrank
          omega
        rw [hcb] at hne2 hext
        rw [lookup_pawn_push_black psq (by omega) (by omega)] at hne2 hext
        have hsub : ∀ i, (shl 1 (psq - 8) &&& R &&& P &&& inverse g.combined).testBit i = true →
            i = psq - 8 := by
          intro i hi
          rw [Nat.testBit_and, Nat.testBit_and, Nat.testBit_and, testBit_shl_one] at hi
          exact of_decide_eq_true (Bool.and_eq_true_iff.mp (Bool.and_eq_true_iff.mp
            (Bool.and_eq_true_iff.mp (Bool.and_eq_true_iff.mp hi).1).1).1).1
        have hb64 : psq - 8 < 64 := by omega
        have hpmEq := eq_shl_one_of_subset hb64 hsub hne2
        rw [hpmEq, first_square_shl_one hb64] at hext
        rw [lookup_pawn_push_black (psq - 8) (by omega) (by omega), testBit_shl_one] at hext
        have hteq : t = psq - 8 - 8 :=
          of_decide_eq_true (Bool.and_eq_true_iff.mp hext).1
        have hoff : offset psq 0 (-2) = t := by
          unfold offset
          omega
        simp only [is_empty, beq_iff_eq] at hemp
        rw [hoff] at hemp
        exact hwf.combined_false_cm ((and_shl_one_eq_zero ht64).mp hemp)
  · rw [Nat.testBit_and] at htbit
    exact hwf.combined_false_cm
      (testBit_of_inverse (Bool.and_eq_true_iff.mp htbit).2 ht64)

set_option maxHeartbeats 4000000 in
theorem legal_moves_MoveOK (g : ChessGame) (hwf : WF g) :
    ∀ m ∈ g.legal_moves, MoveOK g m := by
  intro m hm
  unfold ChessGame.legal_moves at hm
  by_cases hdc : 1 < count_ones g.checkers
  · rw [if_pos hdc] at hm
    simp only [List.mem_map] at hm
    obtain ⟨t, htmem, rfl⟩ := hm
    obtain ⟨ht64, htbit⟩ := mem_squaresOf.mp htmem
    rw [Nat.testBit_and] at htbit
    have hao : (g.all_attacks g.current_player.not
        ((g.color_masks g.current_player ^^^ g.piece_masks g.current_player King) |||
          g.color_masks g.current_player.not) ||| g.color_masks g.current_player).testBit t =
        false :=
      testBit_of_inverse (Bool.and_eq_true_iff.mp htbit).2 ht64
    have hot : (g.color_masks g.current_player).testBit t = false := by
      rw [Nat.testBit_or] at hao
      exact (Bool.or_eq_false_iff.mp hao).2
    exact MoveOK.simple g (hwf.king_sq_lt g.current_player) ht64 (by decide) hot
      (hwf.own_king_bit g.current_player)
  · rw [if_neg hdc] at hm
    set PMK : Nat := (if count_ones g.checkers = 1 then
        if (g.piece_at (first_square g.checkers)).is_slider = true then
          if rankOf (first_square (g.piece_masks g.current_player King)) =
              rankOf (first_square g.checkers) ∨
            fileOf (first_square (g.piece_masks g.current_player King)) =
              fileOf (first_square g.checkers) then
            lookup_rook (first_square g.checkers)
                (shl 1 (first_square (g.piece_masks g.current_player King))) &&&
              lookup_rook (first_square (g.piece_masks g.current_player King))
                (shl 1 (first_square g.checkers))
          else
            lookup_bishop (first_square g.checkers)
                (shl 1 (first_square (g.piece_masks g.current_player King))) &&&
              lookup_bishop (first_square (g.piece_masks g.current_player King))
                (shl 1 (first_square g.checkers))
        else 0
      else mask64) with hPMK
    set CMK : Nat := (if count_ones g.checkers = 1 then g.checkers else mask64) with hCMK
    simp only [List.mem_append] at hm
    rcases hm with ((((((((hm|hm)|hm)|hm)|hm)|hm)|hm)|hm)|hm)
    ·
      simp only [List.mem_map] at hm
      obtain ⟨t, htmem, rfl⟩ := hm
      obtain ⟨ht64, htbit⟩ := mem_squaresOf.mp htmem
      rw [Nat.testBit_and] at htbit
      have hao : (g.all_attacks g.current_player.not
          ((g.color_masks g.current_player ^^^ g.piece_masks g.current_player King) |||
            g.color_masks g.current_player.not) ||| g.color_masks g.current_player).testBit t =
          false :=
        testBit_of_inverse (Bool.and_eq_true_iff.mp htbit).2 ht64
      have hot : (g.color_masks g.current_player).testBit t = false := by
        rw [Nat.testBit_or] at hao
        exact (Bool.or_eq_false_iff.mp hao).2
      exact MoveOK.simple g (hwf.king_sq_lt g.current_player) ht64 (by decide) hot
        (hwf.own_king_bit g.current_player)
    ·
      simp only [List.mem_flatMap] at hm
      obtain ⟨pinner, hpmem, hm⟩ := hm
      obtain ⟨hp64, hpbit⟩ := mem_squaresOf.mp hpmem
      rw [Nat.testBit_and] at hpbit
      have hpin_enemy : (g.color_masks g.current_player.not).testBit pinner = true := by
        have hu := (Bool.and_eq_true_iff.mp hpbit).1
        rw [Nat.testBit_or] at hu
        rcases Bool.or_eq_true_iff.mp hu with hR | hQ
        · exact hwf.pm_bit_cm (by decide) hR
        · exact hwf.pm_bit_cm (by decide) hQ
      have hown_pinner : (g.color_masks g.current_player).testBit pinner = false :=
        hwf.enemy_bit_own_false hpin_enemy
      split at hm
      case _ hcnt =>
        have hraylt : lookup_between (first_square (g.piece_masks g.current_player King))
            pinner &&& g.color_masks g.current_player < 2 ^ 64 :=
          Nat.lt_of_le_of_lt Nat.and_le_right (hwf.cm_lt _)
        have hrayne : lookup_between (first_square (g.piece_masks g.current_player King))
            pinner &&& g.color_masks g.current_player ≠ 0 := by
          intro h0
          rw [count_ones_eq_length, h0] at hcnt
          rw [show squaresOf 0 = [] from by decide] at hcnt
          exact absurd hcnt (by simp)
        have hrayEq := eq_shl_one_of_count_one hraylt hcnt
        obtain ⟨hf64, hfbit, -⟩ := first_square_spec hrayne hraylt
        rw [List.mem_append] at hm
        rcases hm with hm | hm
        · -- pinned rook or queen moves
          split at hm
          case _ hne =>
            simp only [List.mem_map] at hm
            obtain ⟨t, htmem, rfl⟩ := hm
            obtain ⟨ht64, htbit⟩ := mem_squaresOf.mp htmem
            simp only [is_not_empty, bne_iff_ne, Ne] at hne
            have hprq_lt : lookup_between (first_square
                (g.piece_masks g.current_player King)) pinner &&&
                (g.piece_masks g.current_player Rook |||
                  g.piece_masks g.current_player Queen) < 2 ^ 64 :=
              Nat.lt_of_le_of_lt Nat.and_le_right
                (or_lt_64 (hwf.bound _ Rook) (hwf.bound _ Queen))
            obtain ⟨hrsq64, hrsqbit, -⟩ := first_square_spec hne hprq_lt
            rw [Nat.testBit_and] at hrsqbit
            obtain ⟨hrsq_ray, hrsq_u⟩ := Bool.and_eq_true_iff.mp hrsqbit
            have hsub : ∀ i, (lookup_between (first_square
                (g.piece_masks g.current_player King)) pinner &&&
                (g.piece_masks g.current_player Rook |||
                  g.piece_masks g.current_player Queen)).testBit i = true →
                i = first_square (lookup_between
                  (first_square (g.piece_masks g.current_player King)) pinner &&&
                  g.color_masks g.current_player) := by
              intro i hi
              rw [Nat.testBit_and] at hi
              obtain ⟨hi1, hi2⟩ := Bool.and_eq_true_iff.mp hi
              have hio : (g.color_masks g.current_player).testBit i = true := by
                rw [Nat.testBit_or] at hi2
                rcases Bool.or_eq_true_iff.mp hi2 with h | h
                · exact hwf.pm_bit_cm (by decide) h
                · exact hwf.pm_bit_cm (by decide) h
              have hiand : (lookup_between (first_square
                  (g.piece_masks g.current_player King)) pinner &&&
                  g.color_masks g.current_player).testBit i = true := by
                rw [Nat.testBit_and, hi1, hio]
                rfl
              have hchar := congrArg (fun z => z.testBit i) hrayEq
              simp only [testBit_shl_one] at hchar
              rw [hiand] at hchar
              have h2 := hchar.symm
              rw [Bool.and_eq_true_iff] at h2
              simpa using of_decide_eq_true h2.1
            have hprq_eq := eq_shl_one_of_subset hf64 hsub hne
            have hget : g.piece_at (first_square (lookup_between
                (first_square (g.piece_masks g.current_player King)) pinner &&&
                (g.piece_masks g.current_player Rook |||
                  g.piece_masks g.current_player Queen))) ≠ NoPiece ∧
                (g.color_masks g.current_player).testBit (first_square (lookup_between
                  (first_square (g.piece_masks g.current_player King)) pinner &&&
                  (g.piece_masks g.current_player Rook |||
                    g.piece_masks g.current_player Queen))) = true := by
              rw [Nat.testBit_or] at hrsq_u
              rcases Bool.or_eq_true_iff.mp hrsq_u with h | h
              · exact ⟨by rw [piece_at_of_testBit hwf (by decide) h hrsq64] ; decide,
                  hwf.pm_bit_cm (by decide) h⟩
              · exact ⟨by rw [piece_at_of_testBit hwf (by decide) h hrsq64] ; decide,
                  hwf.pm_bit_cm (by decide) h⟩
            obtain ⟨hPne, hos⟩ := hget
            rw [Nat.testBit_and, Nat.testBit_and] at htbit
            obtain ⟨hAB, hC⟩ := Bool.and_eq_true_iff.mp htbit
            obtain ⟨hA, -⟩ := Bool.and_eq_true_iff.mp hAB
            have hprq_t : (lookup_between (first_square
                (g.piece_masks g.current_player King)) pinner &&&
                (g.piece_masks g.current_player Rook |||
                  g.piece_masks g.current_player Queen)).testBit t = false :=
              testBit_of_inverse hC ht64
            have hot : (g.color_masks g.current_player).testBit t = false := by
              cases hb : (g.color_masks g.current_player).testBit t
              · rfl
              · exfalso
                rw [Nat.testBit_or] at hA
                rcases Bool.or_eq_true_iff.mp hA with hray | hpinb
                · have hiand : (lookup_between (first_square
                      (g.piece_masks g.current_player King)) pinner &&&
                      g.color_masks g.current_player).testBit t = true := by
                    rw [Nat.testBit_and, hray, hb]
                    rfl
                  have hchar := congrArg (fun z => z.testBit t) hrayEq
                  simp only [testBit_shl_one] at hchar
                  rw [hiand] at hchar
                  have h2 := hchar.symm
                  rw [Bool.and_eq_true_iff] at h2
                  have ht_f : t = first_square (lookup_between (first_square
                      (g.piece_masks g.current_player King)) pinner &&&
                      g.color_masks g.current_player) := by
                    simpa using of_decide_eq_true h2.1
                  rw [hprq_eq, testBit_shl_one, ht_f] at hprq_t
                  simp [hf64] at hprq_t
                · have htp : t = pinner := by
                    rw [testBit_shl_one] at hpinb
                    exact of_decide_eq_true (Bool.and_eq_true_iff.mp hpinb).1
                  rw [htp, hown_pinner] at hb
                  exact Bool.false_ne_true hb
            exact MoveOK.simple g hrsq64 ht64 hPne hot hos
          case _ => exact absurd hm (List.not_mem_nil m)
        · -- pinned pawn pushes
          split at hm
          case _ hne =>
            simp only [List.mem_map] at hm
            obtain ⟨t, htmem, rfl⟩ := hm
            obtain ⟨ht64, htbit⟩ := mem_squaresOf.mp htmem
            simp only [is_not_empty, bne_iff_ne, Ne] at hne
            have hpp_lt : lookup_between (first_square
                (g.piece_masks g.current_player King)) pinner &&&
                g.piece_masks g.current_player Pawn < 2 ^ 64 :=
              Nat.lt_of_le_of_lt Nat.and_le_right (hwf.bound _ Pawn)
            obtain ⟨hpsq64, hpsqbit, -⟩ := first_square_spec hne hpp_lt
            rw [Nat.testBit_and] at hpsqbit
            have hos : (g.color_masks g.current_player).testBit (first_square
                (lookup_between (first_square (g.piece_masks g.current_player King))
                  pinner &&& g.piece_masks g.current_player Pawn)) = true :=
              hwf.pm_bit_cm (by decide) (Bool.and_eq_true_iff.mp hpsqbit).2
            have hot : (g.color_masks g.current_player).testBit t = false :=
              pinned_pawn_push_free g hwf _ _ _ t ht64 htbit
            exact MoveOK.simple g hpsq64 ht64 (by decide) hot hos
          case _ => exact absurd hm (List.not_mem_nil m)
      case _ => exact absurd hm (List.not_mem_nil m)
    ·
      simp only [List.mem_flatMap] at hm
      obtain ⟨pinner, hpmem, hm⟩ := hm
      obtain ⟨hp64, hpbit⟩ := mem_squaresOf.mp hpmem
      rw [Nat.testBit_and] at hpbit
      have hpin_enemy : (g.color_masks g.current_player.not).testBit pinner = true := by
        have hu := (Bool.and_eq_true_iff.mp hpbit).1
        rw [Nat.testBit_or] at hu
        rcases Bool.or_eq_true_iff.mp hu with hB | hQ
        · exact hwf.pm_bit_cm (by decide) hB
        · exact hwf.pm_bit_cm (by decide) hQ
      have hown_pinner : (g.color_masks g.current_player).testBit pinner = false :=
        hwf.enemy_bit_own_false hpin_enemy
      split at hm
      case _ hcnt =>
        have hraylt : lookup_between (first_square (g.piece_masks g.current_player King))
            pinner &&& g.color_masks g.current_player < 2 ^ 64 :=
          Nat.lt_of_le_of_lt Nat.and_le_right (hwf.cm_lt _)
        have hrayne : lookup_between (first_square (g.piece_masks g.current_player King))
            pinner &&& g.color_masks g.current_player ≠ 0 := by
          intro h0
          rw [count_ones_eq_length, h0] at hcnt
          rw [show squaresOf 0 = [] from by decide] at hcnt
          exact absurd hcnt (by simp)
        have hrayEq := eq_shl_one_of_count_one hraylt hcnt
        obtain ⟨hf64, hfbit, -⟩ := first_square_spec hrayne hraylt
        rw [List.mem_append] at hm
        rcases hm with hm | hm
        · -- pinned bishop or queen moves
          split at hm
          case _ hne =>
            simp only [List.mem_map] at hm
            obtain ⟨t, htmem, rfl⟩ := hm
            obtain ⟨ht64, htbit⟩ := mem_squaresOf.mp htmem
            simp only [is_not_empty, bne_iff_ne, Ne] at hne
            have hprq_lt : lookup_between (first_square
                (g.piece_masks g.current_player King)) pinner &&&
                (g.piece_masks g.current_player Bishop |||
                  g.piece_masks g.current_player Queen) < 2 ^ 64 :=
              Nat.lt_of_le_of_lt Nat.and_le_right
                (or_lt_64 (hwf.bound _ Bishop) (hwf.bound _ Queen))
            obtain ⟨hrsq64, hrsqbit, -⟩ := first_square_spec hne hprq_lt
            rw [Nat.testBit_and] at hrsqbit
            obtain ⟨hrsq_ray, hrsq_u⟩ := Bool.and_eq_true_iff.mp hrsqbit
            have hsub : ∀ i, (lookup_between (first_square
                (g.piece_masks g.current_player King)) pinner &&&
                (g.piece_masks g.current_player Bishop |||
                  g.piece_masks g.current_player Queen)).testBit i = true →
                i = first_square (lookup_between
                  (first_square (g.piece_masks g.current_player King)) pinner &&&
                  g.color_masks g.current_player) := by
              intro i hi
              rw [Nat.testBit_and] at hi
              obtain ⟨hi1, hi2⟩ := Bool.and_eq_true_iff.mp hi
              have hio : (g.color_masks g.current_player).testBit i = true := by
                rw [Nat.testBit_or] at hi2
                rcases Bool.or_eq_true_iff.mp hi2 with h | h
                · exact hwf.pm_bit_cm (by decide) h
                · exact hwf.pm_bit_cm (by decide) h
              have hiand : (lookup_between (first_square
                  (g.piece_masks g.current_player King)) pinner &&&
                  g.color_masks g.current_player).testBit i = true := by
                rw [Nat.testBit_and, hi1, hio]
                rfl
              have hchar := congrArg (fun z => z.testBit i) hrayEq
              simp only [testBit_shl_one] at hchar
              rw [hiand] at hchar
              have h2 := hchar.symm
              rw [Bool.and_eq_true_iff] at h2
              simpa using of_decide_eq_true h2.1
            have hprq_eq := eq_shl_one_of_subset hf64 hsub hne
            have hget : g.piece_at (first_square (lookup_between
                (first_square (g.piece_masks g.current_player King)) pinner &&&
                (g.piece_masks g.current_player Bishop |||
                  g.piece_masks g.current_player Queen))) ≠ NoPiece ∧
                (g.color_masks g.current_player).testBit (first_square (lookup_between
                  (first_square (g.piece_masks g.current_player King)) pinner &&&
                  (g.piece_masks g.current_player Bishop |||
                    g.piece_masks g.current_player Queen))) = true := by
              rw [Nat.testBit_or] at hrsq_u
              rcases Bool.or_eq_true_iff.mp hrsq_u with h | h
              · exact ⟨by rw [piece_at_of_testBit hwf (by decide) h hrsq64] ; decide,
                  hwf.pm_bit_cm (by decide) h⟩
              · exact ⟨by rw [piece_at_of_testBit hwf (by decide) h hrsq64] ; decide,
                  hwf.pm_bit_cm (by decide) h⟩
            obtain ⟨hPne, hos⟩ := hget
            rw [Nat.testBit_and, Nat.testBit_and] at htbit
            obtain ⟨hAB, hC⟩ := Bool.and_eq_true_iff.mp htbit
            obtain ⟨hA, -⟩ := Bool.and_eq_true_iff.mp hAB
            have hprq_t : (lookup_between (first_square
                (g.piece_masks g.current_player King)) pinner &&&
                (g.piece_masks g.current_player Bishop |||
                  g.piece_masks g.current_player Queen)).testBit t = false :=
              testBit_of_inverse hC ht64
            have hot : (g.color_masks g.current_player).testBit t = false := by
              cases hb : (g.color_masks g.current_player).testBit t
              · rfl
              · exfalso
                rw [Nat.testBit_or] at hA
                rcases Bool.or_eq_true_iff.mp hA with hray | hpinb
                · have hiand : (lookup_between (first_square
                      (g.piece_masks g.current_player King)) pinner &&&
                      g.color_masks g.current_player).testBit t = true := by
                    rw [Nat.testBit_and, hray, hb]
                    rfl
                  have hchar := congrArg (fun z => z.testBit t) hrayEq
                  simp only [testBit_shl_one] at hchar
                  rw [hiand] at hchar
                  have h2 := hchar.symm
                  rw [Bool.and_eq_true_iff] at h2
                  have ht_f : t = first_square (lookup_between (first_square
                      (g.piece_masks g.current_player King)) pinner &&&
                      g.color_masks g.current_player) := by
                    simpa using of_decide_eq_true h2.1
                  rw [hprq_eq, testBit_shl_one, ht_f] at hprq_t
                  simp [hf64] at hprq_t
                · have htp : t = pinner := by
                    rw [testBit_shl_one] at hpinb
                    exact of_decide_eq_true (Bool.and_eq_true_iff.mp hpinb).1
                  rw [htp, hown_pinner] at hb
                  exact Bool.false_ne_true hb
            exact MoveOK.simple g hrsq64 ht64 hPne hot hos
          case _ => exact absurd hm (List.not_mem_nil m)
        · -- pinned pawn captures along the pin diagonal
          split at hm
          case _ hne =>
            simp only [List.mem_flatMap] at hm
            obtain ⟨t, htmem, hm⟩ := hm
            obtain ⟨ht64, htbit⟩ := mem_squaresOf.mp htmem
            simp only [is_not_empty, bne_iff_ne, Ne] at hne
            have hpp_lt : lookup_between (first_square
                (g.piece_masks g.current_player King)) pinner &&&
                g.piece_masks g.current_player Pawn < 2 ^ 64 :=
              Nat.lt_of_le_of_lt Nat.and_le_right (hwf.bound _ Pawn)
            obtain ⟨hpsq64, hpsqbit, -⟩ := first_square_spec hne hpp_lt
            rw [Nat.testBit_and] at hpsqbit
            have hos : (g.color_masks g.current_player).testBit (first_square
                (lookup_between (first_square (g.piece_masks g.current_player King))
                  pinner &&& g.piece_masks g.current_player Pawn)) = true :=
              hwf.pm_bit_cm (by decide) (Bool.and_eq_true_iff.mp hpsqbit).2
            rw [Nat.testBit_and, Nat.testBit_and, Nat.testBit_and] at htbit
            have hot : (g.color_masks g.current_player).testBit t = false :=
              hwf.own_false_of_enemy_or_ep (Bool.and_eq_true_iff.mp htbit).2
            split at hm
            case _ hrk =>
              simp only [List.mem_cons, List.not_mem_nil, or_false] at hm
              rcases hm with rfl | rfl | rfl | rfl
              all_goals exact MoveOK.promo g hpsq64 ht64 (by decide) hot hos
            case _ =>
              rw [List.mem_singleton] at hm
              subst hm
              refine MoveOK.pawn_take g hpsq64 ht64 hot hos ?_
              intro hf
              split at hf
              · exact absurd hf (by simp)
              · rename_i hepne
                obtain ⟨-, hepbit, -⟩ := first_square_spec hepne hwf.ep_lt
                rw [beq_iff_eq] at hf
                rw [hf]
                exact hepbit
          case _ => exact absurd hm (List.not_mem_nil m)
      case _ => exact absurd hm (List.not_mem_nil m)
    ·
      by_cases hnc : count_ones g.checkers = 0
      case neg =>
        rw [if_neg hnc] at hm
        exact absurd hm (List.not_mem_nil m)
      case pos =>
      rw [if_pos hnc] at hm
      have htoNat : g.current_player.toNat ≤ 1 := by
        cases g.current_player <;> decide
      rw [List.mem_append] at hm
      rcases hm with hm | hm
      · -- kingside castle
        split at hm
        · rename_i hck
          rw [Bool.and_eq_true, Bool.and_eq_true] at hck
          obtain ⟨⟨hr, he1⟩, -⟩ := hck
          have hkE : g.piece_masks g.current_player King =
              shl 1 (4 + 56 * g.current_player.toNat) := hwf.castle_king hr
          have hX : first_square (g.piece_masks g.current_player King) =
              4 + 56 * g.current_player.toNat := by
            rw [hkE]
            exact first_square_shl_one (by omega)
          simp only [List.mem_singleton] at hm
          subst hm
          rw [hX]
          have hoff : offset (4 + 56 * g.current_player.toNat) 2 0 =
              4 + 56 * g.current_player.toNat + 2 := by
            unfold offset
            omega
          rw [hoff]
          simp only [is_empty, beq_iff_eq] at he1
          rw [hkE, shl_shl_one, shl_shl_one] at he1
          have hcombT : g.combined.testBit (4 + 56 * g.current_player.toNat + 2) = false := by
            refine testBit_of_disjoint ((Nat.land_comm _ _).trans he1) ?_
            simp only [Nat.testBit_or, testBit_shl_one]
            have hlt : 4 + 56 * g.current_player.toNat + 2 < 64 := by omega
            simp [hlt]
          exact MoveOK.castle g (by omega) (by omega) rfl (Or.inl rfl) hcombT
        · exact absurd hm (List.not_mem_nil m)
      · -- queenside castle
        split at hm
        · rename_i hcq
          rw [Bool.and_eq_true, Bool.and_eq_true] at hcq
          obtain ⟨⟨hr, he1⟩, -⟩ := hcq
          have hkE : g.piece_masks g.current_player King =
              shl 1 (4 + 56 * g.current_player.toNat) := hwf.castle_king hr
          have hX : first_square (g.piece_masks g.current_player King) =
              4 + 56 * g.current_player.toNat := by
            rw [hkE]
            exact first_square_shl_one (by omega)
          simp only [List.mem_singleton] at hm
          subst hm
          rw [hX]
          have hoff : offset (4 + 56 * g.current_player.toNat) (-2) 0 =
              4 + 56 * g.current_player.toNat - 2 := by
            unfold offset
            omega
          rw [hoff]
          simp only [is_empty, beq_iff_eq] at he1
          rw [hkE, shr_shl_one 1 (by omega) (by omega), shr_shl_one 2 (by omega) (by omega),
            shr_shl_one 3 (by omega) (by omega)] at he1
          have hcombT : g.combined.testBit (4 + 56 * g.current_player.toNat - 2) = false := by
            refine testBit_of_disjoint ((Nat.land_comm _ _).trans he1) ?_
            simp only [Nat.testBit_or, testBit_shl_one]
            have hlt : 4 + 56 * g.current_player.toNat - 2 < 64 := by omega
            simp [hlt]
          exact MoveOK.castle g (by omega) (by omega) rfl (Or.inr (by omega)) hcombT
        · exact absurd hm (List.not_mem_nil m)
    ·
      by_cases hcw : g.current_player = White
      · rw [if_pos hcw] at hm
        simp only [List.mem_flatMap] at hm
        obtain ⟨psq, hpmem, hm⟩ := hm
        obtain ⟨hpsq64, hpsqbit⟩ := mem_squaresOf.mp hpmem
        rw [Nat.testBit_and] at hpsqbit
        have hos : (g.color_masks g.current_player).testBit psq = true :=
          hwf.pm_bit_cm (by decide) (Bool.and_eq_true_iff.mp hpsqbit).1
        rw [List.mem_append, List.mem_append] at hm
        rcases hm with (hm | hm) | hm
        · -- single pawn pushes
          rw [shl_shl_one] at hm
          split at hm
          case _ hne =>
            simp only [is_not_empty, bne_iff_ne, Ne] at hne
            have hsub : ∀ i, (shl 1 (psq + 8) &&& PMK &&& inverse g.combined).testBit i = true →
                i = psq + 8 ∧ i < 64 := by
              intro i hi
              rw [Nat.testBit_and, Nat.testBit_and, testBit_shl_one] at hi
              have hA := (Bool.and_eq_true_iff.mp (Bool.and_eq_true_iff.mp hi).1).1
              exact ⟨of_decide_eq_true (Bool.and_eq_true_iff.mp hA).1,
                of_decide_eq_true (Bool.and_eq_true_iff.mp hA).2⟩
            obtain ⟨j, hj⟩ := exists_testBit_of_ne_zero hne
            have hb64 : psq + 8 < 64 := by
              have := hsub j hj
              omega
            have hppoEq := eq_shl_one_of_subset hb64 (fun i hi => (hsub i hi).1) hne
            have hbit : (shl 1 (psq + 8) &&& PMK &&& inverse g.combined).testBit (psq + 8) =
                true := by
              rw [hppoEq, testBit_shl_one]
              simp [hb64]
            have hinv : (inverse g.combined).testBit (psq + 8) = true := by
              rw [Nat.testBit_and] at hbit
              exact (Bool.and_eq_true_iff.mp hbit).2
            have hot : (g.color_masks g.current_player).testBit (psq + 8) = false :=
              hwf.combined_false_cm (testBit_of_inverse hinv hb64)
            rw [hppoEq, first_square_shl_one hb64] at hm
            split at hm
            case _ hrk =>
              simp only [List.mem_cons, List.not_mem_nil, or_false] at hm
              rcases hm with rfl | rfl | rfl | rfl
              all_goals exact MoveOK.promo g hpsq64 hb64 (by decide) hot hos
            case _ =>
              rw [List.mem_singleton] at hm
              subst hm
              exact MoveOK.simple g hpsq64 hb64 (by decide) hot hos
          case _ => exact absurd hm (List.not_mem_nil m)
        · -- double pawn pushes
          split at hm
          case _ hne =>
            simp only [is_not_empty, bne_iff_ne, Ne] at hne
            have hsub : ∀ i, (shl (shl (shl 1 psq &&& SECOND_RANK) 8 &&& inverse g.combined) 8 &&&
                inverse g.combined &&& PMK).testBit i = true → i = psq + 16 ∧ i < 64 := by
              intro i hi
              rw [Nat.testBit_and, Nat.testBit_and] at hi
              have hX := (Bool.and_eq_true_iff.mp (Bool.and_eq_true_iff.mp hi).1).1
              rw [testBit_shl] at hX
              obtain ⟨h1, h2⟩ := Bool.and_eq_true_iff.mp hX
              obtain ⟨hi64, hi8⟩ := Bool.and_eq_true_iff.mp h1
              rw [Nat.testBit_and] at h2
              have hY := (Bool.and_eq_true_iff.mp h2).1
              rw [testBit_shl] at hY
              obtain ⟨h3, h4⟩ := Bool.and_eq_true_iff.mp hY
              obtain ⟨-, hi16d⟩ := Bool.and_eq_true_iff.mp h3
              rw [Nat.testBit_and, testBit_shl_one] at h4
              have h5 := (Bool.and_eq_true_iff.mp h4).1
              have heq : i - 8 - 8 = psq := of_decide_eq_true (Bool.and_eq_true_iff.mp h5).1
              have h8i : 8 ≤ i := of_decide_eq_true hi8
              have h8i2 : 8 ≤ i - 8 := of_decide_eq_true hi16d
              exact ⟨by omega, of_decide_eq_true hi64⟩
            obtain ⟨j, hj⟩ := exists_testBit_of_ne_zero hne
            have hb64 : psq + 16 < 64 := by
              have := hsub j hj
              omega
            have hpptEq := eq_shl_one_of_subset hb64 (fun i hi => (hsub i hi).1) hne
            have hbit : (shl (shl (shl 1 psq &&& SECOND_RANK) 8 &&& inverse g.combined) 8 &&&
                inverse g.combined &&& PMK).testBit (psq + 16) = true := by
              rw [hpptEq, testBit_shl_one]
              simp [hb64]
            have hinv : (inverse g.combined).testBit (psq + 16) = true := by
              rw [Nat.testBit_and, Nat.testBit_and] at hbit
              exact (Bool.and_eq_true_iff.mp (Bool.and_eq_true_iff.mp hbit).1).2
            have hot : (g.color_masks g.current_player).testBit (psq + 16) = false :=
              hwf.combined_false_cm (testBit_of_inverse hinv hb64)
            rw [hpptEq, first_square_shl_one hb64] at hm
            rw [List.mem_singleton] at hm
            subst hm
            exact MoveOK.simple g hpsq64 hb64 (by decide) hot hos
          case _ => exact absurd hm (List.not_mem_nil m)
        · -- pawn captures
          simp only [List.mem_flatMap] at hm
          obtain ⟨t, htmem, hm⟩ := hm
          obtain ⟨ht64, htbit⟩ := mem_squaresOf.mp htmem
          rw [Nat.testBit_and, Nat.testBit_and] at htbit
          have hot : (g.color_masks g.current_player).testBit t = false :=
            hwf.own_false_of_enemy_or_ep (Bool.and_eq_true_iff.mp htbit).2
          split at hm
          case _ hrk =>
            simp only [List.mem_cons, List.not_mem_nil, or_false] at hm
            rcases hm with rfl | rfl | rfl | rfl
            all_goals exact MoveOK.promo g hpsq64 ht64 (by decide) hot hos
          case _ =>
            split at hm
            case _ hept =>
              have hepbit : g.en_passent_mask.testBit t = true := by
                rw [← hept, testBit_shl_one]
                simp [ht64]
              split at hm
              case _ =>
                split at hm
                case _ => exact absurd hm (List.not_mem_nil m)
                case _ =>
                  rw [List.mem_singleton] at hm
                  subst hm
                  exact MoveOK.pawn_take g hpsq64 ht64 hot hos (fun _ => hepbit)
              case _ =>
                rw [List.mem_singleton] at hm
                subst hm
                exact MoveOK.pawn_take g hpsq64 ht64 hot hos (fun _ => hepbit)
            case _ =>
              rw [List.mem_singleton] at hm
              subst hm
              exact MoveOK.pawn_take g hpsq64 ht64 hot hos (fun h => absurd h (by simp))
      · rw [if_neg hcw] at hm
        simp only [List.mem_flatMap] at hm
        obtain ⟨psq, hpmem, hm⟩ := hm
        obtain ⟨hpsq64, hpsqbit⟩ := mem_squaresOf.mp hpmem
        rw [Nat.testBit_and] at hpsqbit
        have hos : (g.color_masks g.current_player).testBit psq = true :=
          hwf.pm_bit_cm (by decide) (Bool.and_eq_true_iff.mp hpsqbit).1
        rw [List.mem_append, List.mem_append] at hm
        rcases hm with (hm | hm) | hm
        · -- single pawn pushes
          split at hm
          case _ hne =>
            simp only [is_not_empty, bne_iff_ne, Ne] at hne
            have hsub : ∀ i, (shr (shl 1 psq) 8 &&& PMK &&& inverse g.combined).testBit i = true →
                i = psq - 8 := by
              intro i hi
              rw [Nat.testBit_and, Nat.testBit_and] at hi
              have hA := (Bool.and_eq_true_iff.mp (Bool.and_eq_true_iff.mp hi).1).1
              rw [testBit_shr, testBit_shl_one] at hA
              have h8 : 8 + i = psq := of_decide_eq_true (Bool.and_eq_true_iff.mp hA).1
              omega
            have hb64 : psq - 8 < 64 := by omega
            have hppoEq := eq_shl_one_of_subset hb64 hsub hne
            have hbit : (shr (shl 1 psq) 8 &&& PMK &&& inverse g.combined).testBit (psq - 8) =
                true := by
              rw [hppoEq, testBit_shl_one]
              simp [hb64]
            have hinv : (inverse g.combined).testBit (psq - 8) = true := by
              rw [Nat.testBit_and] at hbit
              exact (Bool.and_eq_true_iff.mp hbit).2
            have hot : (g.color_masks g.current_player).testBit (psq - 8) = false :=
              hwf.combined_false_cm (testBit_of_inverse hinv hb64)
            rw [hppoEq, first_square_shl_one hb64] at hm
            split at hm
            case _ hrk =>
              simp only [List.mem_cons, List.not_mem_nil, or_false] at hm
              rcases hm with rfl | rfl | rfl | rfl
              all_goals exact MoveOK.promo g hpsq64 hb64 (by decide) hot hos
            case _ =>
              rw [List.mem_singleton] at hm
              subst hm
              exact MoveOK.simple g hpsq64 hb64 (by decide) hot hos
          case _ => exact absurd hm (List.not_mem_nil m)
        · -- double pawn pushes
          split at hm
          case _ hne =>
            simp only [is_not_empty, bne_iff_ne, Ne] at hne
            have hsub : ∀ i, (shr (shr (shl 1 psq &&& SEVENTH_RANK) 8 &&& inverse g.combined) 8 &&&
                inverse g.combined &&& PMK).testBit i = true → i = psq - 16 := by
              intro i hi
              rw [Nat.testBit_and, Nat.testBit_and] at hi
              have hX := (Bool.and_eq_true_iff.mp (Bool.and_eq_true_iff.mp hi).1).1
              rw [testBit_shr, Nat.testBit_and] at hX
              have hY := (Bool.and_eq_true_iff.mp hX).1
              rw [testBit_shr, Nat.testBit_and, testBit_shl_one] at hY
              have h5 := (Bool.and_eq_true_iff.mp hY).1
              have heq : 8 + (8 + i) = psq := of_decide_eq_true (Bool.and_eq_true_iff.mp h5).1
              omega
            have hb64 : psq - 16 < 64 := by omega
            have hpptEq := eq_shl_one_of_subset hb64 hsub hne
            have hbit : (shr (shr (shl 1 psq &&& SEVENTH_RANK) 8 &&& inverse g.combined) 8 &&&
                inverse g.combined &&& PMK).testBit (psq - 16) = true := by
              rw [hpptEq, testBit_shl_one]
              simp [hb64]
            have hinv : (inverse g.combined).testBit (psq - 16) = true := by
              rw [Nat.testBit_and, Nat.testBit_and] at hbit
              exact (Bool.and_eq_true_iff.mp (Bool.and_eq_true_iff.mp hbit).1).2
            have hot : (g.color_masks g.current_player).testBit (psq - 16) = false :=
              hwf.combined_false_cm (testBit_of_inverse hinv hb64)
            rw [hpptEq, first_square_shl_one hb64] at hm
            rw [List.mem_singleton] at hm
            subst hm
            exact MoveOK.simple g hpsq64 hb64 (by decide) hot hos
          case _ => exact absurd hm (List.not_mem_nil m)
        · -- pawn captures
          simp only [List.mem_flatMap] at hm
          obtain ⟨t, htmem, hm⟩ := hm
          obtain ⟨ht64, htbit⟩ := mem_squaresOf.mp htmem
          rw [Nat.testBit_and, Nat.testBit_and] at htbit
          have hot : (g.color_masks g.current_player).testBit t = false :=
            hwf.own_false_of_enemy_or_ep (Bool.and_eq_true_iff.mp htbit).2
          split at hm
          case _ hrk =>
            simp only [List.mem_cons, List.not_mem_nil, or_false] at hm
            rcases hm with rfl | rfl | rfl | rfl
            all_goals exact MoveOK.promo g hpsq64 ht64 (by decide) hot hos
          case _ =>
            split at hm
            case _ hept =>
              have hepbit : g.en_passent_mask.testBit t = true := by
                rw [← hept, testBit_shl_one]
                simp [ht64]
              split at hm
              case _ =>
                split at hm
                case _ => exact absurd hm (List.not_mem_nil m)
                case _ =>
                  rw [List.mem_singleton] at hm
                  subst hm
                  exact MoveOK.pawn_take g hpsq64 ht64 hot hos (fun _ => hepbit)
              case _ =>
                rw [List.mem_singleton] at hm
                subst hm
                exact MoveOK.pawn_take g hpsq64 ht64 hot hos (fun _ => hepbit)
            case _ =>
              rw [List.mem_singleton] at hm
              subst hm
              exact MoveOK.pawn_take g hpsq64 ht64 hot hos (fun h => absurd h (by simp))
    ·
      simp only [List.mem_flatMap, List.mem_map] at hm
      obtain ⟨s, hsmem, t, htmem, rfl⟩ := hm
      obtain ⟨hs64, hsbit⟩ := mem_squaresOf.mp hsmem
      obtain ⟨ht64, htbit⟩ := mem_squaresOf.mp htmem
      rw [Nat.testBit_and] at hsbit
      rw [Nat.testBit_and, Nat.testBit_and] at htbit
      have hot : (g.color_masks g.current_player).testBit t = false :=
        testBit_of_inverse (Bool.and_eq_true_iff.mp (Bool.and_eq_true_iff.mp htbit).1).2 ht64
      have hos : (g.color_masks g.current_player).testBit s = true :=
        hwf.pm_bit_cm (by decide) (Bool.and_eq_true_iff.mp hsbit).1
      exact MoveOK.simple g hs64 ht64 (by decide) hot hos
    ·
      simp only [List.mem_flatMap, List.mem_map] at hm
      obtain ⟨s, hsmem, t, htmem, rfl⟩ := hm
      obtain ⟨hs64, hsbit⟩ := mem_squaresOf.mp hsmem
      obtain ⟨ht64, htbit⟩ := mem_squaresOf.mp htmem
      rw [Nat.testBit_and] at hsbit
      rw [Nat.testBit_and, Nat.testBit_and] at htbit
      have hot : (g.color_masks g.current_player).testBit t = false :=
        testBit_of_inverse (Bool.and_eq_true_iff.mp (Bool.and_eq_true_iff.mp htbit).1).2 ht64
      have hos : (g.color_masks g.current_player).testBit s = true :=
        hwf.pm_bit_cm (by decide) (Bool.and_eq_true_iff.mp hsbit).1
      exact MoveOK.simple g hs64 ht64 (by decide) hot hos
    ·
      simp only [List.mem_flatMap, List.mem_map] at hm
      obtain ⟨s, hsmem, t, htmem, rfl⟩ := hm
      obtain ⟨hs64, hsbit⟩ := mem_squaresOf.mp hsmem
      obtain ⟨ht64, htbit⟩ := mem_squaresOf.mp htmem
      rw [Nat.testBit_and] at hsbit
      rw [Nat.testBit_and, Nat.testBit_and] at htbit
      have hot : (g.color_masks g.current_player).testBit t = false :=
        testBit_of_inverse (Bool.and_eq_true_iff.mp (Bool.and_eq_true_iff.mp htbit).1).2 ht64
      have hos : (g.color_masks g.current_player).testBit s = true :=
        hwf.pm_bit_cm (by decide) (Bool.and_eq_true_iff.mp hsbit).1
      exact MoveOK.simple g hs64 ht64 (by decide) hot hos
    ·
      simp only [List.mem_flatMap, List.mem_map] at hm
      obtain ⟨s, hsmem, t, htmem, rfl⟩ := hm
      obtain ⟨hs64, hsbit⟩ := mem_squaresOf.mp hsmem
      obtain ⟨ht64, htbit⟩ := mem_squaresOf.mp htmem
      rw [Nat.testBit_and] at hsbit
      rw [Nat.testBit_and, Nat.testBit_and] at htbit
      have hot : (g.color_masks g.current_player).testBit t = false :=
        testBit_of_inverse (Bool.and_eq_true_iff.mp (Bool.and_eq_true_iff.mp htbit).1).2 ht64
      have hos : (g.color_masks g.current_player).testBit s = true :=
        hwf.pm_bit_cm (by decide) (Bool.and_eq_true_iff.mp hsbit).1
      exact MoveOK.simple g hs64 ht64 (by decide) hot hos

/-! ## Hash invariant: fold-XOR machinery -/

theorem xor_cancel_left (a b : Nat) : a ^^^ (a ^^^ b) = b := by
  rw [← Nat.xor_assoc, Nat.xor_self, Nat.zero_xor]

theorem xor_left_comm (a b c : Nat) : a ^^^ (b ^^^ c) = b ^^^ (a ^^^ c) := by
  rw [← Nat.xor_assoc, Nat.xor_comm a b, Nat.xor_assoc]

theorem xor_lt_64 {x y : Nat} (hx : x < 2 ^ 64) (hy : y < 2 ^ 64) : x ^^^ y < 2 ^ 64 :=
  Nat.xor_lt_two_pow hx hy

theorem shl_lt (b n : Nat) : shl b n < 2 ^ 64 := Nat.mod_lt _ (by norm_num)

theorem lor_eq_xor_of_disjoint {x y : Nat} (h : x &&& y = 0) : x ||| y = x ^^^ y := by
  apply Nat.eq_of_testBit_eq
  intro i
  have hb := congrArg (fun z => z.testBit i) h
  simp only [Nat.testBit_and, Nat.zero_testBit] at hb
  rw [Nat.testBit_or, Nat.testBit_xor]
  cases hx : x.testBit i <;> cases hy : y.testBit i <;> simp_all

theorem shl_one_and_shl_one {s t : Nat} (h : s ≠ t) : shl 1 s &&& shl 1 t = 0 := by
  apply Nat.eq_of_testBit_eq
  intro i
  simp only [Nat.testBit_and, testBit_shl_one, Nat.zero_testBit]
  rcases Nat.decEq i s with hs | hs <;> rcases Nat.decEq i t with ht | ht <;> simp_all

theorem foldl_xor_init (f : Nat → Nat) (l : List Nat) (a : Nat) :
    l.foldl (fun h s => h ^^^ f s) a = a ^^^ l.foldl (fun h s => h ^^^ f s) 0 := by
  induction l generalizing a with
  | nil => simp
  | cons hd tl ih =>
    simp only [List.foldl_cons]
    rw [ih (a ^^^ f hd), ih (0 ^^^ f hd), Nat.zero_xor, Nat.xor_assoc]

theorem foldl_xor_congr (f f' : Nat → Nat) (l : List Nat) (a : Nat)
    (h : ∀ i ∈ l, f i = f' i) :
    l.foldl (fun h s => h ^^^ f s) a = l.foldl (fun h s => h ^^^ f' s) a := by
  induction l generalizing a with
  | nil => rfl
  | cons hd tl ih =>
    simp only [List.foldl_cons]
    rw [h hd (by simp), ih _ (fun i hi => h i (by simp [hi]))]

theorem foldl_xor_update (f : Nat → Nat) (sq d : Nat) (l : List Nat) (a : Nat)
    (hnd : l.Nodup) (hmem : sq ∈ l) :
    l.foldl (fun h i => h ^^^ (if i = sq then f i ^^^ d else f i)) a =
      l.foldl (fun h i => h ^^^ f i) a ^^^ d := by
  induction l generalizing a with
  | nil => exact absurd hmem (List.not_mem_nil sq)
  | cons hd tl ih =>
    simp only [List.foldl_cons]
    rcases List.mem_cons.mp hmem with heq | hmem2
    · subst heq
      rw [if_pos rfl]
      have hnotin : sq ∉ tl := (List.nodup_cons.mp hnd).1
      have hcong : List.foldl (fun h i => h ^^^ (if i = sq then f i ^^^ d else f i))
          (a ^^^ (f sq ^^^ d)) tl =
          List.foldl (fun h i => h ^^^ f i) (a ^^^ (f sq ^^^ d)) tl :=
        foldl_xor_congr _ _ tl _ (fun i hi => by
          have hne : i ≠ sq := fun he => hnotin (he ▸ hi)
          simp [hne])
      rw [hcong, foldl_xor_init f tl (a ^^^ (f sq ^^^ d)), foldl_xor_init f tl (a ^^^ f sq)]
      simp [Nat.xor_assoc, Nat.xor_comm, xor_left_comm]
    · have hne : hd ≠ sq := fun he => (List.nodup_cons.mp hnd).1 (he ▸ hmem2)
      rw [if_neg hne, ih _ (List.nodup_cons.mp hnd).2 hmem2]

theorem foldl_xor_filter (p : Nat → Bool) (f : Nat → Nat) (l : List Nat) (a : Nat) :
    (l.filter p).foldl (fun h s => h ^^^ f s) a =
      l.foldl (fun h i => h ^^^ (if p i = true then f i else 0)) a := by
  induction l generalizing a with
  | nil => rfl
  | cons hd tl ih =>
    rw [List.filter_cons]
    cases hp : p hd
    · simp only [Bool.false_eq_true, if_false, List.foldl_cons, hp]
      rw [ih]
      simp
    · simp only [if_true, List.foldl_cons, hp]
      rw [ih]

theorem foldl_xor_flip (f : Nat → Nat) (b sq : Nat) (hb : b < 2 ^ 64) (hsq : sq < 64) :
    (squaresOf (b ^^^ shl 1 sq)).foldl (fun h s => h ^^^ f s) 0 =
      (squaresOf b).foldl (fun h s => h ^^^ f s) 0 ^^^ f sq := by
  unfold squaresOf
  rw [foldl_xor_filter, foldl_xor_filter]
  rw [foldl_xor_congr (fun i => if (b ^^^ shl 1 sq).testBit i = true then f i else 0)
    (fun i => if i = sq then (if b.testBit i = true then f i else 0) ^^^ f sq
      else (if b.testBit i = true then f i else 0)) _ _ ?_]
  · exact foldl_xor_update (fun i => if b.testBit i = true then f i else 0) sq (f sq)
      (List.range 64) 0 (List.nodup_range 64) (List.mem_range.mpr hsq)
  · intro i hi
    simp only [Nat.testBit_xor, testBit_shl_one]
    by_cases hisq : i = sq
    · subst hisq
      cases hbt : b.testBit i <;> simp [hbt, hsq]
    · simp [hisq]

theorem foldl_xor_flip_acc (f : Nat → Nat) (b sq a : Nat) (hb : b < 2 ^ 64) (hsq : sq < 64) :
    (squaresOf (b ^^^ shl 1 sq)).foldl (fun h s => h ^^^ f s) a =
      (squaresOf b).foldl (fun h s => h ^^^ f s) a ^^^ f sq := by
  rw [foldl_xor_init, foldl_xor_flip f b sq hb hsq, foldl_xor_init f (squaresOf b) a,
    Nat.xor_assoc]

theorem foldl_xor_acc_xor (f : Nat → Nat) (b a d : Nat) :
    (squaresOf b).foldl (fun h s => h ^^^ f s) (a ^^^ d) =
      (squaresOf b).foldl (fun h s => h ^^^ f s) a ^^^ d := by
  rw [foldl_xor_init, foldl_xor_init f _ a, Nat.xor_assoc, Nat.xor_assoc,
    Nat.xor_comm d]

theorem zobrist_pieces_of_flip (pm : PieceMasks) (c : ColorIndex) (p : PieceIndex) (sq : Nat)
    (hp : p ≠ NoPiece) (hlt : pm c p < 2 ^ 64) (hsq : sq < 64) :
    zobrist_pieces_of (updPM pm c p (pm c p ^^^ shl 1 sq)) =
      zobrist_pieces_of pm ^^^ zobrist_piece p c sq := by
  cases c <;> cases p <;> first
  | exact absurd rfl hp
  | (simp only [zobrist_pieces_of, List.foldl, updPM]
     simp only [reduceCtorEq, and_true, true_and, and_self, and_false, false_and,
       if_true, if_false]
     rw [foldl_xor_flip_acc _ _ _ _ hlt hsq]
     try simp only [foldl_xor_acc_xor])

theorem zobrist_pieces_of_flip2 (pm : PieceMasks) (c : ColorIndex) (p : PieceIndex)
    (s t : Nat) (hp : p ≠ NoPiece) (hlt : pm c p < 2 ^ 64) (hs : s < 64) (ht : t < 64)
    (hne : s ≠ t) :
    zobrist_pieces_of (updPM pm c p (pm c p ^^^ (shl 1 s ||| shl 1 t))) =
      zobrist_pieces_of pm ^^^ zobrist_piece p c s ^^^ zobrist_piece p c t := by
  rw [lor_eq_xor_of_disjoint (shl_one_and_shl_one hne), ← Nat.xor_assoc]
  have h1 : updPM pm c p (pm c p ^^^ shl 1 s ^^^ shl 1 t) =
      updPM (updPM pm c p (pm c p ^^^ shl 1 s)) c p
        ((updPM pm c p (pm c p ^^^ shl 1 s)) c p ^^^ shl 1 t) := by
    rw [updPM_same, updPM_overwrite]
  rw [h1, zobrist_pieces_of_flip _ c p t hp
    (by rw [updPM_same]; exact xor_lt_64 hlt (shl_lt 1 s)) ht]
  rw [zobrist_pieces_of_flip pm c p s hp hlt hs]

theorem zobrist_pieces_of_or_flip (pm : PieceMasks) (c : ColorIndex) (p : PieceIndex)
    (sq : Nat) (hp : p ≠ NoPiece) (hlt : pm c p < 2 ^ 64) (hsq : sq < 64)
    (hbit : (pm c p).testBit sq = false) :
    zobrist_pieces_of (updPM pm c p (pm c p ||| shl 1 sq)) =
      zobrist_pieces_of pm ^^^ zobrist_piece p c sq := by
  rw [lor_eq_xor_of_disjoint ((and_shl_one_eq_zero hsq).mpr hbit)]
  exact zobrist_pieces_of_flip pm c p sq hp hlt hsq

theorem zobrist_hash_eq (g : ChessGame) : zobrist_hash g =
    zobrist_pieces_of g.piece_masks ^^^
      (if g.current_player = Black then zobrist_player else 0) ^^^
      zobrist_castling g.castling_rights ^^^
      (if g.en_passent_mask = 0 then 0 else zobrist_enpassent g.en_passent_mask) := by
  unfold zobrist_hash
  by_cases hb : g.current_player = Black <;> by_cases hep : g.en_passent_mask = 0 <;>
    simp [hb, hep, is_not_empty, bne_iff_ne, zobrist_pieces_of]

theorem push_defect (g : ChessGame) (m : Move) (cap : PieceIndex) :
    (make_push_histories g m cap).hash ^^^ zobrist_hash (make_push_histories g m cap) =
      g.hash ^^^ zobrist_hash g := by
  simp only [zobrist_hash_eq, push_pm, push_cp, push_cr, push_ep, push_hash]

theorem clear_ep_ep (g : ChessGame) : (make_clear_ep g).en_passent_mask = 0 := by
  simp only [make_clear_ep]
  split
  · rfl
  · rename_i h
    simp only [is_not_empty, bne_iff_ne] at h
    exact of_not_not h

theorem clear_ep_defect (g : ChessGame) :
    (make_clear_ep g).hash ^^^ zobrist_hash (make_clear_ep g) =
      g.hash ^^^ zobrist_hash g := by
  simp only [make_clear_ep]
  split
  · rename_i h
    have hne : g.en_passent_mask ≠ 0 := by
      simpa [is_not_empty, bne_iff_ne] using h
    simp only [zobrist_hash_eq]
    simp [if_neg hne, Nat.xor_assoc, Nat.xor_comm, xor_left_comm, xor_cancel_left,
      Nat.xor_self, Nat.xor_zero, Nat.zero_xor]
  · rfl

theorem rights_piece_defect (g : ChessGame) (c : ColorIndex) (s : Nat) (p : PieceIndex) :
    (make_rights_piece g c s p).hash ^^^ zobrist_hash (make_rights_piece g c s p) =
      g.hash ^^^ zobrist_hash g := by
  simp only [make_rights_piece]
  repeat' split
  all_goals simp only [zobrist_hash_eq]
  all_goals simp [Nat.xor_assoc, Nat.xor_comm, xor_left_comm, xor_cancel_left,
    Nat.xor_self, Nat.xor_zero, Nat.zero_xor]

theorem rights_capture_defect (g : ChessGame) (c : ColorIndex) (t : Nat)
    (cap : PieceIndex) :
    (make_rights_capture g c t cap).hash ^^^ zobrist_hash (make_rights_capture g c t cap) =
      g.hash ^^^ zobrist_hash g := by
  simp only [make_rights_capture]
  repeat' split
  all_goals simp only [zobrist_hash_eq]
  all_goals simp [Nat.xor_assoc, Nat.xor_comm, xor_left_comm, xor_cancel_left,
    Nat.xor_self, Nat.xor_zero, Nat.zero_xor]

theorem finish_defect (g : ChessGame) :
    (make_finish g).hash ^^^ zobrist_hash (make_finish g) = g.hash ^^^ zobrist_hash g := by
  simp only [zobrist_hash_eq]
  cases hc : g.current_player <;>
    simp [make_finish, hc, ColorIndex.not, Nat.xor_assoc, Nat.xor_comm, xor_left_comm,
      xor_cancel_left, Nat.xor_self, Nat.xor_zero, Nat.zero_xor]

theorem updPM_bound {pm : PieceMasks} (c : ColorIndex) (p : PieceIndex) (v : Nat)
    (h : ∀ c' p', pm c' p' < 2 ^ 64) (hv : v < 2 ^ 64) (c' : ColorIndex) (p' : PieceIndex) :
    (updPM pm c p v) c' p' < 2 ^ 64 := by
  by_cases hc : c' = c ∧ p' = p
  · obtain ⟨rfl, rfl⟩ := hc
    rw [updPM_same]
    exact hv
  · rw [updPM_other _ _ _ _ hc]
    exact h c' p'

theorem castle_bound (g : ChessGame) (c : ColorIndex) (s t : Nat) (cas : Bool)
    (h : ∀ c' p', g.piece_masks c' p' < 2 ^ 64) (c' : ColorIndex) (p' : PieceIndex) :
    (make_castle g c s t cas).piece_masks c' p' < 2 ^ 64 := by
  simp only [make_castle]
  repeat' split
  all_goals first
  | exact h c' p'
  | exact updPM_bound _ _ _
      (fun a b => updPM_bound _ _ _ h
        (xor_lt_64 (h _ _) (or_lt_64 (shl_lt _ _) (shl_lt _ _))) a b)
      (xor_lt_64 (h _ _) (or_lt_64 (shl_lt _ _) (shl_lt _ _))) c' p'

theorem capture_bound (g : ChessGame) (c : ColorIndex) (t : Nat) (ep : Bool)
    (cap : PieceIndex) (h : ∀ c' p', g.piece_masks c' p' < 2 ^ 64)
    (c' : ColorIndex) (p' : PieceIndex) :
    (make_capture g c t ep cap).piece_masks c' p' < 2 ^ 64 := by
  simp only [make_capture]
  repeat' split
  all_goals first
  | exact h c' p'
  | exact updPM_bound _ _ _ h (xor_lt_64 (h _ _) (shl_lt _ _)) c' p'

theorem move_piece_bound (g : ChessGame) (c : ColorIndex) (s t : Nat) (p : PieceIndex)
    (cas : Bool) (h : ∀ c' p', g.piece_masks c' p' < 2 ^ 64)
    (c' : ColorIndex) (p' : PieceIndex) :
    (make_move_piece g c s t p cas).piece_masks c' p' < 2 ^ 64 := by
  cases cas
  · rw [move_piece_normal]
    exact updPM_bound _ _ _ h
      (xor_lt_64 (h _ _) (or_lt_64 (shl_lt _ _) (shl_lt _ _))) c' p'
  · rw [move_piece_castling]
    exact h c' p'

theorem capture_pm_slot (g : ChessGame) (c : ColorIndex) (t : Nat) (ep : Bool)
    (cap : PieceIndex) (c' : ColorIndex) (p' : PieceIndex) (h : c' ≠ c.not) :
    (make_capture g c t ep cap).piece_masks c' p' = g.piece_masks c' p' := by
  simp only [make_capture]
  repeat' split
  all_goals first
  | rfl
  | exact updPM_other _ _ _ _ (fun hand => h hand.1)

theorem castle_defect (g : ChessGame) (c : ColorIndex) (s t : Nat) (cas : Bool)
    (hlt : ∀ c' p', g.piece_masks c' p' < 2 ^ 64)
    (hcase : cas = true → s = 4 + 56 * c.toNat ∧ (t = s + 2 ∨ t + 2 = s)) :
    (make_castle g c s t cas).hash ^^^ zobrist_hash (make_castle g c s t cas) =
      g.hash ^^^ zobrist_hash g := by
  cases cas
  · rw [castle_false]
  · obtain ⟨hs, htarg⟩ := hcase rfl
    have hcn : c.toNat ≤ 1 := by cases c <;> decide
    rcases htarg with rfl | hq
    · have hdx : ((s + 2 : Nat) : Int) - (s : Nat) = 2 := by push_cast; ring
      simp only [make_castle, if_true]
      simp only [if_pos hdx]
      have hrs : offset (s + 2) 1 0 = s + 3 := by
        unfold offset
        omega
      have hrt : offset (s + 2) (-1) 0 = s + 1 := by
        unfold offset
        omega
      simp only [hrs, hrt]
      simp only [zobrist_hash_eq]
      rw [show g.piece_masks c Rook =
          (updPM g.piece_masks c King
            (g.piece_masks c King ^^^ (shl 1 (s + 2) ||| shl 1 s))) c Rook
        from (updPM_other _ _ _ _ (fun hand => absurd hand.2 (by decide))).symm]
      rw [zobrist_pieces_of_flip2 _ c Rook (s + 1) (s + 3) (by decide)
        (by rw [updPM_other _ _ _ _ (fun hand => absurd hand.2 (by decide))]
            exact hlt c Rook)
        (by omega) (by omega) (by omega)]
      rw [zobrist_pieces_of_flip2 g.piece_masks c King (s + 2) s (by decide) (hlt c King)
        (by omega) (by omega) (by omega)]
      simp [Nat.xor_assoc, Nat.xor_comm, xor_left_comm, xor_cancel_left, Nat.xor_self,
        Nat.xor_zero, Nat.zero_xor]
    · have hdx : ¬(((t : Nat) : Int) - (s : Nat) = 2) := by omega
      simp only [make_castle, if_true]
      simp only [if_neg hdx]
      have hrs : offset t (-2) 0 = t - 2 := by
        unfold offset
        omega
      have hrt : offset t 1 0 = t + 1 := by
        unfold offset
        omega
      simp only [hrs, hrt]
      simp only [zobrist_hash_eq]
      rw [show g.piece_masks c Rook =
          (updPM g.piece_masks c King
            (g.piece_masks c King ^^^ (shl 1 t ||| shl 1 s))) c Rook
        from (updPM_other _ _ _ _ (fun hand => absurd hand.2 (by decide))).symm]
      rw [zobrist_pieces_of_flip2 _ c Rook (t + 1) (t - 2) (by decide)
        (by rw [updPM_other _ _ _ _ (fun hand => absurd hand.2 (by decide))]
            exact hlt c Rook)
        (by omega) (by omega) (by omega)]
      rw [zobrist_pieces_of_flip2 g.piece_masks c King t s (by decide) (hlt c King)
        (by omega) (by omega) (by omega)]
      simp [Nat.xor_assoc, Nat.xor_comm, xor_left_comm, xor_cancel_left, Nat.xor_self,
        Nat.xor_zero, Nat.zero_xor]

theorem capture_defect (g : ChessGame) (c : ColorIndex) (t : Nat) (ep : Bool)
    (cap : PieceIndex) (hlt : ∀ c' p', g.piece_masks c' p' < 2 ^ 64)
    (ht : t < 64) (hte : ep = true → t < 48) :
    (make_capture g c t ep cap).hash ^^^ zobrist_hash (make_capture g c t ep cap) =
      g.hash ^^^ zobrist_hash g := by
  by_cases hcap : cap = NoPiece
  · subst hcap
    rw [capture_none]
  · simp only [make_capture, if_pos hcap]
    cases ep
    · rw [if_neg Bool.false_ne_true]
      simp only [zobrist_hash_eq]
      rw [zobrist_pieces_of_flip g.piece_masks c.not cap t hcap (hlt _ _) ht]
      simp [Nat.xor_assoc, Nat.xor_comm, xor_left_comm, xor_cancel_left, Nat.xor_self,
        Nat.xor_zero, Nat.zero_xor]
    · rw [if_pos rfl]
      cases c
      · rw [if_pos rfl]
        have hoff : offset t 0 (-1) = t - 8 := by
          unfold offset
          omega
        rw [hoff]
        simp only [zobrist_hash_eq]
        rw [zobrist_pieces_of_flip g.piece_masks White.not cap (t - 8) hcap (hlt _ _)
          (by omega)]
        simp [Nat.xor_assoc, Nat.xor_comm, xor_left_comm, xor_cancel_left, Nat.xor_self,
          Nat.xor_zero, Nat.zero_xor]
      · rw [if_neg (by decide : ¬(Black = White))]
        have h48 := hte rfl
        have hoff : offset t 0 1 = t + 8 := by
          unfold offset
          omega
        rw [hoff]
        simp only [zobrist_hash_eq]
        rw [zobrist_pieces_of_flip g.piece_masks Black.not cap (t + 8) hcap (hlt _ _)
          (by omega)]
        simp [Nat.xor_assoc, Nat.xor_comm, xor_left_comm, xor_cancel_left, Nat.xor_self,
          Nat.xor_zero, Nat.zero_xor]

theorem move_piece_defect (g : ChessGame) (c : ColorIndex) (s t : Nat) (p : PieceIndex)
    (cas : Bool) (hlt : ∀ c' p', g.piece_masks c' p' < 2 ^ 64)
    (hq : cas = false → p ≠ NoPiece ∧ s < 64 ∧ t < 64 ∧ s ≠ t) :
    (make_move_piece g c s t p cas).hash ^^^ zobrist_hash (make_move_piece g c s t p cas) =
      g.hash ^^^ zobrist_hash g := by
  cases cas
  · obtain ⟨hp, hs, ht, hne⟩ := hq rfl
    rw [move_piece_normal]
    simp only [zobrist_hash_eq]
    rw [zobrist_pieces_of_flip2 g.piece_masks c p s t hp (hlt c p) hs ht hne]
    simp [Nat.xor_assoc, Nat.xor_comm, xor_left_comm, xor_cancel_left, Nat.xor_self,
      Nat.xor_zero, Nat.zero_xor]
  · rw [move_piece_castling]

theorem pawn_defect (g : ChessGame) (c : ColorIndex) (m : Move)
    (hlt : ∀ c' p', g.piece_masks c' p' < 2 ^ 64)
    (hep0 : g.en_passent_mask = 0)
    (hpr : m.promotion ≠ NoPiece → m.promotion ≠ Pawn ∧ m.target < 64 ∧
      (g.piece_masks c m.promotion).testBit m.target = false) :
    (make_pawn g c m).hash ^^^ zobrist_hash (make_pawn g c m) =
      g.hash ^^^ zobrist_hash g := by
  by_cases hpawn : m.piece = Pawn
  case neg => rw [pawn_not_pawn _ _ _ hpawn]
  case pos =>
    simp only [make_pawn, if_pos hpawn]
    generalize shl 1 (if c = White then offset m.target 0 (-1) else offset m.target 0 1) &&&
      g.pawn_attacks c.not = E
    by_cases hpromo : m.promotion ≠ NoPiece
    · obtain ⟨hpp, ht64, hbit⟩ := hpr hpromo
      have hbit1 : ((updPM g.piece_masks c Pawn
          (g.piece_masks c Pawn ^^^ shl 1 m.target)) c m.promotion).testBit m.target =
          false := by
        rw [updPM_other _ _ _ _ (fun hand => hpp hand.2)]
        exact hbit
      have hlt1 : (updPM g.piece_masks c Pawn
          (g.piece_masks c Pawn ^^^ shl 1 m.target)) c m.promotion < 2 ^ 64 := by
        rw [updPM_other _ _ _ _ (fun hand => hpp hand.2)]
        exact hlt c m.promotion
      rw [if_pos hpromo]
      by_cases hdpp : m.double_pawn_push = true
      · rw [if_pos hdpp]
        split
        · rename_i hNE
          have hE : E ≠ 0 := by
            simpa [is_not_empty, bne_iff_ne] using hNE
          simp only [zobrist_hash_eq]
          rw [zobrist_pieces_of_or_flip _ c m.promotion m.target hpromo hlt1 ht64 hbit1]
          rw [zobrist_pieces_of_flip g.piece_masks c Pawn m.target (by decide)
            (hlt c Pawn) ht64]
          simp [hep0, hE, Nat.xor_assoc, Nat.xor_comm, xor_left_comm, xor_cancel_left,
            Nat.xor_self, Nat.xor_zero, Nat.zero_xor]
        · rename_i hNE
          have hE : E = 0 := of_not_not (by simpa [is_not_empty, bne_iff_ne] using hNE)
          simp only [zobrist_hash_eq]
          rw [zobrist_pieces_of_or_flip _ c m.promotion m.target hpromo hlt1 ht64 hbit1]
          rw [zobrist_pieces_of_flip g.piece_masks c Pawn m.target (by decide)
            (hlt c Pawn) ht64]
          simp [hep0, hE, Nat.xor_assoc, Nat.xor_comm, xor_left_comm, xor_cancel_left,
            Nat.xor_self, Nat.xor_zero, Nat.zero_xor]
      · rw [if_neg hdpp]
        simp only [zobrist_hash_eq]
        rw [zobrist_pieces_of_or_flip _ c m.promotion m.target hpromo hlt1 ht64 hbit1]
        rw [zobrist_pieces_of_flip g.piece_masks c Pawn m.target (by decide)
          (hlt c Pawn) ht64]
        simp [hep0, Nat.xor_assoc, Nat.xor_comm, xor_left_comm, xor_cancel_left,
          Nat.xor_self, Nat.xor_zero, Nat.zero_xor]
    · rw [if_neg hpromo]
      by_cases hdpp : m.double_pawn_push = true
      · rw [if_pos hdpp]
        split
        · rename_i hNE
          have hE : E ≠ 0 := by
            simpa [is_not_empty, bne_iff_ne] using hNE
          simp only [zobrist_hash_eq]
          simp [hep0, hE, Nat.xor_assoc, Nat.xor_comm, xor_left_comm, xor_cancel_left,
            Nat.xor_self, Nat.xor_zero, Nat.zero_xor]
        · rename_i hNE
          have hE : E = 0 := of_not_not (by simpa [is_not_empty, bne_iff_ne] using hNE)
          simp only [zobrist_hash_eq]
          simp [hep0, hE, Nat.xor_assoc, Nat.xor_comm, xor_left_comm, xor_cancel_left,
            Nat.xor_self, Nat.xor_zero, Nat.zero_xor]
      · rw [if_neg hdpp]
        simp only [zobrist_hash_eq]

theorem make_move_defect (g : ChessGame) (m : Move) (hwf : WF g) (hok : MoveOK g m) :
    (make_move g m).hash ^^^ zobrist_hash (make_move g m) = g.hash ^^^ zobrist_hash g := by
  obtain ⟨hs64, ht64, hnc, hyp, hepok, hcasok⟩ := hok
  unfold make_move
  rw [finish_defect, pawn_defect _ _ _ ?hlt7 ?hep07 ?hpr7,
    move_piece_defect _ _ _ _ _ _ ?hlt6 ?hq6,
    rights_capture_defect, rights_piece_defect, clear_ep_defect,
    capture_defect _ _ _ _ _ ?hlt2 ht64 ?hte2,
    castle_defect _ _ _ _ _ ?hlt1 ?hcase1,
    push_defect]
  case hlt1 =>
    intro a b
    rw [push_pm]
    exact hwf.bound a b
  case hlt2 =>
    intro a b
    exact castle_bound _ _ _ _ _ (fun d e => by rw [push_pm]; exact hwf.bound d e) a b
  case hlt6 =>
    intro a b
    rw [rights_capture_pm, rights_piece_pm, clear_ep_pm]
    exact capture_bound _ _ _ _ _
      (fun d e => castle_bound _ _ _ _ _ (fun d' e' => by rw [push_pm]; exact hwf.bound d' e') d e)
      a b
  case hlt7 =>
    intro a b
    exact move_piece_bound _ _ _ _ _ _
      (fun d e => by
        rw [rights_capture_pm, rights_piece_pm, clear_ep_pm]
        exact capture_bound _ _ _ _ _
          (fun d' e' => castle_bound _ _ _ _ _
            (fun d2 e2 => by rw [push_pm]; exact hwf.bound d2 e2) d' e') d e)
      a b
  case hep07 =>
    rw [move_piece_ep, rights_capture_ep, rights_piece_ep]
    exact clear_ep_ep _
  case hq6 =>
    intro h
    obtain ⟨hot, hos, hp⟩ := hnc h
    refine ⟨hp, hs64, ht64, fun he => ?_⟩
    rw [he, hot] at hos
    exact Bool.false_ne_true hos
  case hpr7 =>
    intro h
    obtain ⟨hpiece, hpp, hcasf⟩ := hyp h
    refine ⟨hpp, ht64, ?_⟩
    rw [hcasf]
    simp only [move_piece_normal]
    rw [updPM_other _ _ _ _ (fun hand => hpp (hand.2.trans hpiece))]
    rw [rights_capture_pm, rights_piece_pm, clear_ep_pm]
    rw [capture_pm_slot _ _ _ _ _ _ _ (fun he => not_ne_self g.current_player he.symm)]
    rw [castle_false, push_pm]
    exact hwf.cm_false_pm h (hnc hcasf).1
  case hcase1 =>
    intro h
    exact ⟨(hcasok h).2.2.2.1, (hcasok h).2.2.2.2.1⟩
  case hte2 =>
    intro h
    exact (hwf.ep_target_range (hepok h).2.2.2).2

theorem make_null_eval_ep0 (g : ChessGame) (hep : g.en_passent_mask = 0) :
    g.make_null_move = { g with
      unmove_history := UnMove.new 0 0 false NoPiece false g.en_passent_mask false
        g.castling_rights 0 :: g.unmove_history,
      position_history := g.hash :: g.position_history,
      current_player := g.current_player.not,
      halfmove_clock := (g.halfmove_clock + 1) % 256,
      hash := g.hash ^^^ zobrist_player } := by
  simp [make_null_move, is_not_empty, hep]

theorem make_null_eval_ep (g : ChessGame) (hep : g.en_passent_mask ≠ 0) :
    g.make_null_move = { g with
      unmove_history := UnMove.new 0 0 false NoPiece false g.en_passent_mask false
        g.castling_rights 0 :: g.unmove_history,
      position_history := g.hash :: g.position_history,
      en_passent_mask := 0,
      current_player := g.current_player.not,
      halfmove_clock := (g.halfmove_clock + 1) % 256,
      hash := g.hash ^^^ zobrist_enpassent g.en_passent_mask ^^^ zobrist_player } := by
  simp [make_null_move, is_not_empty, bne_iff_ne, hep]

theorem make_null_defect (g : ChessGame) :
    g.make_null_move.hash ^^^ zobrist_hash g.make_null_move =
      g.hash ^^^ zobrist_hash g := by
  by_cases hep : g.en_passent_mask = 0
  · rw [make_null_eval_ep0 g hep]
    simp only [zobrist_hash_eq]
    cases hc : g.current_player <;>
      simp [ColorIndex.not, hep, Nat.xor_assoc, Nat.xor_comm, xor_left_comm,
        xor_cancel_left, Nat.xor_self, Nat.xor_zero, Nat.zero_xor]
  · rw [make_null_eval_ep g hep]
    simp only [zobrist_hash_eq]
    cases hc : g.current_player <;>
      simp [ColorIndex.not, if_neg hep, Nat.xor_assoc, Nat.xor_comm, xor_left_comm,
        xor_cancel_left, Nat.xor_self, Nat.xor_zero, Nat.zero_xor]

theorem make_null_unmake (g : ChessGame) (hc : g.halfmove_clock < 256) :
    g.make_null_move.unmake_null_move = g := by
  by_cases hep : g.en_passent_mask = 0
  · rw [make_null_eval_ep0 g hep]
    unfold unmake_null_move
    exact ext' rfl rfl rfl (ColorIndex.not_not _) rfl rfl
      (show ((g.halfmove_clock + 1) % 256 + 255) % 256 = g.halfmove_clock by omega)
      rfl rfl rfl
  · rw [make_null_eval_ep g hep]
    unfold unmake_null_move
    exact ext' rfl rfl rfl (ColorIndex.not_not _) rfl rfl
      (show ((g.halfmove_clock + 1) % 256 + 255) % 256 = g.halfmove_clock by omega)
      rfl rfl rfl

/-- CLAIM C1 — make/unmake identity: for a well-formed position and any
move generated by legal_moves, make_move followed by unmake_move
restores the position exactly, every field included (piece and color
bitboards, combined mask, side to move, castling rights, en-passant
mask, halfmove clock, hash and the two history stacks). -/
theorem make_unmake_round_trip (g : ChessGame) (hwf : WF g) (m : Move)
    (hm : m ∈ g.legal_moves) : (g.make_move m).unmake_move = g :=
  unmake_make_of_MoveOK g m hwf (legal_moves_MoveOK g hwf m hm)

/-- CLAIM C1 (witness): the round trip at the initial position with the
knight move b1-c3. -/
theorem make_unmake_round_trip_witness :
    WF newGame ∧ Move.knight_move 1 18 false ∈ newGame.legal_moves ∧
      (newGame.make_move (Move.knight_move 1 18 false)).unmake_move = newGame :=
  ⟨by decide, by decide,
    make_unmake_round_trip newGame (by decide) (Move.knight_move 1 18 false) (by decide)⟩

/-- CLAIM C2 (counterexample): the claim quantifies over ANY sequence of
make_move / unmake_move / make_null_move / unmake_null_move calls, but an
unbalanced sequence breaks the invariant: from the initial position,
make_move with the legal knight move b1-c3 followed by unmake_null_move
(which pops the record of the knight move but does not move any piece
back) leaves hash different from the recomputation zobrist_hash. -/
theorem hash_invariant_unbalanced_fails :
    Move.knight_move 1 18 false ∈ newGame.legal_moves ∧
      newGame.hash = zobrist_hash newGame ∧
      (newGame.make_move (Move.knight_move 1 18 false)).unmake_null_move.hash ≠
        zobrist_hash (newGame.make_move (Move.knight_move 1 18 false)).unmake_null_move :=
  ⟨by decide, by decide, by decide⟩

/-- CLAIM C2 (amended) — the incrementally maintained hash equals the
from-scratch zobrist_hash recomputation after every properly bracketed
step from a well-formed position satisfying the invariant: make_move with
a generated legal move preserves it, make_null_move preserves it, and
unmake_move / unmake_null_move restore it when they undo the matching
make. -/
theorem hash_invariant_steps (g : ChessGame) (hwf : WF g)
    (hq : g.hash = zobrist_hash g) :
    (∀ m ∈ g.legal_moves, (g.make_move m).hash = zobrist_hash (g.make_move m)) ∧
      g.make_null_move.hash = zobrist_hash g.make_null_move ∧
      (∀ m ∈ g.legal_moves, (g.make_move m).unmake_move.hash =
        zobrist_hash (g.make_move m).unmake_move) ∧
      g.make_null_move.unmake_null_move.hash =
        zobrist_hash g.make_null_move.unmake_null_move := by
  refine ⟨?_, ?_, ?_, ?_⟩
  · intro m hm
    have hd := make_move_defect g m hwf (legal_moves_MoveOK g hwf m hm)
    rw [hq, Nat.xor_self] at hd
    exact Nat.xor_eq_zero.mp hd
  · have hd := make_null_defect g
    rw [hq, Nat.xor_self] at hd
    exact Nat.xor_eq_zero.mp hd
  · intro m hm
    rw [unmake_make_of_MoveOK g m hwf (legal_moves_MoveOK g hwf m hm)]
    exact hq
  · rw [make_null_unmake g hwf.clock]
    exact hq

/-- CLAIM C2 (witness): the invariant holds at the initial position and
is preserved by the legal knight move b1-c3. -/
theorem hash_invariant_steps_witness :
    WF newGame ∧ newGame.hash = zobrist_hash newGame ∧
      Move.knight_move 1 18 false ∈ newGame.legal_moves ∧
      (newGame.make_move (Move.knight_move 1 18 false)).hash =
        zobrist_hash (newGame.make_move (Move.knight_move 1 18 false)) :=
  ⟨by decide, by decide, by decide,
    (hash_invariant_steps newGame (by decide) (by decide)).1
      (Move.knight_move 1 18 false) (by decide)⟩

end ChessGame

end Cheers
